import Mathlib

/-!
Verification of the dxf-parser codec core (scanner, group-value typing,
structural parsers, record reconstructors, section assembler) against its
natural-language specification.

Modelling conventions, used throughout and referred to from doc comments:

* JavaScript numbers are modelled as exact decimal rationals: `JsNum := Option ℚ`,
  `none` playing the role of `NaN`.  All numeric values that the source ever
  produces come from `parseFloat` / `parseInt` on decimal text, so they are
  decimal rationals; IEEE-754 binary rounding and the engine's
  shortest-round-trip float formatting are outside the shallow embedding.
  Rendering (`${'{'}value{'}'}` in the source) is modelled as canonical decimal
  rendering of the rational (sign, no leading zeros, no trailing zeros in the
  fraction), which agrees with JavaScript formatting on all values appearing in
  the theorems below.
* Strict JS equality (`===`) on dynamically typed values is modelled by
  `GroupValue.jsEq`; `NaN === x` is `false` for every `x`, including `NaN`.
* A group code is `parseInt` of a raw line and may be `NaN`: `JsCode := Option ℤ`.
* Thrown exceptions are modelled with `Except String`, carrying the exact
  message string the source builds.
* `undefined` array reads (`data[i]` out of bounds) can only arise after a
  caller-induced pointer underflow, which the specification declares a
  programming error; where the source would read `undefined` we read `""`,
  except in error messages, where the text `"undefined"` is produced exactly
  as JS string concatenation would.
* `while` loops are modelled by structural recursion on an explicit fuel
  argument; every public entry point supplies fuel that is sufficient for
  every input reachable in the theorems below (fuel exhaustion is a model
  artefact reported as the error `"model: out of fuel"` and never occurs in
  any theorem).
-/

namespace Dxf

/-- JavaScript number: an exact decimal rational, or `none` for `NaN`. -/
abbrev JsNum := Option ℚ

/-- JavaScript group code: result of `parseInt` on a raw line (`none` = `NaN`). -/
abbrev JsCode := Option ℤ

/-! ## JS primitive string/number conversions -/

/-- Whitespace recognised by JS `parseInt`/`parseFloat`/`trim` (the subset that
can occur on a line after newline splitting). -/
def isJsSpace (c : Char) : Bool :=
  c = ' ' || c = '\t' || c = '\x0b' || c = '\x0c'

/-- Numeric value of a decimal digit character. -/
def digitVal (c : Char) : ℕ := c.toNat - 48

/-- Decimal digit list to number, most significant first. -/
def parseNatChars (cs : List Char) : ℕ :=
  cs.foldl (fun a c => 10 * a + digitVal c) 0

/-- Read an optional sign, returning `true` for `-`. -/
def readSign (cs : List Char) : Bool × List Char :=
  match cs with
  | c :: r => if c = '-' then (true, r) else if c = '+' then (false, r) else (false, cs)
  | [] => (false, [])

/-- Model of JS `parseInt(s, 10)`: skip whitespace, optional sign, longest
decimal-digit prefix; `NaN` (`none`) if there is no digit. -/
def parseIntJS (s : String) : Option ℤ :=
  let cs := s.data.dropWhile isJsSpace
  let (neg, cs) := readSign cs
  let ds := cs.takeWhile Char.isDigit
  if ds.isEmpty then none
  else some (if neg then -(parseNatChars ds : ℤ) else (parseNatChars ds : ℤ))

/-- Value of a hexadecimal digit character, if any. -/
def hexVal (c : Char) : Option ℕ :=
  if c.isDigit then some (c.toNat - 48)
  else if 'a' ≤ c && c ≤ 'f' then some (c.toNat - 87)
  else if 'A' ≤ c && c ≤ 'F' then some (c.toNat - 55)
  else none

/-- Model of JS `parseInt(s)` with no radix argument: as `parseIntJS`, except
that a `0x`/`0X` prefix switches to hexadecimal. -/
def parseIntJSAuto (s : String) : Option ℤ :=
  let cs := s.data.dropWhile isJsSpace
  let (neg, cs) := readSign cs
  if cs.head? = some '0' && (cs.get? 1 = some 'x' || cs.get? 1 = some 'X') then
    let ds := (cs.drop 2).takeWhile (fun c => (hexVal c).isSome)
    if ds.isEmpty then none
    else
      let v : ℕ := ds.foldl (fun a c => 16 * a + (hexVal c).getD 0) 0
      some (if neg then -(v : ℤ) else (v : ℤ))
  else
    let ds := cs.takeWhile Char.isDigit
    if ds.isEmpty then none
    else some (if neg then -(parseNatChars ds : ℤ) else (parseNatChars ds : ℤ))

/-- Model of JS `parseFloat`: skip whitespace, optional sign, decimal digits
with optional fraction and optional exponent; `NaN` (`none`) when no digit is
found.  The longest valid prefix is parsed, as in JS. -/
def parseFloatJS (s : String) : JsNum :=
  let cs := s.data.dropWhile isJsSpace
  let (neg, cs) := readSign cs
  let ip := cs.takeWhile Char.isDigit
  let cs := cs.dropWhile Char.isDigit
  let (fp, cs) :=
    if cs.head? = some '.' then (cs.tail.takeWhile Char.isDigit, cs.tail.dropWhile Char.isDigit)
    else ([], cs)
  if ip.isEmpty && fp.isEmpty then none
  else
    let mant : ℚ := (parseNatChars ip : ℚ) + (parseNatChars fp : ℚ) / (10 : ℚ) ^ fp.length
    let mant : ℚ := if neg then -mant else mant
    if cs.head? = some 'e' || cs.head? = some 'E' then
      let (eneg, rest) := readSign cs.tail
      let ed := rest.takeWhile Char.isDigit
      if ed.isEmpty then some mant
      else some (mant * (10 : ℚ) ^ (if eneg then -(parseNatChars ed : ℤ) else (parseNatChars ed : ℤ)))
    else some mant

/-- Decimal digit character for a value below 10. -/
def digitChar (d : ℕ) : Char := Char.ofNat (48 + d)

/-- Little-endian base-10 digits, by structural recursion on a fuel bound so
that concrete values reduce inside the kernel. -/
def natDigitsAux : ℕ → ℕ → List ℕ
  | 0, _ => []
  | fuel + 1, n => if n = 0 then [] else (n % 10) :: natDigitsAux fuel (n / 10)

/-- Decimal digit characters of a natural number, most significant first. -/
def natDigitChars (n : ℕ) : List Char :=
  if n = 0 then ['0'] else ((natDigitsAux n n).reverse.map digitChar)

/-- Canonical decimal rendering of a natural number. -/
def natToDec (n : ℕ) : String := String.mk (natDigitChars n)

/-- Canonical decimal rendering of an integer. -/
def intToDec (i : ℤ) : String :=
  (if i < 0 then ("-") else ("")) ++ natToDec i.natAbs

/-- Fueled computation of the exponent of `p` in `n`; structural recursion so
that concrete values reduce inside the kernel. -/
def factorExpAux (p : ℕ) : ℕ → ℕ → ℕ
  | 0, _ => 0
  | fuel + 1, n =>
    if 1 < p ∧ n % p = 0 ∧ n ≠ 0 then 1 + factorExpAux p fuel (n / p) else 0

/-- Exponent of the prime `p` in `n` (0 for `n = 0` or `p ≤ 1`). -/
def factorExp (p n : ℕ) : ℕ := factorExpAux p n n

/-- Number of decimal fraction digits needed for an exact rendering of a
rational with denominator `2^a * 5^b`. -/
def decExp (den : ℕ) : ℕ := max (factorExp 2 den) (factorExp 5 den)

/-- Whether the rational has a finite (exact) decimal expansion.  Every value
the source can hold does, since JS numbers are binary floats. -/
def hasFiniteDecimal (q : ℚ) : Bool := decide (q.den ∣ 10 ^ decExp q.den)

/-- Render `m / 10^e` (for `e ≥ 1`) in the JS style: sign, integer digits
(at least one), point, exactly `e` fraction digits. -/
def renderScaled (m : ℤ) (e : ℕ) : String :=
  let ds := natDigitChars m.natAbs
  let pad := max ds.length (e + 1)
  let padded := List.replicate (pad - ds.length) '0' ++ ds
  (if m < 0 then ("-") else ("")) ++
    String.mk (padded.take (pad - e)) ++ (".") ++ String.mk (padded.drop (pad - e))

/-- Canonical rendering of a JS number, modelling the template-literal
conversion `${'{'}value{'}'}` of the source.  Integer-valued numbers render with
no decimal point.  Rationals without a finite decimal expansion cannot arise
from binary floats; they get an inert fallback rendering. -/
def jsNumToString (v : JsNum) : String :=
  match v with
  | none => ("NaN")
  | some q =>
    if q.den = 1 then intToDec q.num
    else
      let e := decExp q.den
      if q.den ∣ 10 ^ e then
        renderScaled (q.num * ((10 ^ e : ℕ) / q.den : ℕ)) e
      else intToDec q.num ++ ("/") ++ natToDec q.den

/-- Model of `Math.round` (round half towards positive infinity). -/
def jsRound (q : ℚ) : ℤ := ⌊q + 1 / 2⌋

/-- JS `Number.isInteger` on our number model (`false` for `NaN`). -/
def isIntegerJs (v : JsNum) : Bool :=
  match v with
  | some q => q.den = 1
  | none => false

/-- Source `serializeFloat`: integer-valued numbers render via `toFixed(1)`
(one forced fraction digit), all others via the canonical rendering. -/
def serializeFloat (v : JsNum) : String :=
  if isIntegerJs v then
    match v with
    | some q => intToDec q.num ++ (".0")
    | none => jsNumToString v
  else jsNumToString v

/-- Rendering used by the integer branch of `serializeGroupValue`:
`Number.isInteger(value) ? value : Math.round(value)` interpolated. -/
def jsIntString (v : JsNum) : String :=
  match v with
  | some q => if q.den = 1 then intToDec q.num else intToDec (jsRound q)
  | none => ("NaN")

/-! ## Round-trip lemmas for the JS primitives -/

theorem natDigitsAux_eq {fuel n : ℕ} (h : n ≤ fuel) : natDigitsAux fuel n = Nat.digits 10 n := by
  induction fuel generalizing n with
  | zero =>
    have : n = 0 := by omega
    subst this
    simp [natDigitsAux]
  | succ fuel ih =>
    cases n with
    | zero => simp [natDigitsAux]
    | succ m =>
      rw [natDigitsAux, if_neg (Nat.succ_ne_zero m),
        Nat.digits_def' (by norm_num : (1 : ℕ) < 10) (Nat.succ_pos m)]
      congr 1
      exact ih (by omega)

theorem natDigitChars_eq (n : ℕ) :
    natDigitChars n = if n = 0 then ['0'] else ((Nat.digits 10 n).reverse.map digitChar) := by
  unfold natDigitChars
  rw [natDigitsAux_eq le_rfl]

theorem factorExpAux_congr {p : ℕ} :
    ∀ f1 f2 n, n ≤ f1 → n ≤ f2 → factorExpAux p f1 n = factorExpAux p f2 n := by
  intro f1
  induction f1 with
  | zero =>
    intro f2 n h1 _
    have : n = 0 := by omega
    subst this
    cases f2 <;> simp [factorExpAux]
  | succ f1 ih =>
    intro f2 n h1 h2
    cases f2 with
    | zero =>
      have : n = 0 := by omega
      subst this
      simp [factorExpAux]
    | succ f2 =>
      rw [factorExpAux, factorExpAux]
      by_cases hc : 1 < p ∧ n % p = 0 ∧ n ≠ 0
      · rw [if_pos hc, if_pos hc]
        have hlt : n / p < n := Nat.div_lt_self (Nat.pos_of_ne_zero hc.2.2) hc.1
        rw [ih f2 (n / p) (by omega) (by omega)]
      · rw [if_neg hc, if_neg hc]

theorem factorExp_step (p n : ℕ) :
    factorExp p n = if 1 < p ∧ n % p = 0 ∧ n ≠ 0 then 1 + factorExp p (n / p) else 0 := by
  unfold factorExp
  cases n with
  | zero => simp [factorExpAux]
  | succ m =>
    rw [factorExpAux]
    by_cases hc : 1 < p ∧ (m + 1) % p = 0 ∧ (m + 1) ≠ 0
    · rw [if_pos hc, if_pos hc]
      have hlt : (m + 1) / p < m + 1 := Nat.div_lt_self (Nat.succ_pos m) hc.1
      rw [factorExpAux_congr m ((m + 1) / p) ((m + 1) / p) (by omega) le_rfl]
    · rw [if_neg hc, if_neg hc]

theorem digitChar_isDigit {d : ℕ} (h : d < 10) : (digitChar d).isDigit = true := by
  interval_cases d <;> decide

theorem digitVal_digitChar {d : ℕ} (h : d < 10) : digitVal (digitChar d) = d := by
  interval_cases d <;> decide

theorem isJsSpace_of_isDigit {c : Char} (h : c.isDigit = true) : isJsSpace c = false := by
  by_contra h'
  simp only [isJsSpace, Bool.or_eq_true, beq_iff_eq, Bool.not_eq_false] at h'
  rcases h' with ((h' | h') | h') | h' <;>
    rw [decide_eq_true_iff] at h' <;> subst h' <;> exact absurd h (by decide)

theorem natDigitChars_all_digit (n : ℕ) : ∀ c ∈ natDigitChars n, c.isDigit = true := by
  intro c hc
  rw [natDigitChars_eq] at hc
  by_cases h0 : n = 0
  · simp [h0] at hc; subst hc; decide
  · simp only [h0, if_false, List.mem_map, List.mem_reverse] at hc
    obtain ⟨d, hd, rfl⟩ := hc
    exact digitChar_isDigit (Nat.digits_lt_base (by norm_num) hd)

theorem natDigitChars_ne_nil (n : ℕ) : natDigitChars n ≠ [] := by
  rw [natDigitChars_eq]
  by_cases h0 : n = 0
  · simp [h0]
  · simp only [h0, if_false, ne_eq, List.map_eq_nil_iff, List.reverse_eq_nil_iff]
    exact Nat.digits_ne_nil_iff_ne_zero.mpr h0

theorem tw_append_all {p : Char → Bool} {l₁ : List Char} (l₂ : List Char)
    (h : ∀ a ∈ l₁, p a = true) : (l₁ ++ l₂).takeWhile p = l₁ ++ l₂.takeWhile p := by
  induction l₁ with
  | nil => simp
  | cons a l ih =>
    have ha : p a = true := h a (by simp)
    simp only [List.cons_append, List.takeWhile_cons, ha, if_true]
    rw [ih (fun b hb => h b (by simp [hb]))]

theorem dw_append_all {p : Char → Bool} {l₁ : List Char} (l₂ : List Char)
    (h : ∀ a ∈ l₁, p a = true) : (l₁ ++ l₂).dropWhile p = l₂.dropWhile p := by
  induction l₁ with
  | nil => simp
  | cons a l ih =>
    have ha : p a = true := h a (by simp)
    simp only [List.cons_append, List.dropWhile_cons, ha, if_true]
    exact ih (fun b hb => h b (by simp [hb]))

theorem tw_all {p : Char → Bool} {l : List Char} (h : ∀ a ∈ l, p a = true) :
    l.takeWhile p = l := by
  have := @tw_append_all p l [] h
  simpa using this

theorem dw_all {p : Char → Bool} {l : List Char} (h : ∀ a ∈ l, p a = true) :
    l.dropWhile p = [] := by
  have := @dw_append_all p l [] h
  simpa using this

theorem parseNatChars_append (A B : List Char) :
    parseNatChars (A ++ B) = parseNatChars A * 10 ^ B.length + parseNatChars B := by
  have key : ∀ (cs : List Char) (a : ℕ),
      cs.foldl (fun a c => 10 * a + digitVal c) a
        = a * 10 ^ cs.length + parseNatChars cs := by
    intro cs
    induction cs with
    | nil => intro a; simp [parseNatChars]
    | cons c l ih =>
      intro a
      simp only [List.foldl_cons, List.length_cons, parseNatChars]
      rw [ih (10 * a + digitVal c), ih (10 * 0 + digitVal c)]
      ring
  unfold parseNatChars
  rw [List.foldl_append]
  exact key B _

theorem parseNatChars_replicate_zero (k : ℕ) (B : List Char) :
    parseNatChars (List.replicate k '0' ++ B) = parseNatChars B := by
  rw [parseNatChars_append]
  have : parseNatChars (List.replicate k '0') = 0 := by
    induction k with
    | zero => rfl
    | succ n ih =>
      simp only [List.replicate_succ, parseNatChars, List.foldl_cons] at *
      simpa [digitVal] using ih
  simp [this]

theorem parseNatChars_natDigitChars (n : ℕ) : parseNatChars (natDigitChars n) = n := by
  have key : ∀ L : List ℕ, (∀ d ∈ L, d < 10) →
      parseNatChars ((L.reverse).map digitChar) = Nat.ofDigits 10 L := by
    intro L
    induction L with
    | nil => intro _; simp [parseNatChars, Nat.ofDigits]
    | cons d L ih =>
      intro h
      simp only [List.reverse_cons, List.map_append, List.map_cons, List.map_nil]
      rw [parseNatChars_append]
      have hd : d < 10 := h d (by simp)
      have : parseNatChars [digitChar d] = d := by
        simp [parseNatChars, digitVal_digitChar hd]
      rw [this, ih (fun x hx => h x (by simp [hx])), Nat.ofDigits_cons]
      simp only [List.length_singleton, pow_one]
      omega
  rw [natDigitChars_eq]
  by_cases h0 : n = 0
  · simp [h0]; rfl
  · simp only [h0, if_false]
    rw [key _ (fun d hd => Nat.digits_lt_base (by norm_num) hd), Nat.ofDigits_digits]

theorem not_sign_of_isDigit {c : Char} (h : c.isDigit = true) :
    (c = '-') = False ∧ (c = '+') = False := by
  constructor <;> simp only [eq_iff_iff, iff_false] <;> intro h' <;> subst h' <;>
    exact absurd h (by decide)

theorem dropWhile_space_digits {l : List Char}
    (h : ∀ c ∈ l, c.isDigit = true) : l.dropWhile isJsSpace = l := by
  cases l with
  | nil => rfl
  | cons c rest =>
    rw [List.dropWhile_cons, isJsSpace_of_isDigit (h c (by simp))]
    simp

theorem readSign_neg (r : List Char) : readSign ('-' :: r) = (true, r) := by
  simp [readSign]

theorem readSign_digits {l : List Char} (h : ∀ c ∈ l, c.isDigit = true) :
    readSign l = (false, l) := by
  cases l with
  | nil => rfl
  | cons c rest =>
    have hd := h c (by simp)
    simp [readSign, (not_sign_of_isDigit hd).1, (not_sign_of_isDigit hd).2]

theorem parseIntJS_intToDec (i : ℤ) : parseIntJS (intToDec i) = some i := by
  have hall := natDigitChars_all_digit i.natAbs
  have hne := natDigitChars_ne_nil i.natAbs
  by_cases hneg : i < 0
  · have hdata : (intToDec i).data = '-' :: natDigitChars i.natAbs := by
      simp [intToDec, natToDec, hneg, String.data_append]
    unfold parseIntJS
    rw [hdata]
    have : ('-' :: natDigitChars i.natAbs).dropWhile isJsSpace
        = '-' :: natDigitChars i.natAbs := by
      rw [List.dropWhile_cons]; simp [isJsSpace]
    rw [this]
    simp only [readSign_neg]
    rw [tw_all hall]
    simp only [List.isEmpty_eq_true, hne, if_false, parseNatChars_natDigitChars]
    congr 1
    try simp only [if_true]
    try simp only [Bool.false_eq_true, if_false]
    omega
  · have hdata : (intToDec i).data = natDigitChars i.natAbs := by
      simp [intToDec, natToDec, hneg, String.data_append]
    unfold parseIntJS
    rw [hdata, dropWhile_space_digits hall]
    simp only [readSign_digits hall]
    rw [tw_all hall]
    simp only [List.isEmpty_eq_true, hne, if_false, parseNatChars_natDigitChars]
    congr 1
    try simp only [if_true]
    try simp only [Bool.false_eq_true, if_false]
    omega

theorem get1_not_x {l : List Char} (h : ∀ c ∈ l, c.isDigit = true) :
    (l.get? 1 = some 'x' || l.get? 1 = some 'X') = false := by
  cases hg : l.get? 1 with
  | none => simp
  | some c =>
    have hc : c ∈ l := List.get?_mem hg
    have hcd := h c hc
    have h1 : c ≠ 'x' := by intro h'; subst h'; exact absurd hcd (by decide)
    have h2 : c ≠ 'X' := by intro h'; subst h'; exact absurd hcd (by decide)
    simp [h1, h2]

theorem parseIntJSAuto_intToDec (i : ℤ) : parseIntJSAuto (intToDec i) = some i := by
  have hall := natDigitChars_all_digit i.natAbs
  have hne := natDigitChars_ne_nil i.natAbs
  have hx := get1_not_x hall
  by_cases hneg : i < 0
  · have hdata : (intToDec i).data = '-' :: natDigitChars i.natAbs := by
      simp [intToDec, natToDec, hneg, String.data_append]
    unfold parseIntJSAuto
    rw [hdata]
    have hdw : ('-' :: natDigitChars i.natAbs).dropWhile isJsSpace
        = '-' :: natDigitChars i.natAbs := by
      rw [List.dropWhile_cons]; simp [isJsSpace]
    rw [hdw]
    simp only [readSign_neg]
    rw [hx]
    simp only [Bool.and_false, Bool.false_eq_true, if_false]
    rw [tw_all hall]
    simp only [List.isEmpty_eq_true, hne, if_false, parseNatChars_natDigitChars]
    congr 1
    try simp only [if_true]
    try simp only [Bool.false_eq_true, if_false]
    omega
  · have hdata : (intToDec i).data = natDigitChars i.natAbs := by
      simp [intToDec, natToDec, hneg, String.data_append]
    unfold parseIntJSAuto
    rw [hdata, dropWhile_space_digits hall]
    simp only [readSign_digits hall]
    rw [hx]
    simp only [Bool.and_false, Bool.false_eq_true, if_false]
    rw [tw_all hall]
    simp only [List.isEmpty_eq_true, hne, if_false, parseNatChars_natDigitChars]
    congr 1
    try simp only [if_true]
    try simp only [Bool.false_eq_true, if_false]
    omega

theorem parseFloatJS_core (neg : Bool) (ics fcs : List Char)
    (hi : ∀ c ∈ ics, c.isDigit = true) (hf : ∀ c ∈ fcs, c.isDigit = true)
    (hine : ics ≠ []) :
    parseFloatJS (String.mk ((if neg then ['-'] else []) ++ ics ++ ('.' :: fcs)))
      = some ((if neg then (-1 : ℚ) else 1)
          * ((parseNatChars ics : ℚ) + (parseNatChars fcs : ℚ) / (10 : ℚ) ^ fcs.length)) := by
  obtain ⟨c0, ics', rfl⟩ := List.exists_cons_of_ne_nil hine
  have hc0 : c0.isDigit = true := hi c0 (by simp)
  have htw : (c0 :: (ics' ++ '.' :: fcs)).takeWhile Char.isDigit = c0 :: ics' := by
    rw [show (c0 :: (ics' ++ '.' :: fcs)) = (c0 :: ics') ++ '.' :: fcs by simp,
      tw_append_all _ hi, List.takeWhile_cons]
    simp
  have hdw2 : (c0 :: (ics' ++ '.' :: fcs)).dropWhile Char.isDigit = '.' :: fcs := by
    rw [show (c0 :: (ics' ++ '.' :: fcs)) = (c0 :: ics') ++ '.' :: fcs by simp,
      dw_append_all _ hi, List.dropWhile_cons]
    simp
  cases neg with
  | true =>
    have hdw : ('-' :: (c0 :: (ics' ++ '.' :: fcs))).dropWhile isJsSpace
        = '-' :: (c0 :: (ics' ++ '.' :: fcs)) := by
      rw [List.dropWhile_cons]; simp [isJsSpace]
    unfold parseFloatJS
    simp only [if_true, List.cons_append, List.nil_append, String.data]
    simp only [hdw, readSign_neg, htw, hdw2, List.head?_cons, List.tail_cons]
    simp only [Option.some_inj, if_pos rfl, tw_all hf, dw_all hf]
    simp only [if_true, List.isEmpty_cons, Bool.false_and, Bool.false_eq_true, if_false,
      List.head?_nil, reduceCtorEq, decide_False, Bool.or_self]
    ring_nf
  | false =>
    have hdw : ((c0 :: (ics' ++ '.' :: fcs))).dropWhile isJsSpace
        = c0 :: (ics' ++ '.' :: fcs) := by
      rw [List.dropWhile_cons, isJsSpace_of_isDigit hc0]
      simp
    have hrs : readSign (c0 :: (ics' ++ '.' :: fcs)) = (false, c0 :: (ics' ++ '.' :: fcs)) := by
      simp [readSign, (not_sign_of_isDigit hc0).1, (not_sign_of_isDigit hc0).2]
    unfold parseFloatJS
    simp only [Bool.false_eq_true, if_false, List.cons_append, List.nil_append, String.data]
    simp only [hdw, hrs, htw, hdw2, List.head?_cons, List.tail_cons]
    simp only [Option.some_inj, if_pos rfl, tw_all hf, dw_all hf]
    simp only [if_true, List.isEmpty_cons, Bool.false_and, Bool.false_eq_true, if_false,
      List.head?_nil, reduceCtorEq, decide_False, Bool.or_self]
    ring_nf

theorem parseFloatJS_toFixed1 (i : ℤ) :
    parseFloatJS (intToDec i ++ (".0")) = some (i : ℚ) := by
  have hs : intToDec i ++ (".0")
      = String.mk ((if (decide (i < 0) : Bool) then ['-'] else [])
          ++ natDigitChars i.natAbs ++ ('.' :: ['0'])) := by
    apply String.ext
    by_cases hneg : i < 0 <;>
      simp [intToDec, natToDec, hneg, String.data_append]
  rw [hs, parseFloatJS_core (decide (i < 0)) _ _ (natDigitChars_all_digit _) (by decide)
    (natDigitChars_ne_nil _)]
  have h0 : parseNatChars ['0'] = 0 := by decide
  rw [parseNatChars_natDigitChars, h0]
  by_cases hneg : i < 0
  · have habs : (i.natAbs : ℤ) = -i := by omega
    have h2 : ((i.natAbs : ℤ) : ℚ) = -(i : ℚ) := by rw [habs]; push_cast; ring
    rw [Int.cast_natCast] at h2
    simp [hneg, h2]
  · have habs : (i.natAbs : ℤ) = i := by omega
    have h2 : ((i.natAbs : ℤ) : ℚ) = (i : ℚ) := by rw [habs]
    rw [Int.cast_natCast] at h2
    simp [hneg, h2]

theorem parseFloatJS_intToDec (i : ℤ) : parseFloatJS (intToDec i) = some (i : ℚ) := by
  have hall := natDigitChars_all_digit i.natAbs
  have hne := natDigitChars_ne_nil i.natAbs
  by_cases hneg : i < 0
  · have hdata : (intToDec i).data = '-' :: natDigitChars i.natAbs := by
      simp [intToDec, natToDec, hneg, String.data_append]
    unfold parseFloatJS
    rw [hdata]
    have hdw : ('-' :: natDigitChars i.natAbs).dropWhile isJsSpace
        = '-' :: natDigitChars i.natAbs := by
      rw [List.dropWhile_cons]; simp [isJsSpace]
    simp only [hdw, readSign_neg, tw_all hall, dw_all hall]
    simp only [List.isEmpty_eq_true, hne, List.head?_nil, reduceCtorEq, decide_False,
      Bool.or_self, Bool.false_eq_true, if_false, Bool.and_false, Bool.false_and,
      parseNatChars_natDigitChars]
    have habs : (i.natAbs : ℤ) = -i := by omega
    have h2 : ((i.natAbs : ℤ) : ℚ) = -(i : ℚ) := by rw [habs]; push_cast; ring
    rw [Int.cast_natCast] at h2
    simp only [if_true, parseNatChars, List.foldl_nil, Nat.cast_zero, List.length_nil,
      pow_zero, zero_div, add_zero, Option.some_inj, h2]
    rw [if_neg (by simp [hne])]
    congr 1
    ring
  · have hdata : (intToDec i).data = natDigitChars i.natAbs := by
      simp [intToDec, natToDec, hneg, String.data_append]
    unfold parseFloatJS
    rw [hdata]
    simp only [dropWhile_space_digits hall, readSign_digits hall, tw_all hall, dw_all hall]
    simp only [List.isEmpty_eq_true, hne, List.head?_nil, reduceCtorEq, decide_False,
      Bool.or_self, Bool.false_eq_true, if_false, Bool.and_false, Bool.false_and,
      parseNatChars_natDigitChars]
    have habs : (i.natAbs : ℤ) = i := by omega
    have h2 : ((i.natAbs : ℤ) : ℚ) = (i : ℚ) := by rw [habs]
    rw [Int.cast_natCast] at h2
    simp only [List.isEmpty_eq_true, hne, List.isEmpty_nil, Bool.and_true,
      Bool.false_eq_true, if_false, List.head?_nil, reduceCtorEq, decide_False,
      Bool.or_self, parseNatChars_natDigitChars]
    simp [hne, h2, parseNatChars_natDigitChars, parseNatChars]

theorem parseFloat_renderScaled (m : ℤ) (e : ℕ) (he : 1 ≤ e) :
    parseFloatJS (renderScaled m e) = some ((m : ℚ) / (10 : ℚ) ^ e) := by
  have hallds := natDigitChars_all_digit m.natAbs
  set ds := natDigitChars m.natAbs with hds
  set pad := max ds.length (e + 1) with hpad
  set padded := List.replicate (pad - ds.length) '0' ++ ds with hpadded
  have hallp : ∀ c ∈ padded, c.isDigit = true := by
    intro c hc
    rw [hpadded, List.mem_append] at hc
    rcases hc with hc | hc
    · rw [List.eq_of_mem_replicate hc]; decide
    · exact hallds c hc
  have hplen : padded.length = pad := by
    rw [hpadded]
    simp only [List.length_append, List.length_replicate]
    have : ds.length ≤ pad := le_max_left _ _
    omega
  have hip : ∀ c ∈ padded.take (pad - e), c.isDigit = true :=
    fun c hc => hallp c (List.mem_of_mem_take hc)
  have hfp : ∀ c ∈ padded.drop (pad - e), c.isDigit = true :=
    fun c hc => hallp c (List.mem_of_mem_drop hc)
  have hiplen : (padded.take (pad - e)).length = pad - e := by
    rw [List.length_take, hplen]
    omega
  have hipne : padded.take (pad - e) ≠ [] := by
    intro hcon
    have := congrArg List.length hcon
    rw [hiplen] at this
    simp at this
    omega
  have hfplen : (padded.drop (pad - e)).length = e := by
    rw [List.length_drop, hplen]
    omega
  have hs : renderScaled m e
      = String.mk ((if (decide (m < 0) : Bool) then ['-'] else [])
          ++ padded.take (pad - e) ++ ('.' :: padded.drop (pad - e))) := by
    apply String.ext
    by_cases hneg : m < 0 <;>
      simp [renderScaled, hneg, String.data_append, ← hds, ← hpad, ← hpadded]
  rw [hs, parseFloatJS_core (decide (m < 0)) _ _ hip hfp hipne]
  have hsplit : (parseNatChars (padded.take (pad - e)) : ℚ)
        + (parseNatChars (padded.drop (pad - e)) : ℚ)
          / (10 : ℚ) ^ (padded.drop (pad - e)).length
      = (m.natAbs : ℚ) / (10 : ℚ) ^ e := by
    have hcat : padded.take (pad - e) ++ padded.drop (pad - e) = padded :=
      List.take_append_drop _ _
    have hval : parseNatChars padded = m.natAbs := by
      rw [hpadded, parseNatChars_replicate_zero, hds, parseNatChars_natDigitChars]
    have := parseNatChars_append (padded.take (pad - e)) (padded.drop (pad - e))
    rw [hcat, hval, hfplen] at this
    rw [hfplen]
    have hpow : ((10 : ℚ) ^ e) ≠ 0 := by positivity
    have hQ : (m.natAbs : ℚ)
        = (parseNatChars (padded.take (pad - e)) : ℚ) * (10 : ℚ) ^ e
          + (parseNatChars (padded.drop (pad - e)) : ℚ) := by
      exact_mod_cast congrArg (fun n : ℕ => (n : ℚ)) this
    field_simp
    rw [hQ]
    try ring
  rw [hsplit]
  by_cases hneg : m < 0
  · have habs : (m.natAbs : ℤ) = -m := by omega
    have h2 : ((m.natAbs : ℤ) : ℚ) = -(m : ℚ) := by rw [habs]; push_cast; ring
    rw [Int.cast_natCast] at h2
    simp only [hneg, decide_True, if_true, h2, Option.some_inj]
    ring
  · have habs : (m.natAbs : ℤ) = m := by omega
    have h2 : ((m.natAbs : ℤ) : ℚ) = (m : ℚ) := by rw [habs]
    rw [Int.cast_natCast] at h2
    simp only [hneg, decide_False, Bool.false_eq_true, if_false, h2, Option.some_inj]
    ring

theorem decExp_pos {den : ℕ} (hden : den ≠ 1) (h : den ∣ 10 ^ decExp den) :
    1 ≤ decExp den := by
  by_contra hcon
  have : decExp den = 0 := by omega
  rw [this, pow_zero, Nat.dvd_one] at h
  exact hden h

theorem parseFloatJS_jsNumToString (q : ℚ) (h : q.den ∣ 10 ^ decExp q.den) :
    parseFloatJS (jsNumToString (some q)) = some q := by
  unfold jsNumToString
  by_cases h1 : q.den = 1
  · simp only [h1, if_pos rfl, if_true]
    rw [parseFloatJS_intToDec]
    congr 1
    conv_rhs => rw [← Rat.num_div_den q]
    rw [h1]
    push_cast
    ring
  · simp only [h1, if_false, h, if_pos]
    rw [parseFloat_renderScaled _ _ (decExp_pos h1 h)]
    congr 1
    have hden0 : (q.den : ℚ) ≠ 0 := by
      simp [Rat.den_ne_zero]
    have hpow : ((10 : ℚ) ^ decExp q.den) ≠ 0 := by positivity
    have hq : ((q.num * ((10 ^ decExp q.den / q.den : ℕ) : ℤ) : ℤ) : ℚ)
        = (q.num : ℚ) * ((10 ^ decExp q.den / q.den : ℕ) : ℚ) := by
      rw [Int.cast_mul, Int.cast_natCast]
    have hcancel : ((10 ^ decExp q.den / q.den : ℕ) : ℚ)
        = (10 : ℚ) ^ decExp q.den / (q.den : ℚ) := by
      rw [eq_div_iff hden0, ← Nat.cast_mul, Nat.div_mul_cancel h]
      push_cast
      ring
    rw [hq, hcancel]
    conv_rhs => rw [← Rat.num_div_den q]
    field_simp
    ring

theorem parseFloatJS_serializeFloat (q : ℚ) (h : q.den ∣ 10 ^ decExp q.den) :
    parseFloatJS (serializeFloat (some q)) = some q := by
  unfold serializeFloat
  by_cases h1 : q.den = 1
  · simp only [isIntegerJs, h1, if_pos rfl, decide_True, if_true]
    rw [parseFloatJS_toFixed1]
    congr 1
    conv_rhs => rw [← Rat.num_div_den q]
    rw [h1]
    push_cast
    ring
  · have : isIntegerJs (some q) = false := by simp [isIntegerJs, h1]
    rw [this]
    simp only [Bool.false_eq_true, if_false]
    exact parseFloatJS_jsNumToString q h

/-! ## Group values and the code-range typing (source `DxfArrayScanner.ts`) -/

/-- Value of one group: JS `string | number | boolean` (symbols are strings). -/
inductive GroupValue where
  | str (s : String)
  | num (v : JsNum)
  | bool (b : Bool)
deriving Repr, DecidableEq

/-- Strict JS equality `===` on group values; `NaN === x` is false for all `x`,
and values of different runtime types are never equal. -/
def GroupValue.jsEq : GroupValue → GroupValue → Bool
  | .str a, .str b => a = b
  | .num (some a), .num (some b) => a = b
  | .bool a, .bool b => a = b
  | _, _ => false

/-- JS truthiness of a group value (`""`, `0`, `NaN`, `false` are falsy). -/
def GroupValue.jsTruthy : GroupValue → Bool
  | .str s => s ≠ ""
  | .num (some q) => q ≠ 0
  | .num none => false
  | .bool b => b

/-- Template-literal conversion of a group value to text. -/
def jsValToString : GroupValue → String
  | .str s => s
  | .num v => jsNumToString v
  | .bool b => if b then ("true") else ("false")

/-- JS `<=` between a possibly-NaN code and a constant (false on NaN). -/
def jcLe (c : JsCode) (n : ℤ) : Bool :=
  match c with
  | some v => v ≤ n
  | none => false

/-- JS `>=` between a possibly-NaN code and a constant (false on NaN). -/
def jcGe (c : JsCode) (n : ℤ) : Bool :=
  match c with
  | some v => n ≤ v
  | none => false

/-- JS `===` between a possibly-NaN code and a constant (false on NaN). -/
def jcEq (c : JsCode) (n : ℤ) : Bool :=
  match c with
  | some v => v = n
  | none => false

/-- Conjunction of the two bounds, as the source writes `code >= a && code <= b`. -/
def jcBetween (c : JsCode) (lo hi : ℤ) : Bool := jcGe c lo && jcLe c hi

/-- Rendering of a code in an error message (`NaN` prints as in JS). -/
def jcToString (c : JsCode) : String :=
  match c with
  | some v => intToDec v
  | none => ("NaN")

/-- The string ranges of the code partition.  The source writes these
conditions twice, once in `parseGroupValue` and once in `serializeGroupValue`;
they are transcribed here once and used by both. -/
def isStringCode (code : JsCode) : Bool :=
  jcLe code 9 || jcBetween code 100 109 || jcBetween code 300 369 ||
  jcBetween code 390 399 || jcBetween code 410 419 || jcBetween code 430 439 ||
  jcBetween code 470 481 || jcEq code 999 || jcBetween code 1000 1009

/-- The float ranges of the code partition. -/
def isFloatCode (code : JsCode) : Bool :=
  jcBetween code 10 59 || jcBetween code 110 149 || jcBetween code 210 239 ||
  jcBetween code 460 469 || jcBetween code 1010 1059

/-- The integer ranges of the code partition. -/
def isIntCode (code : JsCode) : Bool :=
  jcBetween code 60 99 || jcBetween code 160 179 || jcBetween code 270 289 ||
  jcBetween code 370 389 || jcBetween code 400 409 || jcBetween code 420 429 ||
  jcBetween code 440 459 || jcBetween code 1060 1071

/-- The boolean range of the code partition. -/
def isBoolCode (code : JsCode) : Bool := jcBetween code 290 299

/-- Whether the code falls in some documented range; the source's fallback
branch (with its `console.warn`) is taken exactly when this is false. -/
def hasDefinedType (code : JsCode) : Bool :=
  isStringCode code || isFloatCode code || isIntCode code || isBoolCode code

/-- Source `ltrim`: strip leading whitespace only (trailing whitespace is
significant, e.g. in line-type pattern strings). -/
def ltrim (s : String) : String := String.mk (s.data.dropWhile isJsSpace)

/-- Source `parseGroupValue` (`DxfArrayScanner.ts`): map a raw value string to
the typed value dictated by the code ranges.  The boolean branch throws a
`TypeError` on any text other than `0`/`1`; the out-of-range fallback warns
(see `hasDefinedType`) and returns the raw text. -/
def parseGroupValue (code : JsCode) (value : String) : Except String GroupValue :=
  if isStringCode code then .ok (.str value)
  else if isFloatCode code then .ok (.num (parseFloatJS value))
  else if isIntCode code then .ok (.num ((parseIntJS value).map (fun i => (i : ℚ))))
  else if isBoolCode code then
    if value = ("0") then .ok (.bool false)
    else if value = ("1") then .ok (.bool true)
    else .error (("Code ") ++ jcToString code ++ (": String '") ++ value
      ++ ("' cannot be cast to Boolean type"))
  else .ok (.str value)

/-- Source `serializeGroupValue` (generator): yields the code line and then the
value line.  The branch bodies transcribe the JS runtime behaviour of the
yields: `value as string` yields the value coerced by later concatenation,
the float branch is `serializeFloat`, booleans yield `'1'`/`'0'` by truthiness,
and the integer branch special-cases boolean values.  A string value reaching
the integer branch would go through `Math.round`'s number coercion; it is
modelled with the prefix parser (no theorem serializes a string at an integer
code). -/
def serializeGroupValue (code : ℤ) (value : GroupValue) : List String :=
  intToDec code ::
  (if isStringCode (some code) then [jsValToString value]
  else if isFloatCode (some code) then
    [match value with
     | .num v => serializeFloat v
     | .str s => s
     | .bool b => if b then ("true") else ("false")]
  else if isBoolCode (some code) then
    [if value.jsTruthy then ("1") else ("0")]
  else if isIntCode (some code) then
    [match value with
     | .bool b => if b then ("1") else ("0")
     | .num v => jsIntString v
     | .str s => jsIntString (parseFloatJS s)]
  else [jsValToString value])

/-! ## Finite decimal expansions -/

theorem factorExp_eq_factorization {p : ℕ} (hp : p.Prime) :
    ∀ n, n ≠ 0 → factorExp p n = n.factorization p := by
  intro n
  induction n using Nat.strong_induction_on with
  | _ n ih =>
    intro hn
    rw [factorExp_step]
    by_cases hdvd : n % p = 0
    · have hp1 : 1 < p := hp.one_lt
      rw [if_pos ⟨hp1, hdvd, hn⟩]
      have hpd : p ∣ n := Nat.dvd_of_mod_eq_zero hdvd
      have hlt : n / p < n := Nat.div_lt_self (Nat.pos_of_ne_zero hn) hp1
      have hnp : n / p ≠ 0 := by
        intro hcon
        rw [Nat.div_eq_zero_iff (by omega)] at hcon
        have := Nat.le_of_dvd (Nat.pos_of_ne_zero hn) hpd
        omega
      rw [ih _ hlt hnp]
      rw [Nat.factorization_div hpd]
      have hfp : p.factorization p = 1 := Nat.Prime.factorization_self hp
      simp only [Finsupp.coe_tsub, Pi.sub_apply, hfp]
      have hpos : 1 ≤ n.factorization p :=
        (Nat.Prime.pow_dvd_iff_le_factorization hp hn).mp (by simpa using hpd)
      omega
    · rw [if_neg (by tauto)]
      rw [Nat.factorization_eq_zero_of_not_dvd
        (fun hcon => hdvd (Nat.mod_eq_zero_of_dvd hcon))]

theorem dvd_pow_decExp {d m : ℕ} (hd : d ≠ 0) (h : d ∣ 10 ^ m) :
    d ∣ 10 ^ decExp d := by
  have h2 : factorExp 2 d = d.factorization 2 := factorExp_eq_factorization Nat.prime_two d hd
  have h5 : factorExp 5 d = d.factorization 5 :=
    factorExp_eq_factorization (by norm_num) d hd
  have hsub : d.factorization.support ⊆ ({2, 5} : Finset ℕ) := by
    rw [Nat.support_factorization]
    intro p hp
    have hpp : p.Prime := Nat.prime_of_mem_primeFactors hp
    have hpd : p ∣ d := Nat.dvd_of_mem_primeFactors hp
    have h10 : p ∣ 10 := Nat.Prime.dvd_of_dvd_pow hpp (hpd.trans h)
    have hple : p ≤ 10 := Nat.le_of_dvd (by norm_num) h10
    have hge : 2 ≤ p := hpp.two_le
    interval_cases p <;> first
      | decide
      | exact absurd h10 (by decide)
      | exact absurd hpp (by decide)
  have heq : d = 2 ^ d.factorization 2 * 5 ^ d.factorization 5 := by
    conv_lhs => rw [← Nat.factorization_prod_pow_eq_self hd]
    rw [Finsupp.prod_of_support_subset _ hsub (fun p k => p ^ k) (by intros; simp)]
    rw [show ({2, 5} : Finset ℕ) = insert 2 {5} from rfl,
      Finset.prod_insert (by norm_num), Finset.prod_singleton]
  have h10e : (10 : ℕ) ^ decExp d = 2 ^ decExp d * 5 ^ decExp d := by
    rw [← Nat.mul_pow]
  rw [h10e]
  conv_lhs => rw [heq]
  exact Nat.mul_dvd_mul
    (pow_dvd_pow 2 (by rw [← h2]; exact le_max_left _ _))
    (pow_dvd_pow 5 (by rw [← h5]; exact le_max_right _ _))


theorem den_dvd_pow10 {q : ℚ} {n : ℤ} {k : ℕ} (h : q * (10 : ℚ) ^ k = (n : ℚ)) :
    q.den ∣ 10 ^ k := by
  have hq : q = Rat.divInt n (10 ^ k) := by
    rw [Rat.divInt_eq_div]
    have h10 : ((10 : ℚ) ^ k) ≠ 0 := by positivity
    push_cast
    field_simp
    linarith [h]
  have hz : ((q.den : ℤ)) ∣ (10 : ℤ) ^ k := hq ▸ Rat.den_dvd n (10 ^ k)
  have h2 : ((q.den : ℤ)) ∣ ((10 ^ k : ℕ) : ℤ) := by push_cast; exact hz
  exact_mod_cast h2

theorem mant_mul_pow (A B : ℕ) (L : ℕ) (neg : Bool) :
    (if neg then -((A : ℚ) + (B : ℚ) / (10 : ℚ) ^ L) else ((A : ℚ) + (B : ℚ) / (10 : ℚ) ^ L))
        * (10 : ℚ) ^ L
      = (((if neg then -1 else 1) * ((A * 10 ^ L + B : ℕ) : ℤ) : ℤ) : ℚ) := by
  have h10 : ((10 : ℚ) ^ L) ≠ 0 := by positivity
  cases neg <;> simp only [Bool.false_eq_true, if_true, if_false, reduceIte] <;>
    push_cast <;> field_simp <;> ring

theorem mant_exp_mul_pow (A B L E : ℕ) (neg eneg : Bool) :
    ((if neg then -((A : ℚ) + (B : ℚ) / (10 : ℚ) ^ L) else ((A : ℚ) + (B : ℚ) / (10 : ℚ) ^ L))
        * (10 : ℚ) ^ (if eneg then -(E : ℤ) else (E : ℤ)))
        * (10 : ℚ) ^ (L + E)
      = (((if neg then -1 else 1) * ((A * 10 ^ L + B : ℕ) : ℤ)
          * (if eneg then 1 else (10 : ℤ) ^ (2 * E)) : ℤ) : ℚ) := by
  have h10L : ((10 : ℚ) ^ L) ≠ 0 := by positivity
  have h10E : ((10 : ℚ) ^ E) ≠ 0 := by positivity
  cases eneg with
  | false =>
    cases neg <;>
      simp only [Bool.false_eq_true, if_true, if_false, reduceIte, zpow_neg, zpow_natCast] <;>
      push_cast <;> field_simp <;> ring
  | true =>
    cases neg <;>
      simp only [Bool.false_eq_true, if_true, if_false, reduceIte, zpow_neg, zpow_natCast] <;>
      push_cast <;> field_simp <;>
      first
        | exact Or.inl (pow_add 10 L E)
        | ring

theorem parseFloatJS_num_den {s : String} {q : ℚ} (h : parseFloatJS s = some q) :
    ∃ (n : ℤ) (k : ℕ), q * (10 : ℚ) ^ k = (n : ℚ) := by
  unfold parseFloatJS at h
  rcases hrs : readSign (s.data.dropWhile isJsSpace) with ⟨neg, cs1⟩
  simp only [hrs] at h
  rcases hpair : (if (cs1.dropWhile Char.isDigit).head? = some '.' then
      ((cs1.dropWhile Char.isDigit).tail.takeWhile Char.isDigit,
       (cs1.dropWhile Char.isDigit).tail.dropWhile Char.isDigit)
    else ([], cs1.dropWhile Char.isDigit)) with ⟨fp, cs2⟩
  simp only [hpair] at h
  split at h
  · exact absurd h (by simp)
  · split at h
    · rcases hrs2 : readSign cs2.tail with ⟨eneg, rest⟩
      simp only [hrs2] at h
      split at h
      · rw [Option.some_inj] at h
        subst h
        exact ⟨_, _, mant_mul_pow _ _ _ neg⟩
      · rw [Option.some_inj] at h
        subst h
        exact ⟨_, _, mant_exp_mul_pow _ _ _ _ neg eneg⟩
    · rw [Option.some_inj] at h
      subst h
      exact ⟨_, _, mant_mul_pow _ _ _ neg⟩

theorem parseFloatJS_finite {s : String} {q : ℚ} (h : parseFloatJS s = some q) :
    hasFiniteDecimal q = true := by
  obtain ⟨n, k, hnk⟩ := parseFloatJS_num_den h
  rw [hasFiniteDecimal, decide_eq_true_iff]
  exact dvd_pow_decExp q.den_nz (den_dvd_pow10 hnk)

/-! ## Characterisations of the code ranges -/

theorem isStringCode_iff (c : ℤ) : isStringCode (some c) = true ↔
    (c ≤ 9 ∨ (100 ≤ c ∧ c ≤ 109) ∨ (300 ≤ c ∧ c ≤ 369) ∨ (390 ≤ c ∧ c ≤ 399)
      ∨ (410 ≤ c ∧ c ≤ 419) ∨ (430 ≤ c ∧ c ≤ 439) ∨ (470 ≤ c ∧ c ≤ 481) ∨ c = 999
      ∨ (1000 ≤ c ∧ c ≤ 1009)) := by
  simp only [isStringCode, jcLe, jcBetween, jcGe, jcEq, Bool.or_eq_true, Bool.and_eq_true,
    decide_eq_true_eq]
  omega

theorem isFloatCode_iff (c : ℤ) : isFloatCode (some c) = true ↔
    ((10 ≤ c ∧ c ≤ 59) ∨ (110 ≤ c ∧ c ≤ 149) ∨ (210 ≤ c ∧ c ≤ 239)
      ∨ (460 ≤ c ∧ c ≤ 469) ∨ (1010 ≤ c ∧ c ≤ 1059)) := by
  simp only [isFloatCode, jcLe, jcBetween, jcGe, jcEq, Bool.or_eq_true, Bool.and_eq_true,
    decide_eq_true_eq]
  omega

theorem isIntCode_iff (c : ℤ) : isIntCode (some c) = true ↔
    ((60 ≤ c ∧ c ≤ 99) ∨ (160 ≤ c ∧ c ≤ 179) ∨ (270 ≤ c ∧ c ≤ 289)
      ∨ (370 ≤ c ∧ c ≤ 389) ∨ (400 ≤ c ∧ c ≤ 409) ∨ (420 ≤ c ∧ c ≤ 429)
      ∨ (440 ≤ c ∧ c ≤ 459) ∨ (1060 ≤ c ∧ c ≤ 1071)) := by
  simp only [isIntCode, jcLe, jcBetween, jcGe, jcEq, Bool.or_eq_true, Bool.and_eq_true,
    decide_eq_true_eq]
  omega

theorem isBoolCode_iff (c : ℤ) : isBoolCode (some c) = true ↔ (290 ≤ c ∧ c ≤ 299) := by
  simp only [isBoolCode, jcLe, jcBetween, jcGe, jcEq, Bool.or_eq_true, Bool.and_eq_true,
    decide_eq_true_eq]

theorem string_of_float {c : ℤ} (h : isFloatCode (some c) = true) :
    isStringCode (some c) = false := by
  by_contra hcon
  rw [Bool.not_eq_false, isStringCode_iff] at hcon
  rw [isFloatCode_iff] at h
  omega

theorem string_of_int {c : ℤ} (h : isIntCode (some c) = true) :
    isStringCode (some c) = false := by
  by_contra hcon
  rw [Bool.not_eq_false, isStringCode_iff] at hcon
  rw [isIntCode_iff] at h
  omega

theorem float_of_int {c : ℤ} (h : isIntCode (some c) = true) :
    isFloatCode (some c) = false := by
  by_contra hcon
  rw [Bool.not_eq_false, isFloatCode_iff] at hcon
  rw [isIntCode_iff] at h
  omega

theorem bool_of_int {c : ℤ} (h : isIntCode (some c) = true) :
    isBoolCode (some c) = false := by
  by_contra hcon
  rw [Bool.not_eq_false, isBoolCode_iff] at hcon
  rw [isIntCode_iff] at h
  omega

theorem string_of_bool {c : ℤ} (h : isBoolCode (some c) = true) :
    isStringCode (some c) = false := by
  by_contra hcon
  rw [Bool.not_eq_false, isStringCode_iff] at hcon
  rw [isBoolCode_iff] at h
  omega

theorem float_of_bool {c : ℤ} (h : isBoolCode (some c) = true) :
    isFloatCode (some c) = false := by
  by_contra hcon
  rw [Bool.not_eq_false, isFloatCode_iff] at hcon
  rw [isBoolCode_iff] at h
  omega

theorem int_of_bool {c : ℤ} (h : isBoolCode (some c) = true) :
    isIntCode (some c) = false := by
  by_contra hcon
  rw [Bool.not_eq_false, isIntCode_iff] at hcon
  rw [isBoolCode_iff] at h
  omega

/-- The value shape that the code-range partition assigns to a code: text for
string ranges (and for the out-of-range fallback), a finite-decimal number for
float ranges, an integer for integer ranges, a boolean for the boolean range. -/
def typedGroupValue (c : ℤ) (v : GroupValue) : Prop :=
  if isStringCode (some c) then ∃ s, v = .str s
  else if isFloatCode (some c) then ∃ q : ℚ, v = .num (some q) ∧ hasFiniteDecimal q = true
  else if isIntCode (some c) then ∃ n : ℤ, v = .num (some (n : ℚ))
  else if isBoolCode (some c) then ∃ b, v = .bool b
  else ∃ s, v = .str s

theorem parseGroupValue_typed {c : ℤ} {s : String} {v : GroupValue}
    (h : parseGroupValue (some c) s = .ok v) (hnan : v ≠ .num none) :
    typedGroupValue c v := by
  unfold parseGroupValue at h
  unfold typedGroupValue
  by_cases h1 : isStringCode (some c) = true
  · rw [if_pos h1] at h ⊢
    exact ⟨s, by injection h with h; exact h.symm⟩
  · rw [Bool.not_eq_true] at h1
    rw [h1] at h ⊢
    simp only [Bool.false_eq_true, if_false] at h ⊢
    by_cases h2 : isFloatCode (some c) = true
    · rw [if_pos h2] at h ⊢
      injection h with h
      cases hq : parseFloatJS s with
      | none => rw [hq] at h; exact absurd h.symm hnan
      | some q =>
        rw [hq] at h
        exact ⟨q, h.symm, parseFloatJS_finite hq⟩
    · rw [Bool.not_eq_true] at h2
      rw [h2] at h ⊢
      simp only [Bool.false_eq_true, if_false] at h ⊢
      by_cases h3 : isIntCode (some c) = true
      · rw [if_pos h3] at h ⊢
        injection h with h
        cases hi : parseIntJS s with
        | none => rw [hi] at h; exact absurd h.symm (by simpa using hnan)
        | some n =>
          rw [hi] at h
          exact ⟨n, by rw [← h]; rfl⟩
      · rw [Bool.not_eq_true] at h3
        rw [h3] at h ⊢
        simp only [Bool.false_eq_true, if_false] at h ⊢
        by_cases h4 : isBoolCode (some c) = true
        · rw [if_pos h4] at h ⊢
          split at h
          · exact ⟨false, by injection h with h; exact h.symm⟩
          · split at h
            · exact ⟨true, by injection h with h; exact h.symm⟩
            · exact absurd h (by simp)
        · rw [Bool.not_eq_true] at h4
          rw [h4] at h ⊢
          simp only [Bool.false_eq_true, if_false] at h ⊢
          exact ⟨s, by injection h with h; exact h.symm⟩

theorem parse_serialize_inverse (c : ℤ) (v : GroupValue) (h : typedGroupValue c v) :
    parseGroupValue (some c) ((serializeGroupValue c v).getD 1 ("")) = .ok v := by
  unfold typedGroupValue at h
  by_cases h1 : isStringCode (some c) = true
  · rw [if_pos h1] at h
    obtain ⟨s, rfl⟩ := h
    simp [serializeGroupValue, parseGroupValue, h1, jsValToString, List.getD]
  · rw [Bool.not_eq_true] at h1
    rw [h1] at h
    simp only [Bool.false_eq_true, if_false] at h
    by_cases h2 : isFloatCode (some c) = true
    · rw [if_pos h2] at h
      obtain ⟨q, rfl, hfin⟩ := h
      rw [hasFiniteDecimal, decide_eq_true_iff] at hfin
      simp only [serializeGroupValue, parseGroupValue, h1, h2, Bool.false_eq_true, if_false,
        if_true, List.getD, List.get?, Option.getD_some]
      rw [parseFloatJS_serializeFloat q hfin]
    · rw [Bool.not_eq_true] at h2
      rw [h2] at h
      simp only [Bool.false_eq_true, if_false] at h
      by_cases h3 : isIntCode (some c) = true
      · rw [if_pos h3] at h
        obtain ⟨n, rfl⟩ := h
        have hb := bool_of_int h3
        have hden : ((n : ℚ)).den = 1 := Rat.den_intCast n
        have hnum : ((n : ℚ)).num = n := Rat.num_intCast n
        simp only [serializeGroupValue, parseGroupValue, h1, h2, h3, hb, Bool.false_eq_true,
          if_false, if_true, List.getD, List.get?, jsIntString, hden, hnum, if_pos rfl,
          Option.getD_some]
        rw [parseIntJS_intToDec]
        rfl
      · rw [Bool.not_eq_true] at h3
        rw [h3] at h
        simp only [Bool.false_eq_true, if_false] at h
        by_cases h4 : isBoolCode (some c) = true
        · rw [if_pos h4] at h
          obtain ⟨b, rfl⟩ := h
          cases b <;>
            simp [serializeGroupValue, parseGroupValue, h1, h2, h3, h4,
              GroupValue.jsTruthy, List.getD]
        · rw [Bool.not_eq_true] at h4
          rw [h4] at h
          simp only [Bool.false_eq_true, if_false] at h
          obtain ⟨s, rfl⟩ := h
          simp [serializeGroupValue, parseGroupValue, h1, h2, h3, h4, jsValToString, List.getD]

/-- C2: group value typing is an exact inverse pair.  First conjunct: for every
code `c` and every value `v` of the shape the code-range partition assigns to
`c` (`typedGroupValue`), parsing the rendered value text gives back `v`
exactly.  Second conjunct: for every raw string that parses successfully (to a
non-`NaN` value), re-rendering and re-parsing is stable, which is the
formalisation of "rendering the parsed value gives back the string up to
canonical numeric formatting".  Third conjunct: the canonical-formatting
example from the specification, the integer-valued float `4` at float code 10
renders as `"4.0"`.  Numbers are exact decimal rationals per the module
conventions. -/
theorem c2_group_value_typing_inverse :
    (∀ (c : ℤ) (v : GroupValue), typedGroupValue c v →
        parseGroupValue (some c) ((serializeGroupValue c v).getD 1 ("")) = .ok v)
    ∧ (∀ (c : ℤ) (s : String) (v : GroupValue),
        parseGroupValue (some c) s = .ok v → v ≠ .num none →
        parseGroupValue (some c) ((serializeGroupValue c v).getD 1 ("")) = .ok v)
    ∧ serializeGroupValue 10 (.num (some 4)) = [("10"), ("4.0")] := by
  refine ⟨parse_serialize_inverse, ?_, ?_⟩
  · intro c s v h hnan
    exact parse_serialize_inverse c v (parseGroupValue_typed h hnan)
  · rfl

/-- Witness for C2 at concrete inputs: a typed string value at code 1
round-trips, and a typed integer value at code 70 round-trips. -/
theorem c2_group_value_typing_inverse_witness :
    parseGroupValue (some 1) ((serializeGroupValue 1 (.str ("HELLO"))).getD 1 ("")) = .ok (.str ("HELLO"))
    ∧ parseGroupValue (some 70) ((serializeGroupValue 70 (.num (some ((5 : ℤ) : ℚ)))).getD 1 (""))
        = .ok (.num (some ((5 : ℤ) : ℚ))) :=
  ⟨c2_group_value_typing_inverse.1 1 (.str ("HELLO")) ⟨("HELLO"), rfl⟩,
   c2_group_value_typing_inverse.1 70 (.num (some ((5 : ℤ) : ℚ))) ⟨5, rfl⟩⟩

/-- C8: boolean typing.  For every code in 290..299, parsing `"0"` yields
`false`, parsing `"1"` yields `true`, parsing any other string fails with the
invalid-boolean `TypeError` message, and rendering emits `"1"` for `true` and
`"0"` for `false`. -/
theorem c8_boolean_group_codes (c : ℤ) (hlo : 290 ≤ c) (hhi : c ≤ 299) :
    parseGroupValue (some c) ("0") = .ok (.bool false)
    ∧ parseGroupValue (some c) ("1") = .ok (.bool true)
    ∧ (∀ s : String, s ≠ ("0") → s ≠ ("1") →
        parseGroupValue (some c) s
          = .error (("Code ") ++ intToDec c ++ (": String '") ++ s
              ++ ("' cannot be cast to Boolean type")))
    ∧ serializeGroupValue c (.bool true) = [intToDec c, ("1")]
    ∧ serializeGroupValue c (.bool false) = [intToDec c, ("0")] := by
  have hb : isBoolCode (some c) = true := (isBoolCode_iff c).mpr ⟨hlo, hhi⟩
  have hs := string_of_bool hb
  have hf := float_of_bool hb
  have hi := int_of_bool hb
  refine ⟨?_, ?_, ?_, ?_, ?_⟩
  · simp [parseGroupValue, hs, hf, hi, hb]
  · simp [parseGroupValue, hs, hf, hi, hb]
  · intro s hs0 hs1
    simp [parseGroupValue, hs, hf, hi, hb, hs0, hs1, jcToString]
  · simp [serializeGroupValue, hs, hf, hb, GroupValue.jsTruthy]
  · simp [serializeGroupValue, hs, hf, hb, GroupValue.jsTruthy]

/-- Witness for C8 at code 290: the two valid literals, one invalid literal,
and both renderings. -/
theorem c8_boolean_group_codes_witness :
    parseGroupValue (some 290) ("0") = .ok (.bool false)
    ∧ parseGroupValue (some 290) ("2")
        = .error (("Code ") ++ intToDec 290 ++ (": String '") ++ ("2")
            ++ ("' cannot be cast to Boolean type"))
    ∧ serializeGroupValue 290 (.bool true) = [intToDec 290, ("1")] :=
  ⟨(c8_boolean_group_codes 290 (by decide) (by decide)).1,
   (c8_boolean_group_codes 290 (by decide) (by decide)).2.2.1 ("2") (by decide) (by decide),
   (c8_boolean_group_codes 290 (by decide) (by decide)).2.2.2.1⟩

instance exceptDecEq {ε α : Type} [DecidableEq ε] [DecidableEq α] : DecidableEq (Except ε α)
  | .error e, .error f => if h : e = f then .isTrue (by rw [h]) else .isFalse (by simp [h])
  | .error _, .ok _ => .isFalse (by simp)
  | .ok _, .error _ => .isFalse (by simp)
  | .ok a, .ok b => if h : a = b then .isTrue (by rw [h]) else .isFalse (by simp [h])

/-! ## The scanner (source `DxfArrayScanner.ts`) -/

/-- One group: a code and a typed value, as produced by the scanner. -/
structure IGroup where
  code : JsCode
  value : GroupValue
deriving Repr, DecidableEq

/-- Scanner state over the raw line array: `pointer` is the cursor in lines
(an integer, because `rewind` performs unchecked pointer arithmetic and caller
misuse may drive it negative — a programming error per the specification),
`eof` records that the (0, EOF) group has been read, and `lastReadGroup` is
the group most recently returned by `next`. -/
structure DxfArrayScanner where
  data : List String
  pointer : ℤ := 0
  eof : Bool := false
  lastReadGroup : Option IGroup := none
deriving Repr, DecidableEq

/-- Array access `data[i]`; `none` stands for JS `undefined` (out of range). -/
def lineAt (d : List String) (i : ℤ) : Option String :=
  if i < 0 then none else d.get? i.toNat

/-- JS string conversion of a possibly `undefined` line, as string
concatenation in an error message would produce. -/
def lineText (o : Option String) : String := o.getD ("undefined")

namespace DxfArrayScanner

/-- Source `hasNext`: false once the EOF group has been read, or when fewer
than two lines remain. -/
def hasNext (s : DxfArrayScanner) : Bool :=
  if s.eof then false
  else if s.pointer > (s.data.length : ℤ) - 2 then false
  else true

/-- The message of the unexpected-end-of-input error thrown by `next`/`peek`. -/
def unexpectedEndMsg (s : DxfArrayScanner) : String :=
  ("Unexpected end of input: EOF group not read before end of file. Ended on code ")
    ++ lineText (lineAt s.data s.pointer)

/-- Source `next`: reads a (code, value) pair, advancing the cursor by exactly
two lines; the code line goes through `parseInt` and the value line through
`ltrim` and `parseGroupValue`; reading the (0, EOF) group sets the EOF flag;
the group read is recorded as `lastReadGroup`. -/
def next (s : DxfArrayScanner) : Except String (IGroup × DxfArrayScanner) :=
  if s.hasNext = false then
    if s.eof = false then .error s.unexpectedEndMsg
    else .error ("Cannot call 'next' after EOF group has been read")
  else do
    let code := parseIntJSAuto ((lineAt s.data s.pointer).getD (""))
    let value ← parseGroupValue code (ltrim ((lineAt s.data (s.pointer + 1)).getD ("")))
    let group : IGroup := ⟨code, value⟩
    let eof' := s.eof || (jcEq code 0 && GroupValue.jsEq value (.str ("EOF")))
    .ok (group, { s with pointer := s.pointer + 2, eof := eof', lastReadGroup := some group })

/-- Source `peek`: the group `next` would produce, without advancing the
cursor, updating `lastReadGroup`, or setting the EOF flag. -/
def peek (s : DxfArrayScanner) : Except String IGroup :=
  if s.hasNext = false then
    if s.eof = false then .error s.unexpectedEndMsg
    else .error ("Cannot call 'peek' after EOF group has been read")
  else do
    let code := parseIntJSAuto ((lineAt s.data s.pointer).getD (""))
    let value ← parseGroupValue code (ltrim ((lineAt s.data (s.pointer + 1)).getD ("")))
    .ok ⟨code, value⟩

/-- Source `rewind`: move the cursor back by `n` groups (2n lines), with no
bounds check. -/
def rewind (s : DxfArrayScanner) (n : ℤ := 1) : DxfArrayScanner :=
  { s with pointer := s.pointer - n * 2 }

/-- Source `isEOF`. -/
def isEOF (s : DxfArrayScanner) : Bool := s.eof

end DxfArrayScanner

theorem parseGroupValue_error_shape {c : JsCode} {v : String} {e : String}
    (h : parseGroupValue c v = .error e) : ∃ t, e = ("Code ") ++ t := by
  unfold parseGroupValue at h
  split at h
  · exact absurd h (by simp)
  · split at h
    · exact absurd h (by simp)
    · split at h
      · exact absurd h (by simp)
      · split at h
        · split at h
          · exact absurd h (by simp)
          · split at h
            · exact absurd h (by simp)
            · injection h with h
              refine ⟨jcToString c ++ (": String '") ++ v
                ++ ("' cannot be cast to Boolean type"), ?_⟩
              rw [← h]
              simp [String.append_assoc]
        · exact absurd h (by simp)

theorem string_append_ne {a b : String} (x y : String) (hA : 5 ≤ a.data.length)
    (hB : 5 ≤ b.data.length) (hne : a.data.take 5 ≠ b.data.take 5) : a ++ x ≠ b ++ y := by
  intro h
  apply hne
  have hd := congrArg String.data h
  rw [String.data_append, String.data_append] at hd
  have h5 := congrArg (List.take 5) hd
  rwa [List.take_append_of_le_length hA, List.take_append_of_le_length hB] at h5

/-- C4 (amended): characterisation of the scanner `next` failure conditions.
It throws the unexpected-end-of-input error exactly when fewer than 2 lines
remain (`length - 2 < pointer`) and the (0, EOF) group has not been read; it
throws the read-past-end error exactly when it is called after the (0, EOF)
group was consumed; otherwise — unless value type-conversion itself throws (a
fatal type-coercion error, e.g. an invalid boolean literal) — it returns a
group and advances the cursor by exactly 2 lines. -/
theorem c4_scanner_next_failure_conditions (s : DxfArrayScanner) :
    (s.next = .error s.unexpectedEndMsg
      ↔ (s.eof = false ∧ (s.data.length : ℤ) - 2 < s.pointer))
    ∧ (s.next = .error (("Cannot call 'next' after EOF group has been read")) ↔ s.eof = true)
    ∧ (∀ v, s.hasNext = true →
        parseGroupValue (parseIntJSAuto ((lineAt s.data s.pointer).getD ("")))
            (ltrim ((lineAt s.data (s.pointer + 1)).getD (""))) = .ok v →
        ∃ g s', s.next = .ok (g, s') ∧ s'.pointer = s.pointer + 2 ∧ s'.data = s.data) := by
  have hUC : s.unexpectedEndMsg
      ≠ ("Cannot call 'next' after EOF group has been read") := by
    unfold DxfArrayScanner.unexpectedEndMsg
    rw [show (("Cannot call 'next' after EOF group has been read"))
        = ("Cannot call 'next' after EOF group has been read") ++ ("") from
      (String.append_empty _).symm]
    exact string_append_ne _ _ (by decide) (by decide) (by decide)
  have hCU : ∀ t : String, ("Code ") ++ t ≠ s.unexpectedEndMsg := by
    intro t
    unfold DxfArrayScanner.unexpectedEndMsg
    exact string_append_ne _ _ (by decide) (by decide) (by decide)
  have hCC : ∀ t : String,
      ("Code ") ++ t ≠ ("Cannot call 'next' after EOF group has been read") := by
    intro t
    rw [show (("Cannot call 'next' after EOF group has been read"))
        = ("Cannot call 'next' after EOF group has been read") ++ ("") from
      (String.append_empty _).symm]
    exact string_append_ne _ _ (by decide) (by decide) (by decide)
  by_cases heof : s.eof = true
  · have hnx : s.next = .error (("Cannot call 'next' after EOF group has been read")) := by
      unfold DxfArrayScanner.next DxfArrayScanner.hasNext
      rw [heof]
      simp
    refine ⟨?_, ?_, ?_⟩
    · rw [hnx]
      constructor
      · intro h
        injection h with h
        exact absurd h.symm hUC
      · rintro ⟨h, -⟩
        rw [heof] at h
        cases h
    · simp [hnx, heof]
    · intro v hhn
      unfold DxfArrayScanner.hasNext at hhn
      rw [heof] at hhn
      simp at hhn
  · rw [Bool.not_eq_true] at heof
    by_cases hptr : (s.data.length : ℤ) - 2 < s.pointer
    · have hhn : s.hasNext = false := by
        unfold DxfArrayScanner.hasNext
        rw [heof]
        simp only [Bool.false_eq_true, if_false]
        rw [if_pos (by omega)]
      have hnx : s.next = .error s.unexpectedEndMsg := by
        unfold DxfArrayScanner.next
        rw [hhn, heof]
        simp
      refine ⟨?_, ?_, ?_⟩
      · simp [hnx, heof, hptr]
      · rw [hnx]
        constructor
        · intro h
          injection h with h
          exact absurd h hUC
        · intro h
          rw [heof] at h
          cases h
      · intro v hhn2
        rw [hhn] at hhn2
        cases hhn2
    · have hhn : s.hasNext = true := by
        unfold DxfArrayScanner.hasNext
        rw [heof]
        simp only [Bool.false_eq_true, if_false]
        rw [if_neg (by omega)]
      cases hpv : parseGroupValue (parseIntJSAuto ((lineAt s.data s.pointer).getD ("")))
          (ltrim ((lineAt s.data (s.pointer + 1)).getD (""))) with
      | error e =>
        obtain ⟨t, rfl⟩ := parseGroupValue_error_shape hpv
        have hnx : s.next = .error (("Code ") ++ t) := by
          unfold DxfArrayScanner.next
          rw [hhn]
          simp only [Bool.true_eq_false, if_false]
          rw [hpv]
          rfl
        refine ⟨?_, ?_, ?_⟩
        · rw [hnx]
          constructor
          · intro h
            injection h with h
            exact absurd h (hCU t)
          · rintro ⟨-, h⟩
            exact absurd h hptr
        · rw [hnx]
          constructor
          · intro h
            injection h with h
            exact absurd h (hCC t)
          · intro h
            rw [heof] at h
            cases h
        · intro v _ hok
          exact absurd hok (by simp)
      | ok v =>
        have hnx : ∃ g s', s.next = .ok (g, s') ∧ s'.pointer = s.pointer + 2
            ∧ s'.data = s.data := by
          unfold DxfArrayScanner.next
          rw [hhn]
          simp only [Bool.true_eq_false, if_false]
          rw [hpv]
          exact ⟨_, _, rfl, rfl, rfl⟩
        obtain ⟨g, s', hok, hp2, hd2⟩ := hnx
        refine ⟨?_, ?_, ?_⟩
        · rw [hok]
          constructor
          · intro h
            cases h
          · rintro ⟨-, h⟩
            exact absurd h hptr
        · rw [hok]
          constructor
          · intro h
            cases h
          · intro h
            rw [heof] at h
            cases h
        · intro v2 _ _
          exact ⟨g, s', hok, hp2, hd2⟩

/-- Witness for C4: a two-line scanner in its initial state reads the single
group (0, EOF) successfully and advances by two lines. -/
theorem c4_scanner_next_failure_conditions_witness :
    (⟨[("0"), ("EOF")], 0, false, none⟩ : DxfArrayScanner).hasNext = true
    ∧ ∃ g s', (⟨[("0"), ("EOF")], 0, false, none⟩ : DxfArrayScanner).next = .ok (g, s')
        ∧ s'.pointer = 0 + 2 ∧ s'.data = [("0"), ("EOF")] :=
  ⟨by decide,
   (c4_scanner_next_failure_conditions ⟨[("0"), ("EOF")], 0, false, none⟩).2.2
     (.str ("EOF")) (by decide) (by decide)⟩

/-- Counterexample to C4 as stated: with data `["290", "x"]` (a boolean-typed
code with an invalid literal) the scanner has two lines available and has not
read EOF, yet `next` does not return a group — it throws the type-coercion
error — so "otherwise next() returns a group" fails. -/
theorem c4_scanner_next_counterexample :
    (⟨[("290"), ("x")], 0, false, none⟩ : DxfArrayScanner).eof = false
    ∧ ¬((([("290"), ("x")] : List String).length : ℤ) - 2 < 0)
    ∧ (⟨[("290"), ("x")], 0, false, none⟩ : DxfArrayScanner).next
        = .error (("Code 290: String 'x' cannot be cast to Boolean type")) := by
  refine ⟨rfl, by decide, ?_⟩
  decide

/-! ## Structural parsers (source `ParseHelpers.ts`): point and matrix -/

/-- A 2D or 3D point; `z` is absent (`none`) for 2D points.  A coordinate may
itself be `NaN` (inner `none`). -/
structure IPoint where
  x : JsNum
  y : JsNum
  z : Option JsNum := none
deriving Repr, DecidableEq

/-- The source's unchecked `as number` cast of a group value.  Non-numeric
values never reach this cast in any theorem below; they are modelled as NaN. -/
def asNum : GroupValue → JsNum
  | .num v => v
  | _ => none

/-- JS loose `!=` between two possibly-NaN codes (`NaN != x` is true). -/
def jcNeq (a b : JsCode) : Bool :=
  match a, b with
  | some x, some y => decide (x ≠ y)
  | _, _ => true

/-- Source `parsePoint` (`ParseHelpers.ts`): with the just-read x-component
group as `lastReadGroup`, read the y group (its code must be the x code + 10,
else a malformed-point error naming expected and actual code), then attempt
one more read for code + 20; if that code does not match, rewind exactly one
group and return a 2D point, otherwise keep the z value.  The scanner ends on
the last group consumed as part of the point. -/
def parsePoint (scanner : DxfArrayScanner) : Except String (IPoint × DxfArrayScanner) :=
  match scanner.lastReadGroup with
  | none => .error ("model: parsePoint requires a lastReadGroup (JS TypeError)")
  | some curr0 => do
    let x := asNum curr0.value
    let code1 := curr0.code.map (· + 10)
    let (curr, scanner) ← scanner.next
    if jcNeq curr.code code1 then
      .error (("Expected code for point value to be ") ++ jcToString code1
        ++ (" but got ") ++ jcToString curr.code ++ ("."))
    else
      let y := asNum curr.value
      let code2 := code1.map (· + 10)
      let (curr2, scanner2) ← scanner.next
      if jcNeq curr2.code code2 then
        .ok (⟨x, y, none⟩, scanner2.rewind)
      else
        .ok (⟨x, y, some (asNum curr2.value)⟩, scanner2)

/-- Source `serializePoint`: emit code/x and code+10/y, and code+20/z only
when z is present (nothing is emitted for a 2D point's z). -/
def serializePoint (p : IPoint) (code : ℤ) : List String :=
  [intToDec code, serializeFloat p.x, intToDec (code + 10), serializeFloat p.y]
    ++ (match p.z with
        | some z => [intToDec (code + 20), serializeFloat z]
        | none => [])

/-- The 16 values of a 4x4 matrix, in read order. -/
abbrev Matrix4 := List JsNum

/-- The loop of `parseMatrix`: read `k` groups, all of which must carry
`groupCode`, collecting the values in order. -/
def parseMatrixLoop (groupCode : ℤ) :
    ℕ → DxfArrayScanner → List JsNum → Except String (Matrix4 × DxfArrayScanner)
  | 0, scanner, acc => .ok (acc, scanner)
  | k + 1, scanner, acc => do
    let (curr, scanner) ← scanner.next
    if jcNeq curr.code (some groupCode) then
      .error (("Expected code for matrix value to be ") ++ intToDec groupCode
        ++ (" but got ") ++ jcToString curr.code ++ ("."))
    else parseMatrixLoop groupCode k scanner (acc ++ [asNum curr.value])

/-- Source `parseMatrix` (`ParseHelpers.ts`): rewind one group (to re-read the
group that announced the matrix), then read exactly 16 groups all carrying
`groupCode`, failing with a malformed-matrix error naming expected and actual
code on any mismatch. -/
def parseMatrix (scanner : DxfArrayScanner) (groupCode : ℤ) :
    Except String (Matrix4 × DxfArrayScanner) :=
  parseMatrixLoop groupCode 16 scanner.rewind []

/-- Source `serializeMatrix`: each of the 16 values under the same code. -/
def serializeMatrix (matrix : Matrix4) (code : ℤ := 47) : List String :=
  matrix.flatMap (fun n => [intToDec code, serializeFloat n])

/-- Stepping lemma: on a scanner whose remaining data starts with a code line
and a value line whose typed parse succeeds, `next` returns that group and the
advanced state. -/
theorem next_step {s : DxfArrayScanner} {cl vl : String} {rest : List String}
    (hdrop : s.data.drop s.pointer.toNat = cl :: vl :: rest)
    (hp : 0 ≤ s.pointer) (heof : s.eof = false)
    {v : GroupValue} (hv : parseGroupValue (parseIntJSAuto cl) (ltrim vl) = .ok v) :
    s.next = .ok (⟨parseIntJSAuto cl, v⟩,
      { s with
          pointer := s.pointer + 2
          eof := jcEq (parseIntJSAuto cl) 0 && GroupValue.jsEq v (.str ("EOF"))
          lastReadGroup := some ⟨parseIntJSAuto cl, v⟩ }) := by
  have hlen : 2 ≤ s.data.length - s.pointer.toNat := by
    have := congrArg List.length hdrop
    rw [List.length_drop] at this
    simp only [List.length_cons] at this
    omega
  have hget0 : s.data.get? s.pointer.toNat = some cl := by
    have := congrArg (fun l : List String => l.get? 0) hdrop
    simp only [List.get?_drop, Nat.add_zero] at this
    simpa using this
  have hget1 : s.data.get? (s.pointer.toNat + 1) = some vl := by
    have := congrArg (fun l : List String => l.get? 1) hdrop
    simp only [List.get?_drop] at this
    simpa using this
  have hline0 : lineAt s.data s.pointer = some cl := by
    unfold lineAt
    rw [if_neg (by omega)]
    exact hget0
  have hline1 : lineAt s.data (s.pointer + 1) = some vl := by
    unfold lineAt
    rw [if_neg (by omega)]
    have : (s.pointer + 1).toNat = s.pointer.toNat + 1 := by omega
    rw [this]
    exact hget1
  have hhn : s.hasNext = true := by
    unfold DxfArrayScanner.hasNext
    rw [heof]
    simp only [Bool.false_eq_true, if_false]
    rw [if_neg (by omega)]
  unfold DxfArrayScanner.next
  rw [hhn]
  simp only [Bool.true_eq_false, if_false]
  rw [hline0, hline1]
  simp only [Option.getD_some]
  rw [hv, heof]
  rfl


/-- Calling `next` once the EOF flag is latched fails with the read-past-end
error, regardless of the cursor position (rewinding does not clear the flag). -/
theorem next_after_eof {s : DxfArrayScanner} (h : s.eof = true) :
    s.next = .error ("Cannot call 'next' after EOF group has been read") := by
  unfold DxfArrayScanner.next DxfArrayScanner.hasNext
  rw [h]
  rfl

/-- Reduction of a monadic bind against a proven `.ok` result. -/
theorem except_bind_ok {A B : Type} {x : Except String A} {a : A}
    (h : x = .ok a) (f : A → Except String B) : (x >>= f) = f a := by
  rw [h]
  rfl

/-- On a float-range code, `parseGroupValue` is `parseFloatJS` on the raw text. -/
theorem parseGroupValue_float {c : ℤ} (hc : isFloatCode (some c) = true) (s : String) :
    parseGroupValue (some c) s = .ok (.num (parseFloatJS s)) := by
  unfold parseGroupValue
  rw [string_of_float hc, hc]
  rfl

/-- On a float-range code, the one-fraction-digit rendering of an integer
parses back to that integer. -/
theorem parseGroupValue_at_float_fixed1 (c i : ℤ) (hc : isFloatCode (some c) = true) :
    parseGroupValue (some c) (intToDec i ++ (".0")) = .ok (GroupValue.num (some (i : ℚ))) := by
  rw [parseGroupValue_float hc, parseFloatJS_toFixed1]

/-- The group (20, 2.0), as `next` types it. -/
theorem pgv_20 : parseGroupValue (parseIntJSAuto ("20")) (ltrim ("2.0"))
    = .ok (GroupValue.num (some (2 : ℚ))) := by
  rw [show parseIntJSAuto ("20") = some 20 from by decide,
    show ltrim ("2.0") = intToDec 2 ++ (".0") from by decide]
  have h := parseGroupValue_at_float_fixed1 20 2 (by decide)
  rw [h]
  norm_num

/-- The group (30, 3.0), as `next` types it. -/
theorem pgv_30 : parseGroupValue (parseIntJSAuto ("30")) (ltrim ("3.0"))
    = .ok (GroupValue.num (some (3 : ℚ))) := by
  rw [show parseIntJSAuto ("30") = some 30 from by decide,
    show ltrim ("3.0") = intToDec 3 ++ (".0") from by decide]
  have h := parseGroupValue_at_float_fixed1 30 3 (by decide)
  rw [h]
  norm_num

/-- Second stepping lemma: after one successful read (any recorded group
`g1`, EOF flag still clear), a further `next` consumes the next two lines. -/
theorem next_step2 {s : DxfArrayScanner} {c1l v1l cl vl : String} {rest : List String}
    (g1 : IGroup)
    (hdrop : s.data.drop s.pointer.toNat = c1l :: v1l :: cl :: vl :: rest)
    (hp : 0 ≤ s.pointer)
    {v : GroupValue} (hv : parseGroupValue (parseIntJSAuto cl) (ltrim vl) = .ok v) :
    ({ s with
         pointer := s.pointer + 2
         eof := false
         lastReadGroup := some g1 } : DxfArrayScanner).next
      = .ok (⟨parseIntJSAuto cl, v⟩,
        { s with
            pointer := s.pointer + 2 + 2
            eof := jcEq (parseIntJSAuto cl) 0 && GroupValue.jsEq v (.str ("EOF"))
            lastReadGroup := some ⟨parseIntJSAuto cl, v⟩ }) := by
  have h2 : (s.pointer + 2).toNat = s.pointer.toNat + 2 := by omega
  have hdrop1 : s.data.drop (s.pointer + 2).toNat = cl :: vl :: rest := by
    rw [h2, ← List.drop_drop, hdrop]
    rfl
  exact next_step
    (s := { s with pointer := s.pointer + 2, eof := false, lastReadGroup := some g1 })
    hdrop1 (show (0 : ℤ) ≤ s.pointer + 2 by omega) rfl hv

/-- `parsePoint` unfolded at a last-read group of code 10. -/
theorem parsePoint_from10 {s : DxfArrayScanner} {v0 : GroupValue}
    (h : s.lastReadGroup = some ⟨some 10, v0⟩) :
    parsePoint s = (do
      let (curr, s1) ← s.next
      if jcNeq curr.code (some 20) then
        .error (("Expected code for point value to be ") ++ jcToString (some 20)
          ++ (" but got ") ++ jcToString curr.code ++ ("."))
      else
        let (curr2, s2) ← s1.next
        if jcNeq curr2.code (some 30) then
          .ok (⟨asNum v0, asNum curr.value, none⟩, s2.rewind)
        else
          .ok (⟨asNum v0, asNum curr.value, some (asNum curr2.value)⟩, s2)) := by
  unfold parsePoint
  rw [h]
  rfl

/-- The 2D branch of `parsePoint`: x group (10, 1.0) already read, groups
(20, 2.0) then a group of any other code following; the speculative third
read happens and is undone by one rewind, but the EOF latch of that read
(if it read the (0, EOF) marker) stays. -/
theorem parsePoint_2d_step {s : DxfArrayScanner} {cl vl : String} {rest : List String}
    {v : GroupValue}
    (hlast : s.lastReadGroup = some ⟨some 10, GroupValue.num (some 1)⟩)
    (hp : 0 ≤ s.pointer) (heof : s.eof = false)
    (hdrop : s.data.drop s.pointer.toNat = ("20") :: ("2.0") :: cl :: vl :: rest)
    (hv : parseGroupValue (parseIntJSAuto cl) (ltrim vl) = .ok v)
    (hne : jcNeq (parseIntJSAuto cl) (some 30) = true) :
    parsePoint s = .ok (⟨some 1, some 2, none⟩,
      { s with
          pointer := s.pointer + 2 + 2 - 1 * 2
          eof := jcEq (parseIntJSAuto cl) 0 && GroupValue.jsEq v (.str ("EOF"))
          lastReadGroup := some ⟨parseIntJSAuto cl, v⟩ }) := by
  have hstep1 := next_step hdrop hp heof pgv_20
  rw [show (jcEq (parseIntJSAuto ("20")) 0
      && GroupValue.jsEq (GroupValue.num (some (2 : ℚ))) (GroupValue.str ("EOF"))) = false
    from by decide] at hstep1
  have hstep2 := next_step2
    (⟨parseIntJSAuto ("20"), GroupValue.num (some (2 : ℚ))⟩ : IGroup) hdrop hp hv
  rw [parsePoint_from10 hlast, except_bind_ok hstep1]
  simp only [show jcNeq (parseIntJSAuto ("20")) (some 20) = false from by decide,
    Bool.false_eq_true, if_false]
  rw [except_bind_ok hstep2]
  simp only [hne, if_true]
  rfl

/-- The 3D branch of `parsePoint`: x group (10, 1.0) already read, groups
(20, 2.0) then (30, z) following; all three are consumed, no rewind. -/
theorem parsePoint_3d_step {s : DxfArrayScanner} {zl : String} {zrest : List String}
    {zv : GroupValue}
    (hlast : s.lastReadGroup = some ⟨some 10, GroupValue.num (some 1)⟩)
    (hp : 0 ≤ s.pointer) (heof : s.eof = false)
    (hdrop : s.data.drop s.pointer.toNat = ("20") :: ("2.0") :: ("30") :: zl :: zrest)
    (hzv : parseGroupValue (parseIntJSAuto ("30")) (ltrim zl) = .ok zv) :
    parsePoint s = .ok (⟨some 1, some 2, some (asNum zv)⟩,
      { s with
          pointer := s.pointer + 2 + 2
          eof := jcEq (parseIntJSAuto ("30")) 0 && GroupValue.jsEq zv (.str ("EOF"))
          lastReadGroup := some ⟨parseIntJSAuto ("30"), zv⟩ }) := by
  have hstep1 := next_step hdrop hp heof pgv_20
  rw [show (jcEq (parseIntJSAuto ("20")) 0
      && GroupValue.jsEq (GroupValue.num (some (2 : ℚ))) (GroupValue.str ("EOF"))) = false
    from by decide] at hstep1
  have hstep2 := next_step2
    (⟨parseIntJSAuto ("20"), GroupValue.num (some (2 : ℚ))⟩ : IGroup) hdrop hp hzv
  rw [parsePoint_from10 hlast, except_bind_ok hstep1]
  simp only [show jcNeq (parseIntJSAuto ("20")) (some 20) = false from by decide,
    Bool.false_eq_true, if_false]
  rw [except_bind_ok hstep2]
  simp only [show jcNeq (parseIntJSAuto ("30")) (some 30) = false from by decide,
    Bool.false_eq_true, if_false]
  rfl


/-- **C3** (corrected).  Point-parsing 2D/3D boundary.  With the scanner just
past the x group (10, 1.0) and (20, 2.0) as the next group: if the group after
that parses, has a code other than 30, **and is not the (0, EOF) end marker**,
`parsePoint` returns the 2D point ⟨1, 2⟩ with no z, leaves the cursor exactly
one group past the y group (rewind exactness), and the next scanner read
returns that following group unchanged; if the groups after (20, 2.0) are
(30, z), `parsePoint` returns the 3D point and the cursor sits past all three
groups.  The original claim, quantified over *any* non-code-30 following
group, is refuted by `c3_point_parsing_counterexample`: when the following
group is the (0, EOF) marker, the speculative read latches the EOF flag, the
rewind does not clear it, and the next read fails instead of returning the
group. -/
theorem c3_point_parsing_2d_3d_boundary
    (s : DxfArrayScanner) (cl vl : String) (rest : List String) (v : GroupValue)
    (hlast : s.lastReadGroup = some ⟨some 10, GroupValue.num (some 1)⟩)
    (hp : 0 ≤ s.pointer) (heof : s.eof = false)
    (hdrop : s.data.drop s.pointer.toNat = ("20") :: ("2.0") :: cl :: vl :: rest)
    (hv : parseGroupValue (parseIntJSAuto cl) (ltrim vl) = .ok v)
    (hne : jcNeq (parseIntJSAuto cl) (some 30) = true)
    (hmark : (jcEq (parseIntJSAuto cl) 0 && GroupValue.jsEq v (GroupValue.str ("EOF"))) = false)
    (t : DxfArrayScanner) (zl : String) (zrest : List String) (zv : GroupValue)
    (htlast : t.lastReadGroup = some ⟨some 10, GroupValue.num (some 1)⟩)
    (htp : 0 ≤ t.pointer) (hteof : t.eof = false)
    (htdrop : t.data.drop t.pointer.toNat = ("20") :: ("2.0") :: ("30") :: zl :: zrest)
    (hzv : parseGroupValue (parseIntJSAuto ("30")) (ltrim zl) = .ok zv) :
    (∃ s2, parsePoint s = .ok (⟨some 1, some 2, none⟩, s2) ∧
      s2.pointer = s.pointer + 2 ∧
      ∃ s3, s2.next = .ok (⟨parseIntJSAuto cl, v⟩, s3)) ∧
    (∃ t2, parsePoint t = .ok (⟨some 1, some 2, some (asNum zv)⟩, t2) ∧
      t2.pointer = t.pointer + 4) := by
  constructor
  · have hpp := parsePoint_2d_step hlast hp heof hdrop hv hne
    rw [hmark] at hpp
    refine ⟨_, hpp, ?_, ?_⟩
    · show s.pointer + 2 + 2 - 1 * 2 = s.pointer + 2
      omega
    · have h2 : (s.pointer + 2 + 2 - 1 * 2).toNat = s.pointer.toNat + 2 := by omega
      have hdrop2 : s.data.drop (s.pointer + 2 + 2 - 1 * 2).toNat = cl :: vl :: rest := by
        rw [h2, ← List.drop_drop, hdrop]
        rfl
      exact ⟨_, next_step hdrop2 (show (0 : ℤ) ≤ s.pointer + 2 + 2 - 1 * 2 by omega) rfl hv⟩
  · have htt := parsePoint_3d_step htlast htp hteof htdrop hzv
    refine ⟨_, htt, ?_⟩
    show t.pointer + 2 + 2 = t.pointer + 4
    omega

/-- **C3 counterexample.**  The claim says the 2D behaviour — point returned,
following group delivered unchanged by the next read — holds for *any*
following group whose code is not 30.  Take the following group to be the
(0, EOF) end marker (code 0 ≠ 30): `parsePoint` does return the 2D point, but
the speculative read of the marker latched the EOF flag, the rewind did not
clear it, and the next read fails with the read-past-end error instead of
returning the group. -/
theorem c3_point_parsing_counterexample :
    ∃ s2, parsePoint ⟨[("10"), ("1.0"), ("20"), ("2.0"), ("0"), ("EOF")], 2, false,
        some ⟨some 10, GroupValue.num (some 1)⟩⟩ = .ok (⟨some 1, some 2, none⟩, s2) ∧
      s2.next = .error ("Cannot call 'next' after EOF group has been read") := by
  have hpp := @parsePoint_2d_step
    ⟨[("10"), ("1.0"), ("20"), ("2.0"), ("0"), ("EOF")], 2, false,
      some ⟨some 10, GroupValue.num (some 1)⟩⟩
    ("0") ("EOF") [] (GroupValue.str ("EOF"))
    rfl (by decide) rfl rfl (by decide) (by decide)
  rw [show (jcEq (parseIntJSAuto ("0")) 0
      && GroupValue.jsEq (GroupValue.str ("EOF")) (GroupValue.str ("EOF"))) = true
    from by decide] at hpp
  exact ⟨_, hpp, next_after_eof rfl⟩

/-- Witness for C3: concrete scanners exercising both conjuncts — a 2D point
followed by the group (40, x) (code ≠ 30, not the EOF marker), and a 3D point
(10, 1.0)(20, 2.0)(30, 3.0). -/
theorem c3_point_parsing_2d_3d_boundary_witness :
    (∃ s2, parsePoint ⟨[("10"), ("1.0"), ("20"), ("2.0"), ("40"), ("x")], 2, false,
        some ⟨some 10, GroupValue.num (some 1)⟩⟩ = .ok (⟨some 1, some 2, none⟩, s2) ∧
      s2.pointer = 2 + 2 ∧
      ∃ s3, s2.next = .ok (⟨parseIntJSAuto ("40"), GroupValue.num none⟩, s3)) ∧
    (∃ t2, parsePoint ⟨[("10"), ("1.0"), ("20"), ("2.0"), ("30"), ("3.0")], 2, false,
        some ⟨some 10, GroupValue.num (some 1)⟩⟩
        = .ok (⟨some 1, some 2, some (asNum (GroupValue.num (some 3)))⟩, t2) ∧
      t2.pointer = 2 + 4) :=
  c3_point_parsing_2d_3d_boundary
    ⟨[("10"), ("1.0"), ("20"), ("2.0"), ("40"), ("x")], 2, false,
      some ⟨some 10, GroupValue.num (some 1)⟩⟩ ("40") ("x") [] (GroupValue.num none)
    rfl (by decide) rfl rfl (by decide) (by decide) (by decide)
    ⟨[("10"), ("1.0"), ("20"), ("2.0"), ("30"), ("3.0")], 2, false,
      some ⟨some 10, GroupValue.num (some 1)⟩⟩ ("3.0") [] (GroupValue.num (some 3))
    rfl (by decide) rfl rfl pgv_30


/-- Pointwise relation between two replicated lists. -/
theorem forall₂_replicate {A B : Type} {R : A → B → Prop} {a : A} {b : B} (h : R a b) :
    ∀ n, List.Forall₂ R (List.replicate n a) (List.replicate n b)
  | 0 => List.Forall₂.nil
  | n + 1 => List.Forall₂.cons h (forall₂_replicate h n)

/-- Matrix loop, success: `k = pairs.length` groups whose code lines all parse
to `gc ≠ 0` and whose value lines type successfully are consumed in order,
appending their values to the accumulator; the cursor advances by two lines
per group and the EOF flag stays clear. -/
theorem parseMatrixLoop_ok (gc : ℤ) (hgc : gc ≠ 0) :
    ∀ {pairs : List (String × String)} {values : List GroupValue},
      List.Forall₂ (fun (p : String × String) (v : GroupValue) =>
        parseIntJSAuto p.1 = some gc ∧ parseGroupValue (some gc) (ltrim p.2) = .ok v)
        pairs values →
      ∀ (s : DxfArrayScanner) (acc : List JsNum) (rest : List String),
        s.data.drop s.pointer.toNat = pairs.flatMap (fun p => [p.1, p.2]) ++ rest →
        0 ≤ s.pointer → s.eof = false →
        ∃ s', parseMatrixLoop gc pairs.length s acc = .ok (acc ++ values.map asNum, s') ∧
          s'.pointer = s.pointer + 2 * pairs.length ∧ s'.eof = false ∧ s'.data = s.data := by
  intro pairs values hpv
  induction hpv with
  | nil =>
    intro s acc rest hdrop hp heof
    refine ⟨s, by simp [parseMatrixLoop], by simp, heof, rfl⟩
  | @cons p v ps vs hpair hps ih =>
    intro s acc rest hdrop hp heof
    obtain ⟨hc, hval⟩ := hpair
    have hv' : parseGroupValue (parseIntJSAuto p.1) (ltrim p.2) = .ok v := by
      rw [hc]
      exact hval
    have hdrop' : s.data.drop s.pointer.toNat
        = p.1 :: p.2 :: (ps.flatMap (fun q => [q.1, q.2]) ++ rest) := by
      simpa using hdrop
    have hstep := next_step hdrop' hp heof hv'
    rw [hc] at hstep
    have heq : (jcEq (some gc) 0 && GroupValue.jsEq v (GroupValue.str ("EOF"))) = false := by
      rw [show jcEq (some gc) 0 = false from by simp [jcEq, hgc]]
      rfl
    rw [heq] at hstep
    have hdrop1 : s.data.drop (s.pointer + 2).toNat
        = ps.flatMap (fun q => [q.1, q.2]) ++ rest := by
      rw [show (s.pointer + 2).toNat = s.pointer.toNat + 2 from by omega, ← List.drop_drop,
        hdrop']
      rfl
    obtain ⟨s', hloop, hpt, hf, hd⟩ := ih
      ({ s with pointer := s.pointer + 2, eof := false, lastReadGroup := some ⟨some gc, v⟩ })
      (acc ++ [asNum v]) rest hdrop1 (show (0 : ℤ) ≤ s.pointer + 2 by omega) rfl
    refine ⟨s', ?_, ?_, hf, hd⟩
    · simp only [List.length_cons]
      rw [show parseMatrixLoop gc (ps.length + 1) s acc = (do
          let (curr, scanner) ← s.next
          if jcNeq curr.code (some gc) then
            .error (("Expected code for matrix value to be ") ++ intToDec gc
              ++ (" but got ") ++ jcToString curr.code ++ ("."))
          else parseMatrixLoop gc ps.length scanner (acc ++ [asNum curr.value]))
        from rfl]
      rw [except_bind_ok hstep]
      simp only [show jcNeq (some gc) (some gc) = false from by simp [jcNeq],
        Bool.false_eq_true, if_false]
      rw [hloop]
      simp
    · rw [hpt]
      show s.pointer + 2 + 2 * (ps.length : ℤ) = s.pointer + 2 * ((ps.length + 1 : ℕ) : ℤ)
      push_cast
      ring

/-- Matrix loop, mismatch: after a good prefix shorter than the remaining
fuel, a group whose value line types but whose code is not `gc` makes the
loop fail with the malformed-matrix message naming expected and actual code. -/
theorem parseMatrixLoop_mismatch (gc : ℤ) (hgc : gc ≠ 0) :
    ∀ {pairs : List (String × String)} {values : List GroupValue},
      List.Forall₂ (fun (p : String × String) (v : GroupValue) =>
        parseIntJSAuto p.1 = some gc ∧ parseGroupValue (some gc) (ltrim p.2) = .ok v)
        pairs values →
      ∀ (k : ℕ), pairs.length < k →
      ∀ (s : DxfArrayScanner) (acc : List JsNum) (bl bvl : String) (rest : List String),
        s.data.drop s.pointer.toNat
          = pairs.flatMap (fun p => [p.1, p.2]) ++ bl :: bvl :: rest →
        0 ≤ s.pointer → s.eof = false →
        ∀ {bv : GroupValue}, parseGroupValue (parseIntJSAuto bl) (ltrim bvl) = .ok bv →
        jcNeq (parseIntJSAuto bl) (some gc) = true →
        parseMatrixLoop gc k s acc = .error (("Expected code for matrix value to be ")
          ++ intToDec gc ++ (" but got ") ++ jcToString (parseIntJSAuto bl) ++ (".")) := by
  intro pairs values hpv
  induction hpv with
  | nil =>
    intro k hk s acc bl bvl rest hdrop hp heof bv hbv hbc
    obtain ⟨m, rfl⟩ : ∃ m, k = m + 1 := ⟨k - 1, by omega⟩
    have hdrop' : s.data.drop s.pointer.toNat = bl :: bvl :: rest := by simpa using hdrop
    have hstep := next_step hdrop' hp heof hbv
    rw [show parseMatrixLoop gc (m + 1) s acc = (do
        let (curr, scanner) ← s.next
        if jcNeq curr.code (some gc) then
          .error (("Expected code for matrix value to be ") ++ intToDec gc
            ++ (" but got ") ++ jcToString curr.code ++ ("."))
        else parseMatrixLoop gc m scanner (acc ++ [asNum curr.value]))
      from rfl]
    rw [except_bind_ok hstep]
    simp only [hbc, if_true]
  | @cons p v ps vs hpair hps ih =>
    intro k hk s acc bl bvl rest hdrop hp heof bv hbv hbc
    obtain ⟨m, rfl⟩ : ∃ m, k = m + 1 := ⟨k - 1, by omega⟩
    obtain ⟨hc, hval⟩ := hpair
    have hv' : parseGroupValue (parseIntJSAuto p.1) (ltrim p.2) = .ok v := by
      rw [hc]
      exact hval
    have hdrop' : s.data.drop s.pointer.toNat
        = p.1 :: p.2 :: (ps.flatMap (fun q => [q.1, q.2]) ++ bl :: bvl :: rest) := by
      simpa using hdrop
    have hstep := next_step hdrop' hp heof hv'
    rw [hc] at hstep
    have heq : (jcEq (some gc) 0 && GroupValue.jsEq v (GroupValue.str ("EOF"))) = false := by
      rw [show jcEq (some gc) 0 = false from by simp [jcEq, hgc]]
      rfl
    rw [heq] at hstep
    have hdrop1 : s.data.drop (s.pointer + 2).toNat
        = ps.flatMap (fun q => [q.1, q.2]) ++ bl :: bvl :: rest := by
      rw [show (s.pointer + 2).toNat = s.pointer.toNat + 2 from by omega, ← List.drop_drop,
        hdrop']
      rfl
    rw [show parseMatrixLoop gc (m + 1) s acc = (do
        let (curr, scanner) ← s.next
        if jcNeq curr.code (some gc) then
          .error (("Expected code for matrix value to be ") ++ intToDec gc
            ++ (" but got ") ++ jcToString curr.code ++ ("."))
        else parseMatrixLoop gc m scanner (acc ++ [asNum curr.value]))
      from rfl]
    rw [except_bind_ok hstep]
    simp only [show jcNeq (some gc) (some gc) = false from by simp [jcNeq],
      Bool.false_eq_true, if_false]
    exact ih m (by simpa using hk)
      ({ s with pointer := s.pointer + 2, eof := false, lastReadGroup := some ⟨some gc, v⟩ })
      (acc ++ [asNum v]) bl bvl rest hdrop1 (show (0 : ℤ) ≤ s.pointer + 2 by omega) rfl
      hbv hbc


/-- **C6.**  Matrix parsing.  `parseMatrix(scanner, gc)` first rewinds exactly
one group (two lines) and then reads exactly 16 groups: if all 16 code lines
carry `gc` (a nonzero code, as every matrix code is) and the value lines type
successfully, it returns the 16 values in read order and leaves the cursor
30 lines past its starting position (− 2 for the rewind + 32 for 16 groups);
if, after a good prefix of fewer than 16 groups, a group carries a code
different from `gc`, it fails with the malformed-matrix error naming the
expected and the actual code. -/
theorem c6_matrix_parsing (gc : ℤ) (hgc : gc ≠ 0)
    (s : DxfArrayScanner) (pairs : List (String × String)) (values : List GroupValue)
    (rest : List String)
    (hpv : List.Forall₂ (fun (p : String × String) (v : GroupValue) =>
      parseIntJSAuto p.1 = some gc ∧ parseGroupValue (some gc) (ltrim p.2) = .ok v)
      pairs values)
    (hlen : pairs.length = 16)
    (hp : 2 ≤ s.pointer) (heof : s.eof = false)
    (hdrop : s.data.drop (s.pointer - 2).toNat = pairs.flatMap (fun p => [p.1, p.2]) ++ rest)
    (t : DxfArrayScanner) (gpairs : List (String × String)) (gvalues : List GroupValue)
    (hgpv : List.Forall₂ (fun (p : String × String) (v : GroupValue) =>
      parseIntJSAuto p.1 = some gc ∧ parseGroupValue (some gc) (ltrim p.2) = .ok v)
      gpairs gvalues)
    (hglen : gpairs.length < 16)
    (htp : 2 ≤ t.pointer) (hteof : t.eof = false)
    (bl bvl : String) (brest : List String) (bv : GroupValue)
    (htdrop : t.data.drop (t.pointer - 2).toNat
      = gpairs.flatMap (fun p => [p.1, p.2]) ++ bl :: bvl :: brest)
    (hbv : parseGroupValue (parseIntJSAuto bl) (ltrim bvl) = .ok bv)
    (hbc : jcNeq (parseIntJSAuto bl) (some gc) = true) :
    (∃ s', parseMatrix s gc = .ok (values.map asNum, s') ∧ s'.pointer = s.pointer + 30) ∧
    parseMatrix t gc = .error (("Expected code for matrix value to be ")
      ++ intToDec gc ++ (" but got ") ++ jcToString (parseIntJSAuto bl) ++ (".")) := by
  constructor
  · have hdrop' : (s.rewind).data.drop (s.rewind).pointer.toNat
        = pairs.flatMap (fun p => [p.1, p.2]) ++ rest := by
      show s.data.drop (s.pointer - 1 * 2).toNat = _
      rw [show s.pointer - 1 * 2 = s.pointer - 2 from by ring]
      exact hdrop
    obtain ⟨s', hok, hpt, _, _⟩ := parseMatrixLoop_ok gc hgc hpv s.rewind [] rest hdrop'
      (show (0 : ℤ) ≤ s.pointer - 1 * 2 by omega) heof
    rw [hlen] at hok hpt
    refine ⟨s', ?_, ?_⟩
    · show parseMatrixLoop gc 16 s.rewind [] = _
      rw [hok, List.nil_append]
    · rw [hpt]
      show s.pointer - 1 * 2 + 2 * ((16 : ℕ) : ℤ) = s.pointer + 30
      push_cast
      ring
  · have htdrop' : (t.rewind).data.drop (t.rewind).pointer.toNat
        = gpairs.flatMap (fun p => [p.1, p.2]) ++ bl :: bvl :: brest := by
      show t.data.drop (t.pointer - 1 * 2).toNat = _
      rw [show t.pointer - 1 * 2 = t.pointer - 2 from by ring]
      exact htdrop
    exact parseMatrixLoop_mismatch gc hgc hgpv 16 hglen t.rewind [] bl bvl brest htdrop'
      (show (0 : ℤ) ≤ t.pointer - 1 * 2 by omega) hteof hbv hbc

/-- Witness for C6: a matrix of sixteen (47, x) groups (the x parses to NaN,
exercising the code path; the codes all match) and a mismatch after one good
group, where code 10 appears instead of 47. -/
theorem c6_matrix_parsing_witness :
    (∃ s', parseMatrix ⟨(List.replicate 16 ((("47") : String), ("x"))).flatMap
          (fun p => [p.1, p.2]) ++ [], 2, false, none⟩ 47
        = .ok ((List.replicate 16 (GroupValue.num none)).map asNum, s') ∧
      s'.pointer = 2 + 30) ∧
    parseMatrix ⟨[("47"), ("x"), ("10"), ("x")], 2, false, none⟩ 47
      = .error (("Expected code for matrix value to be ") ++ intToDec 47
        ++ (" but got ") ++ jcToString (parseIntJSAuto ("10")) ++ (".")) :=
  c6_matrix_parsing 47 (by decide)
    ⟨(List.replicate 16 ((("47") : String), ("x"))).flatMap (fun p => [p.1, p.2]) ++ [],
      2, false, none⟩
    (List.replicate 16 (("47"), ("x"))) (List.replicate 16 (GroupValue.num none)) []
    (forall₂_replicate ⟨by decide, by decide⟩ 16) (by decide) (by decide) rfl rfl
    ⟨[("47"), ("x"), ("10"), ("x")], 2, false, none⟩
    [(("47"), ("x"))] [GroupValue.num none]
    (forall₂_replicate ⟨by decide, by decide⟩ 1) (by decide) (by decide) rfl
    ("10") ("x") [] (GroupValue.num none) rfl (by decide) (by decide)


/-! ## Unknown-code tolerance: the end-of-block record parser and the
`parseGroupValue` fallback -/

/-- Source `IEndBlock` (`index.ts`): the optional fields a `parseEndBlock`
record can carry.  The `as string` casts of the source are type-level only,
so the fields hold the raw group values. -/
structure IEndBlock where
  handle : Option GroupValue := none
  paperSpace : Option Bool := none
  layer : Option GroupValue := none
  ownerHandler : Option GroupValue := none
deriving Repr, DecidableEq

/-- Source `logUnhandledGroup` with `debugCode` inlined: the debug-log line
`unhandled group code:value` written for a group no case handles. -/
def logUnhandledGroup (curr : IGroup) : String :=
  ("unhandled group ") ++ jcToString curr.code ++ (":") ++ jsValToString curr.value

/-- The `console.warn` of the `parseGroupValue` fallback branch, reached
exactly when no code range matched. -/
def parseGroupValueWarnings (code : JsCode) (value : String) : List String :=
  if hasDefinedType code then []
  else [("WARNING: Group code does not have a defined type: code: ")
    ++ jcToString code ++ (", value: ") ++ value]

/-- The while loop of source `parseEndBlock` (`index.ts`): until the current
group is the EOF string or carries code 0, dispatch on the code (5 handle,
67 paperSpace via `=== 1`, 8 layer, 330 ownerHandler, anything else logged
as unhandled and discarded) and read the next group.  Fueled; the fuel error
is never reached from `parseEndBlock`, whose fuel exceeds the line count. -/
def parseEndBlockLoop :
    ℕ → IEndBlock → IGroup → DxfArrayScanner → List String →
      Except String (IEndBlock × DxfArrayScanner × List String)
  | 0, _, _, _, _ => .error ("model: out of fuel")
  | fuel + 1, eb, curr, scanner, log =>
    if GroupValue.jsEq curr.value (.str ("EOF")) || jcEq curr.code 0 then
      .ok (eb, scanner, log)
    else
      let (eb, log) :=
        if jcEq curr.code 5 then ({ eb with handle := some curr.value }, log)
        else if jcEq curr.code 67 then
          ({ eb with paperSpace := some (GroupValue.jsEq curr.value (.num (some 1))) }, log)
        else if jcEq curr.code 8 then ({ eb with layer := some curr.value }, log)
        else if jcEq curr.code 330 then ({ eb with ownerHandler := some curr.value }, log)
        else (eb, log ++ [logUnhandledGroup curr])
      do
        let (curr, scanner) ← scanner.next
        parseEndBlockLoop fuel eb curr scanner log

/-- Source `parseEndBlock`: run the loop from the last-read group, then
return the record only if some field was assigned (`Object.keys` check),
else `undefined` (`none`).  The debug log is returned alongside. -/
def parseEndBlock (scanner : DxfArrayScanner) :
    Except String (Option IEndBlock × DxfArrayScanner × List String) :=
  match scanner.lastReadGroup with
  | none => .error ("model: parseEndBlock requires a lastReadGroup (JS TypeError)")
  | some curr => do
    let (eb, scanner, log) ← parseEndBlockLoop (scanner.data.length + 1) {} curr scanner []
    .ok (if eb = ({} : IEndBlock) then none else some eb, scanner, log)

/-- On a string-range code, `parseGroupValue` returns the raw text. -/
theorem parseGroupValue_string {c : ℤ} (hc : isStringCode (some c) = true) (v : String) :
    parseGroupValue (some c) v = .ok (.str v) := by
  unfold parseGroupValue
  rw [hc]
  rfl


/-- One loop iteration on a group no case handles: the group is logged and
discarded, and the loop continues with the next read. -/
theorem parseEndBlockLoop_unhandled {fuel : ℕ} {eb : IEndBlock} {g : IGroup}
    {s : DxfArrayScanner} {log : List String}
    (heofv : GroupValue.jsEq g.value (.str ("EOF")) = false)
    (h0 : jcEq g.code 0 = false) (h5 : jcEq g.code 5 = false)
    (h67 : jcEq g.code 67 = false) (h8 : jcEq g.code 8 = false)
    (h330 : jcEq g.code 330 = false) :
    parseEndBlockLoop (fuel + 1) eb g s log
      = (do
          let (curr, scanner) ← s.next
          parseEndBlockLoop fuel eb curr scanner (log ++ [logUnhandledGroup g])) := by
  simp only [parseEndBlockLoop, heofv, h0, h5, h67, h8, h330, Bool.or_false,
    Bool.false_eq_true, if_false]

/-- One loop iteration on a code-5 group: the handle field is assigned. -/
theorem parseEndBlockLoop_handle {fuel : ℕ} {eb : IEndBlock} {g : IGroup}
    {s : DxfArrayScanner} {log : List String}
    (heofv : GroupValue.jsEq g.value (.str ("EOF")) = false)
    (h0 : jcEq g.code 0 = false) (h5 : jcEq g.code 5 = true) :
    parseEndBlockLoop (fuel + 1) eb g s log
      = (do
          let (curr, scanner) ← s.next
          parseEndBlockLoop fuel { eb with handle := some g.value } curr scanner log) := by
  simp only [parseEndBlockLoop, heofv, h0, h5, Bool.or_false, Bool.false_eq_true, if_false,
    if_true]

/-- The loop stops on the EOF string or a code-0 group. -/
theorem parseEndBlockLoop_stop {fuel : ℕ} {eb : IEndBlock} {g : IGroup}
    {s : DxfArrayScanner} {log : List String}
    (h : (GroupValue.jsEq g.value (.str ("EOF")) || jcEq g.code 0) = true) :
    parseEndBlockLoop (fuel + 1) eb g s log = .ok (eb, s, log) := by
  simp only [parseEndBlockLoop, h, if_true]

/-- `parseEndBlock` unfolded at a present last-read group. -/
theorem parseEndBlock_some {s : DxfArrayScanner} {g : IGroup}
    (h : s.lastReadGroup = some g) :
    parseEndBlock s = (do
      let (eb, scanner, log) ← parseEndBlockLoop (s.data.length + 1) {} g s []
      .ok (if eb = ({} : IEndBlock) then none else some eb, scanner, log)) := by
  unfold parseEndBlock
  rw [h]


/-! ## Mtext chunked text -/

/-- The effect of one code-1 or code-3 group on the entity text in source
`Mtext.parseEntity`: `entity.text ? (entity.text += curr.value) :
(entity.text = curr.value as string)`.  `none` is the JS undefined field;
JS truthiness makes an empty accumulated string fall into the assignment
branch. -/
def mtextTextStep (text : Option String) (v : String) : Option String :=
  if text.getD ("") ≠ ("") then some (text.getD ("") ++ v) else some v

/-- The entity text after the parse loop meets a run of text-chunk groups in
encounter order (each iteration applies `mtextTextStep`). -/
def mtextCollectText (chunks : List String) : Option String :=
  chunks.foldl mtextTextStep none

/-- The global regex match `/(.|[\r\n]){1,250}/g` of source
`Mtext.serializeEntity`: consecutive chunks of up to 250 characters, `[]` on
the empty string (JS `match` returns null).  Fueled by the string length. -/
def chunksAux : ℕ → List Char → List (List Char)
  | 0, _ => []
  | _ + 1, [] => []
  | fuel + 1, c :: cs => (c :: cs).take 250 :: chunksAux fuel ((c :: cs).drop 250)

/-- The text case of source `Mtext.serializeEntity`: split into 250-character
chunks; a single chunk is emitted as code 1 with the whole value, otherwise
every chunk is emitted under continuation code 3. -/
def serializeTextChunks (text : String) : List String :=
  let chunks := (chunksAux text.data.length text.data).map String.mk
  if chunks.length = 1 then [("1"), text]
  else chunks.flatMap (fun c => [("3"), c])

theorem chunksAux_eq_nil (fuel : ℕ) : chunksAux fuel [] = [] := by
  cases fuel <;> rfl

theorem chunksAux_step {l : List Char} (fuel : ℕ) (h : l ≠ []) :
    chunksAux (fuel + 1) l = l.take 250 :: chunksAux fuel (l.drop 250) := by
  cases l with
  | nil => exact absurd rfl h
  | cons c cs => rfl

theorem mtextTextStep_none (v : String) : mtextTextStep none v = some v := by
  simp [mtextTextStep]

theorem mtextTextStep_some {t : String} (h : t ≠ ("")) (v : String) :
    mtextTextStep (some t) v = some (t ++ v) := by
  simp [mtextTextStep, h]


/-- **C7** (corrected).  Chunked text.  A 600-character MTEXT text serializes
into exactly three chunks of lengths 250, 250 and 100, each under
continuation code 3, and applying the parse loop's text accumulation to those
chunks in encounter order recovers the original string exactly.  The
single-group code-1 form is used exactly when the string has **between 1
and 250** characters: the original claim's "at most 250 characters" is
refuted by `c7_chunked_text_counterexample` — the empty string matches
nothing under the chunking regex, so no text group is emitted at all. -/
theorem c7_chunked_text (t : String) (hlen : t.data.length = 600) (u : String) :
    (∃ c1 c2 c3 : String,
      serializeTextChunks t = [("3"), c1, ("3"), c2, ("3"), c3] ∧
      c1.length = 250 ∧ c2.length = 250 ∧ c3.length = 100 ∧
      c1 ++ c2 ++ c3 = t ∧ mtextCollectText [c1, c2, c3] = some t) ∧
    (serializeTextChunks u = [("1"), u] ↔ 1 ≤ u.data.length ∧ u.data.length ≤ 250) := by
  constructor
  · have h0 : t.data ≠ [] := by
      intro h
      rw [h] at hlen
      exact absurd hlen (by decide)
    have e1 : chunksAux 600 t.data = t.data.take 250 :: chunksAux 599 (t.data.drop 250) :=
      chunksAux_step 599 h0
    have hl1 : (t.data.drop 250).length = 350 := by
      rw [List.length_drop, hlen]
    have h1 : t.data.drop 250 ≠ [] := by
      intro h
      rw [h] at hl1
      exact absurd hl1 (by decide)
    have e2 : chunksAux 599 (t.data.drop 250)
        = (t.data.drop 250).take 250 :: chunksAux 598 ((t.data.drop 250).drop 250) :=
      chunksAux_step 598 h1
    have hl2 : ((t.data.drop 250).drop 250).length = 100 := by
      rw [List.length_drop, hl1]
    have h2 : (t.data.drop 250).drop 250 ≠ [] := by
      intro h
      rw [h] at hl2
      exact absurd hl2 (by decide)
    have e3 : chunksAux 598 ((t.data.drop 250).drop 250)
        = ((t.data.drop 250).drop 250).take 250
          :: chunksAux 597 (((t.data.drop 250).drop 250).drop 250) :=
      chunksAux_step 597 h2
    have hl3 : ((t.data.drop 250).drop 250).drop 250 = [] := by
      have : (((t.data.drop 250).drop 250).drop 250).length = 0 := by
        rw [List.length_drop, hl2]
      exact List.eq_nil_of_length_eq_zero this
    have hC : ((t.data.drop 250).drop 250).take 250 = (t.data.drop 250).drop 250 := by
      apply List.take_of_length_le
      rw [hl2]
      decide
    have hcat : String.mk (t.data.take 250) ++ String.mk ((t.data.drop 250).take 250)
        ++ String.mk ((t.data.drop 250).drop 250) = t := by
      show String.mk (t.data.take 250 ++ (t.data.drop 250).take 250
        ++ (t.data.drop 250).drop 250) = t
      rw [List.append_assoc, List.take_append_drop, List.take_append_drop]
    have hc1len : (String.mk (t.data.take 250)).length = 250 := by
      rw [String.length]
      simp only [List.length_take, hlen]
      decide
    have hc2len : (String.mk ((t.data.drop 250).take 250)).length = 250 := by
      rw [String.length]
      simp only [List.length_take, hl1]
      decide
    have hc1ne : String.mk (t.data.take 250) ≠ ("") := by
      intro h
      rw [h] at hc1len
      exact absurd hc1len (by decide)
    have hc12ne : String.mk (t.data.take 250) ++ String.mk ((t.data.drop 250).take 250)
        ≠ ("") := by
      intro h
      have := congrArg String.length h
      rw [String.length_append, hc1len, hc2len] at this
      exact absurd this (by decide)
    refine ⟨String.mk (t.data.take 250), String.mk ((t.data.drop 250).take 250),
      String.mk ((t.data.drop 250).drop 250), ?_, hc1len, hc2len, ?_, hcat, ?_⟩
    · unfold serializeTextChunks
      rw [hlen, e1, e2, e3, hl3, chunksAux_eq_nil, hC]
      simp only [List.map_cons, List.map_nil, List.length_cons, List.length_nil]
      rw [if_neg (by decide)]
      rfl
    · rw [String.length]
      exact hl2
    · show List.foldl mtextTextStep none _ = some t
      simp only [List.foldl_cons, List.foldl_nil]
      rw [mtextTextStep_none, mtextTextStep_some hc1ne, mtextTextStep_some hc12ne]
      rw [hcat]
  · constructor
    · intro h
      by_cases hA : u.data.length = 0
      · exfalso
        have hd : u.data = [] := List.eq_nil_of_length_eq_zero hA
        have hz : serializeTextChunks u = [] := by
          unfold serializeTextChunks
          rw [hd]
          simp [chunksAux_eq_nil]
        rw [hz] at h
        exact absurd h (by simp)
      · by_cases hB : u.data.length ≤ 250
        · exact ⟨by omega, hB⟩
        · exfalso
          obtain ⟨m, hm⟩ : ∃ m, u.data.length = m + 1 + 1 := ⟨u.data.length - 2, by omega⟩
          have h0 : u.data ≠ [] := by
            intro hh
            rw [hh] at hB
            exact hB (by decide)
          have e1 : chunksAux (m + 1 + 1) u.data
              = u.data.take 250 :: chunksAux (m + 1) (u.data.drop 250) :=
            chunksAux_step (m + 1) h0
          have h1 : u.data.drop 250 ≠ [] := by
            intro hh
            have hdl : (u.data.drop 250).length = 0 := by
              rw [hh]
              rfl
            rw [List.length_drop] at hdl
            omega
          have e2 : chunksAux (m + 1) (u.data.drop 250)
              = (u.data.drop 250).take 250 :: chunksAux m ((u.data.drop 250).drop 250) :=
            chunksAux_step m h1
          have hz : serializeTextChunks u = ("3") :: String.mk (u.data.take 250) :: ("3")
              :: String.mk ((u.data.drop 250).take 250)
              :: ((chunksAux m ((u.data.drop 250).drop 250)).map String.mk).flatMap
                (fun c => [("3"), c]) := by
            unfold serializeTextChunks
            rw [hm, e1, e2]
            simp only [List.map_cons, List.length_cons]
            rw [if_neg (by omega)]
            rfl
          rw [hz] at h
          simp only [List.cons.injEq] at h
          exact absurd h.1 (by decide)
    · intro hu
      obtain ⟨h1, h2⟩ := hu
      obtain ⟨m, hm⟩ : ∃ m, u.data.length = m + 1 := ⟨u.data.length - 1, by omega⟩
      have h0 : u.data ≠ [] := by
        intro hh
        rw [hh] at h1
        exact absurd h1 (by decide)
      have e1 : chunksAux (m + 1) u.data
          = u.data.take 250 :: chunksAux m (u.data.drop 250) := chunksAux_step m h0
      have hdrop : u.data.drop 250 = [] := List.drop_eq_nil_of_le h2
      have htake : u.data.take 250 = u.data := List.take_of_length_le h2
      unfold serializeTextChunks
      rw [hm, e1, hdrop, chunksAux_eq_nil, htake]
      rfl

/-- **C7 counterexample.**  The empty text (length 0 ≤ 250) does not use the
single-group code-1 form: the chunking regex matches nothing, so serialization
emits no text group at all. -/
theorem c7_chunked_text_counterexample :
    serializeTextChunks ("") = [] ∧ serializeTextChunks ("") ≠ [("1"), ("")] := by
  constructor
  · rfl
  · decide

/-- Witness for C7 at a concrete 600-character string (600 copies of a). -/
theorem c7_chunked_text_witness :
    (∃ c1 c2 c3 : String,
      serializeTextChunks (String.mk (List.replicate 600 'a'))
        = [("3"), c1, ("3"), c2, ("3"), c3] ∧
      c1.length = 250 ∧ c2.length = 250 ∧ c3.length = 100 ∧
      c1 ++ c2 ++ c3 = String.mk (List.replicate 600 'a') ∧
      mtextCollectText [c1, c2, c3] = some (String.mk (List.replicate 600 'a'))) ∧
    (serializeTextChunks ("ok") = [("1"), ("ok")] ↔
      1 ≤ ("ok").data.length ∧ ("ok").data.length ≤ 250) :=
  c7_chunked_text (String.mk (List.replicate 600 'a'))
    (show (List.replicate 600 ('a')).length = 600 from List.length_replicate 600 ('a')) ("ok")


/-! ## LWPOLYLINE -/

/-- Source `IVertex`: a polyline vertex; fields are assigned as the vertex
groups arrive (`as number` casts are type-level only). -/
structure IVertex where
  x : Option JsNum := none
  y : Option JsNum := none
  z : Option JsNum := none
  startWidth : Option JsNum := none
  endWidth : Option JsNum := none
  bulge : Option JsNum := none
deriving Repr, DecidableEq

/-- Source `ILwpolylineEntity` together with the common `IEntity` fields that
`checkCommonEntityProperties` can assign. -/
structure ILwpolylineEntity where
  type : GroupValue := .str ("LWPOLYLINE")
  handle : Option GroupValue := none
  lineType : Option GroupValue := none
  layer : Option GroupValue := none
  lineTypeScale : Option GroupValue := none
  visible : Option GroupValue := none
  colorIndex : Option GroupValue := none
  entityFollows : Option GroupValue := none
  inPaperSpace : Option GroupValue := none
  ownerHandle : Option GroupValue := none
  materialObjectHandle : Option GroupValue := none
  lineweight : Option GroupValue := none
  color : Option GroupValue := none
  vertices : Option (List IVertex) := none
  expectedVerticesCount : Option JsNum := none
  elevation : Option GroupValue := none
  depth : Option GroupValue := none
  shape : Option Bool := none
  hasContinuousLinetypePattern : Option Bool := none
  width : Option GroupValue := none
  standardFlags : Option GroupValue := none
  extrusionDirectionX : Option GroupValue := none
  extrusionDirectionY : Option GroupValue := none
  extrusionDirectionZ : Option GroupValue := none
deriving Repr, DecidableEq

/-- Source `ValueType` (`ParseHelpers.ts`). -/
inductive ValueType where
  | boolean
  | invertBoolean
deriving Repr, DecidableEq

/-- Source `encodeValue`: a number is turned into a boolean (`v !== 0`) or an
inverted boolean (`v === 0`) when the table says so; everything else is
unchanged. -/
def encodeValue (v : GroupValue) (t : Option ValueType) : GroupValue :=
  match v with
  | .num q =>
    match t with
    | some .boolean => .bool (!GroupValue.jsEq (.num q) (.num (some 0)))
    | some .invertBoolean => .bool (GroupValue.jsEq (.num q) (.num (some 0)))
    | none => .num q
  | v => v

/-- Truncation of a rational toward zero, as JS ToInt32 starts from. -/
def ratTrunc (q : ℚ) : ℤ := q.num / (q.den : ℤ)

/-- JS ToInt32 of a number: truncate toward zero, wrap into
[−2³¹, 2³¹); NaN becomes 0. -/
def jsToInt32 (v : JsNum) : ℤ :=
  match v with
  | none => 0
  | some q => (ratTrunc q + 2 ^ 31) % 2 ^ 32 - 2 ^ 31

/-- Source `(value & 1) === 1`: bit 0 of the ToInt32 value. -/
def jsBit1 (v : JsNum) : Bool := decide (jsToInt32 v % 2 = 1)

/-- Source `(value & 128) === 128`: bit 7 of the ToInt32 value. -/
def jsBit128 (v : JsNum) : Bool := decide (128 ≤ jsToInt32 v % 256)

/-- Source `curr.value != 0` in the bulge case (loose JS inequality; the
scanner types code-42 values as floats, so the `.num` lines are the live
ones; a string cannot arise from `next` at code 42). -/
def jsLooseNeZero : GroupValue → Bool
  | .num (some q) => decide (q ≠ 0)
  | .num none => true
  | .bool b => b
  | .str _ => true

/-- The `case 101` skip loop of `checkCommonEntityProperties`: read groups
until one carries code 0, then rewind one group. -/
def skipEmbedded : ℕ → JsCode → DxfArrayScanner → Except String DxfArrayScanner
  | 0, _, _ => .error ("model: out of fuel")
  | fuel + 1, code, scanner =>
    if jcEq code 0 then .ok scanner.rewind
    else do
      let (curr, scanner) ← scanner.next
      skipEmbedded fuel curr.code scanner

/-- Source `checkCommonEntityProperties` (specialised at the LWPOLYLINE
entity record): the code-to-field table (code 62 deleted from it by the
source), then the special cases 62 (colour index plus palette lookup of the
absolute index; `acadColor` stands for the palette array of the repository
file `AutoCadColorIndex` that is not part of the sources, with `none` for an
out-of-range `undefined`) and 101 (skip the embedded object). -/
def checkCommonEntityProperties (acadColor : JsNum → Option GroupValue)
    (entity : ILwpolylineEntity) (g : IGroup) (scanner : DxfArrayScanner) :
    Except String (ILwpolylineEntity × DxfArrayScanner) :=
  if jcEq g.code 0 then .ok ({ entity with type := encodeValue g.value none }, scanner)
  else if jcEq g.code 5 then
    .ok ({ entity with handle := some (encodeValue g.value none) }, scanner)
  else if jcEq g.code 6 then
    .ok ({ entity with lineType := some (encodeValue g.value none) }, scanner)
  else if jcEq g.code 8 then
    .ok ({ entity with layer := some (encodeValue g.value none) }, scanner)
  else if jcEq g.code 48 then
    .ok ({ entity with lineTypeScale := some (encodeValue g.value none) }, scanner)
  else if jcEq g.code 60 then
    .ok ({ entity with visible := some (encodeValue g.value (some .invertBoolean)) }, scanner)
  else if jcEq g.code 66 then
    .ok ({ entity with entityFollows := some (encodeValue g.value none) }, scanner)
  else if jcEq g.code 67 then
    .ok ({ entity with inPaperSpace := some (encodeValue g.value (some .boolean)) }, scanner)
  else if jcEq g.code 330 then
    .ok ({ entity with ownerHandle := some (encodeValue g.value none) }, scanner)
  else if jcEq g.code 347 then
    .ok ({ entity with materialObjectHandle := some (encodeValue g.value none) }, scanner)
  else if jcEq g.code 370 then
    .ok ({ entity with lineweight := some (encodeValue g.value none) }, scanner)
  else if jcEq g.code 420 then
    .ok ({ entity with color := some (encodeValue g.value none) }, scanner)
  else if jcEq g.code 62 then
    .ok ({ entity with
            colorIndex := some g.value
            color := acadColor ((asNum g.value).map (fun q => |q|)) }, scanner)
  else if jcEq g.code 101 then do
    let scanner ← skipEmbedded (scanner.data.length + 1) g.code scanner
    .ok (entity, scanner)
  else .ok (entity, scanner)

/-- **C5.**  Unknown-code tolerance (amended).  Record level
(`parseEndBlock`, a record parser whose switch lists codes 5, 67, 8, 330 and
whose default logs): with the current group `g` matched by no case (and not
a terminator), followed by a known group (5, handle) and a code-0
terminator, the parse succeeds, `g` is logged as unhandled, its value
appears in no field of the resulting record (only the handle field is set),
and parsing continued past `g`.  Typing level: a code outside every
documented range does not fail `parseGroupValue`: the raw text comes back as
the value and the fallback warning is emitted.  Entity level: for every
group whose code is matched by neither `commonEntityPropertyFromCode` nor
the special cases 62/101, `checkCommonEntityProperties` tolerates the group
with no effect at all — the entity and the scanner come back unchanged, with
no failure and (the source function contains no logging call) no log; the
original "logged as unhandled" is thus not universal over record parsers
(see the counterexample). -/
theorem c5_unknown_code_tolerance
    (s : DxfArrayScanner) (g : IGroup)
    (hlast : s.lastReadGroup = some g)
    (hp : 0 ≤ s.pointer) (heof : s.eof = false)
    (hgeof : GroupValue.jsEq g.value (.str ("EOF")) = false)
    (hg0 : jcEq g.code 0 = false) (hg5 : jcEq g.code 5 = false)
    (hg67 : jcEq g.code 67 = false) (hg8 : jcEq g.code 8 = false)
    (hg330 : jcEq g.code 330 = false)
    (hl tl : String) (rest : List String)
    (hne : ltrim hl ≠ ("EOF"))
    (hdrop : s.data.drop s.pointer.toNat = ("5") :: hl :: ("0") :: tl :: rest) :
    (∃ s', parseEndBlock s
      = .ok (some ⟨some (GroupValue.str (ltrim hl)), none, none, none⟩, s',
          [logUnhandledGroup g])) ∧
    (∀ (c : ℤ) (v : String), hasDefinedType (some c) = false →
      parseGroupValue (some c) v = .ok (.str v) ∧
      parseGroupValueWarnings (some c) v
        = [("WARNING: Group code does not have a defined type: code: ") ++ intToDec c
          ++ (", value: ") ++ v]) ∧
    (∀ (acadColor : JsNum → Option GroupValue) (entity : ILwpolylineEntity)
      (sc : DxfArrayScanner) (c2 : ℤ) (v2 : GroupValue),
      c2 ∉ ([0, 5, 6, 8, 48, 60, 66, 67, 330, 347, 370, 420, 62, 101] : List ℤ) →
      checkCommonEntityProperties acadColor entity ⟨some c2, v2⟩ sc
        = .ok (entity, sc)) := by
  refine ⟨?_, ?_, ?_⟩
  · have hL := congrArg List.length hdrop
    rw [List.length_drop] at hL
    simp only [List.length_cons] at hL
    obtain ⟨m, hm⟩ : ∃ m, s.data.length + 1 = m + 1 + 1 + 1 :=
      ⟨s.data.length - 2, by omega⟩
    have hv1 : parseGroupValue (parseIntJSAuto ("5")) (ltrim hl) = .ok (.str (ltrim hl)) := by
      rw [show parseIntJSAuto ("5") = some 5 from by decide]
      exact parseGroupValue_string (by decide) (ltrim hl)
    have hstep1 := next_step hdrop hp heof hv1
    rw [show parseIntJSAuto ("5") = some 5 from by decide] at hstep1
    have e1 : (jcEq (some 5) 0
        && GroupValue.jsEq (GroupValue.str (ltrim hl)) (GroupValue.str ("EOF"))) = false := by
      rw [show jcEq (some 5) 0 = false from rfl]
      rfl
    rw [e1] at hstep1
    have hv2 : parseGroupValue (parseIntJSAuto ("0")) (ltrim tl) = .ok (.str (ltrim tl)) := by
      rw [show parseIntJSAuto ("0") = some 0 from by decide]
      exact parseGroupValue_string (by decide) (ltrim tl)
    have hstep2 := next_step2 (⟨some 5, GroupValue.str (ltrim hl)⟩ : IGroup) hdrop hp hv2
    rw [show parseIntJSAuto ("0") = some 0 from by decide] at hstep2
    have hlne : GroupValue.jsEq (GroupValue.str (ltrim hl)) (GroupValue.str ("EOF"))
        = false := by
      simp [GroupValue.jsEq, hne]
    refine ⟨{ s with
        pointer := s.pointer + 2 + 2
        eof := jcEq (some 0) 0
          && GroupValue.jsEq (GroupValue.str (ltrim tl)) (GroupValue.str ("EOF"))
        lastReadGroup := some ⟨some 0, GroupValue.str (ltrim tl)⟩ }, ?_⟩
    rw [parseEndBlock_some hlast, hm,
      parseEndBlockLoop_unhandled hgeof hg0 hg5 hg67 hg8 hg330, except_bind_ok hstep1]
    simp only []
    rw [@parseEndBlockLoop_handle (m + 1) ({} : IEndBlock)
      ⟨some 5, GroupValue.str (ltrim hl)⟩ _ _ hlne rfl rfl, except_bind_ok hstep2]
    simp only []
    rw [@parseEndBlockLoop_stop m _ ⟨some 0, GroupValue.str (ltrim tl)⟩ _ _ (by simp [jcEq])]
    rfl
  · intro c v hc
    have hc' := hc
    simp only [hasDefinedType, Bool.or_eq_false_iff] at hc'
    obtain ⟨⟨⟨h1, h2⟩, h3⟩, h4⟩ := hc'
    constructor
    · unfold parseGroupValue
      rw [h1, h2, h3, h4]
      rfl
    · unfold parseGroupValueWarnings
      rw [hc]
      rfl


  · intro acadColor entity sc c2 v2 hc2
    simp only [List.mem_cons, List.not_mem_nil, or_false, not_or] at hc2
    obtain ⟨e0, e5, e6, e8, e48, e60, e66, e67, e330, e347, e370, e420, e62, e101⟩ := hc2
    unfold checkCommonEntityProperties
    simp only [show jcEq (some c2) 0 = false from decide_eq_false e0,
      show jcEq (some c2) 5 = false from decide_eq_false e5,
      show jcEq (some c2) 6 = false from decide_eq_false e6,
      show jcEq (some c2) 8 = false from decide_eq_false e8,
      show jcEq (some c2) 48 = false from decide_eq_false e48,
      show jcEq (some c2) 60 = false from decide_eq_false e60,
      show jcEq (some c2) 66 = false from decide_eq_false e66,
      show jcEq (some c2) 67 = false from decide_eq_false e67,
      show jcEq (some c2) 330 = false from decide_eq_false e330,
      show jcEq (some c2) 347 = false from decide_eq_false e347,
      show jcEq (some c2) 370 = false from decide_eq_false e370,
      show jcEq (some c2) 420 = false from decide_eq_false e420,
      show jcEq (some c2) 62 = false from decide_eq_false e62,
      show jcEq (some c2) 101 = false from decide_eq_false e101,
      Bool.false_eq_true, if_false]


/-- Witness for C5: the unhandled group (1, hi) before a (5, FF) handle group
and a code-0 terminator. -/
theorem c5_unknown_code_tolerance_witness :
    (∃ s', parseEndBlock ⟨[("5"), ("FF"), ("0"), ("x")], 0, false,
        some ⟨some 1, GroupValue.str ("hi")⟩⟩
      = .ok (some ⟨some (GroupValue.str (ltrim ("FF"))), none, none, none⟩, s',
          [logUnhandledGroup ⟨some 1, GroupValue.str ("hi")⟩])) ∧
    (∀ (c : ℤ) (v : String), hasDefinedType (some c) = false →
      parseGroupValue (some c) v = .ok (.str v) ∧
      parseGroupValueWarnings (some c) v
        = [("WARNING: Group code does not have a defined type: code: ") ++ intToDec c
          ++ (", value: ") ++ v]) ∧
    (∀ (acadColor : JsNum → Option GroupValue) (entity : ILwpolylineEntity)
      (sc : DxfArrayScanner) (c2 : ℤ) (v2 : GroupValue),
      c2 ∉ ([0, 5, 6, 8, 48, 60, 66, 67, 330, 347, 370, 420, 62, 101] : List ℤ) →
      checkCommonEntityProperties acadColor entity ⟨some c2, v2⟩ sc
        = .ok (entity, sc)) :=
  c5_unknown_code_tolerance
    ⟨[("5"), ("FF"), ("0"), ("x")], 0, false, some ⟨some 1, GroupValue.str ("hi")⟩⟩
    ⟨some 1, GroupValue.str ("hi")⟩ rfl (by decide) rfl (by decide) (by decide) (by decide)
    (by decide) (by decide) (by decide) ("FF") ("x") [] (by decide) rfl




/-- Counterexample to universal unhandled-group logging.  The same unknown
group (999, v) goes through two record-level handlers of the source with
different logging behaviour: `checkCommonEntityProperties` — the common-code
handler every entity parser calls — consumes it silently (the entity record
and the scanner come back unchanged, and the function body contains no
logging statement), while `parseEndBlock`'s default case routes it through
`logUnhandledGroup`, producing the debug line.  The original claim's "the
group is logged as unhandled" therefore does not hold for every record-level
parser. -/
theorem c5_unknown_code_counterexample :
    checkCommonEntityProperties (fun _ => none) ({} : ILwpolylineEntity)
        ⟨some 999, GroupValue.str ("v")⟩ ⟨[("0"), ("x")], 0, false, none⟩
      = .ok (({} : ILwpolylineEntity), ⟨[("0"), ("x")], 0, false, none⟩) ∧
    parseEndBlock ⟨[("0"), ("x")], 0, false, some ⟨some 999, GroupValue.str ("v")⟩⟩
      = .ok (none, ⟨[("0"), ("x")], 2, false, some ⟨some 0, GroupValue.str ("x")⟩⟩,
          [("unhandled group 999:v")]) :=
  ⟨rfl, rfl⟩


/-- The result of the inner while loop of source `parseLWPolylineVertices`:
either the default case returned the vertex list early (after two rewinds,
pushing the current vertex only if started), or the loop ended on EOF, code 0
or a finished vertex, handing the current vertex and group back to the
enclosing for loop. -/
inductive LwWhileResult where
  | earlyReturn (push : Option IVertex) (scanner : DxfArrayScanner)
  | ended (vertex : IVertex) (curr : IGroup) (scanner : DxfArrayScanner)
deriving Repr, DecidableEq

/-- The inner while loop of source `parseLWPolylineVertices`.  The `case 10`
on a started vertex sets the finished flag and `continue`s without reading;
every other known case assigns a field and reads the next group; an unknown
code rewinds twice and returns early. -/
def lwVertexWhile :
    ℕ → IVertex → Bool → Bool → IGroup → DxfArrayScanner → Except String LwWhileResult
  | 0, _, _, _, _, _ => .error ("model: out of fuel")
  | fuel + 1, vertex, started, finished, curr, scanner =>
    if scanner.isEOF then .ok (.ended vertex curr scanner)
    else if jcEq curr.code 0 || finished then .ok (.ended vertex curr scanner)
    else if jcEq curr.code 10 then
      if started then lwVertexWhile fuel vertex started true curr scanner
      else do
        let (c, sc) ← scanner.next
        lwVertexWhile fuel { vertex with x := some (asNum curr.value) } true finished c sc
    else if jcEq curr.code 20 then do
      let (c, sc) ← scanner.next
      lwVertexWhile fuel { vertex with y := some (asNum curr.value) } started finished c sc
    else if jcEq curr.code 30 then do
      let (c, sc) ← scanner.next
      lwVertexWhile fuel { vertex with z := some (asNum curr.value) } started finished c sc
    else if jcEq curr.code 40 then do
      let (c, sc) ← scanner.next
      lwVertexWhile fuel { vertex with startWidth := some (asNum curr.value) } started finished
        c sc
    else if jcEq curr.code 41 then do
      let (c, sc) ← scanner.next
      lwVertexWhile fuel { vertex with endWidth := some (asNum curr.value) } started finished
        c sc
    else if jcEq curr.code 42 then do
      let vertex := if jsLooseNeZero curr.value then
        { vertex with bulge := some (asNum curr.value) } else vertex
      let (c, sc) ← scanner.next
      lwVertexWhile fuel vertex started finished c sc
    else
      .ok (.earlyReturn (if started then some vertex else none) scanner.rewind.rewind)

/-- The for loop of source `parseLWPolylineVertices`: run the while loop for
each vertex index; push the vertex and reset the flags after a normal loop
end, return directly after the default case, rewind once after the last
index. -/
def lwVerticesFor :
    ℕ → List IVertex → IGroup → DxfArrayScanner →
      Except String (List IVertex × DxfArrayScanner)
  | 0, vertices, _, scanner => .ok (vertices, scanner.rewind)
  | k + 1, vertices, curr, scanner => do
    let r ← lwVertexWhile (scanner.data.length + 2) {} false false curr scanner
    match r with
    | .earlyReturn push scanner =>
      .ok (vertices ++ (match push with | some v => [v] | none => []), scanner)
    | .ended vertex curr scanner => lwVerticesFor k (vertices ++ [vertex]) curr scanner

/-- Truncation-toward-zero ceiling, the number of iterations of
`for (let i = 0; i < n; i++)` for a positive JS bound `n`. -/
def ratCeil (q : ℚ) : ℤ := -(Int.ediv (-q.num) (q.den : ℤ))

/-- How many times the source for loop body runs: `⌈n⌉` clamped at 0 (`NaN`
never enters the loop). -/
def jsIterCount (n : JsNum) : ℕ :=
  match n with
  | none => 0
  | some q => (ratCeil q).toNat

/-- Source `parseLWPolylineVertices`: the guard `if (!n || n <= 0) throw
Error('n must be greater than 0 verticies')` (`!n` also catches `NaN`), then
the vertex for loop from the last-read group. -/
def parseLWPolylineVertices (n : JsNum) (scanner : DxfArrayScanner) :
    Except String (List IVertex × DxfArrayScanner) :=
  if (match n with | none => true | some q => decide (q ≤ 0)) then
    .error ("n must be greater than 0 verticies")
  else
    match scanner.lastReadGroup with
    | none => .error ("model: parseLWPolylineVertices requires a lastReadGroup (JS TypeError)")
    | some curr => lwVerticesFor (jsIterCount n) [] curr scanner

/-- The while loop of source `Lwpolyline.parseEntity`: property table (38,
39, 210, 220, 230; code 70 is deleted from the table by the source), special
cases 70 (flags), 90 (vertex count), 10 (vertices via
`parseLWPolylineVertices` with the count seen so far), 43 (width), and the
common-property fallback. -/
def lwParseEntityLoop (acadColor : JsNum → Option GroupValue) :
    ℕ → ILwpolylineEntity → JsNum → IGroup → DxfArrayScanner →
      Except String (ILwpolylineEntity × DxfArrayScanner)
  | 0, _, _, _, _ => .error ("model: out of fuel")
  | fuel + 1, entity, nVerts, curr, scanner =>
    if scanner.isEOF then .ok (entity, scanner)
    else if jcEq curr.code 0 then .ok (entity, scanner)
    else do
      let (entity, nVerts, scanner) ←
        if jcEq curr.code 38 then
          .ok ({ entity with elevation := some curr.value }, nVerts, scanner)
        else if jcEq curr.code 39 then
          .ok ({ entity with depth := some curr.value }, nVerts, scanner)
        else if jcEq curr.code 210 then
          .ok ({ entity with extrusionDirectionX := some curr.value }, nVerts, scanner)
        else if jcEq curr.code 220 then
          .ok ({ entity with extrusionDirectionY := some curr.value }, nVerts, scanner)
        else if jcEq curr.code 230 then
          .ok ({ entity with extrusionDirectionZ := some curr.value }, nVerts, scanner)
        else if jcEq curr.code 70 then
          .ok ({ entity with
                  standardFlags := some curr.value
                  shape := some (jsBit1 (asNum curr.value))
                  hasContinuousLinetypePattern := some (jsBit128 (asNum curr.value)) },
            nVerts, scanner)
        else if jcEq curr.code 90 then
          .ok ({ entity with expectedVerticesCount := some (asNum curr.value) },
            asNum curr.value, scanner)
        else if jcEq curr.code 10 then do
          let (vs, scanner) ← parseLWPolylineVertices nVerts scanner
          .ok ({ entity with vertices := some vs }, nVerts, scanner)
        else if jcEq curr.code 43 then
          .ok ({ entity with width := some curr.value }, nVerts, scanner)
        else do
          let (entity, scanner) ← checkCommonEntityProperties acadColor entity curr scanner
          .ok (entity, nVerts, scanner)
      let (curr, scanner) ← scanner.next
      lwParseEntityLoop acadColor fuel entity nVerts curr scanner

/-- Source `Lwpolyline.parseEntity`: a fresh LWPOLYLINE entity, a vertex
count starting at the JS number 0, a first read, then the loop. -/
def Lwpolyline.parseEntity (acadColor : JsNum → Option GroupValue)
    (scanner : DxfArrayScanner) : Except String (ILwpolylineEntity × DxfArrayScanner) := do
  let (curr, sc) ← scanner.next
  lwParseEntityLoop acadColor (scanner.data.length + 1) {} (some 0) curr sc


/-- Reduction of a monadic bind against a proven error result. -/
theorem except_bind_err {A B : Type} {x : Except String A} {e : String}
    (h : x = .error e) (f : A → Except String B) : (x >>= f) = .error e := by
  rw [h]
  rfl

/-- The vertex for loop returns at most one vertex per remaining iteration:
the early return adds at most the current vertex, a normal loop end adds
exactly one. -/
theorem lwVerticesFor_length :
    ∀ (k : ℕ) (acc : List IVertex) (curr : IGroup) (sc : DxfArrayScanner)
      {l : List IVertex} {s' : DxfArrayScanner},
      lwVerticesFor k acc curr sc = .ok (l, s') → l.length ≤ acc.length + k := by
  intro k
  induction k with
  | zero =>
    intro acc curr sc l s' h
    simp only [lwVerticesFor, Except.ok.injEq, Prod.mk.injEq] at h
    rw [← h.1]
    omega
  | succ k ih =>
    intro acc curr sc l s' h
    simp only [lwVerticesFor] at h
    rcases hw : lwVertexWhile (sc.data.length + 2) {} false false curr sc with e | r
    · rw [except_bind_err hw] at h
      cases h
    · rw [except_bind_ok hw] at h
      cases r with
      | earlyReturn push sc2 =>
        simp only [Except.ok.injEq, Prod.mk.injEq] at h
        obtain ⟨hl, _⟩ := h
        rw [← hl]
        cases push <;> simp <;> omega
      | ended v c2 sc2 =>
        have := ih (acc ++ [v]) c2 sc2 h
        simp only [List.length_append, List.length_cons, List.length_nil] at this
        omega

/-- A positive integer bound passes the guard of `parseLWPolylineVertices`
and caps the number of vertices returned. -/
theorem parseLWPolylineVertices_length {k : ℕ} (hk : 0 < k)
    {t : DxfArrayScanner} {l : List IVertex} {t' : DxfArrayScanner}
    (hok : parseLWPolylineVertices (some ((k : ℕ) : ℚ)) t = .ok (l, t')) :
    l.length ≤ k := by
  have hq : ¬(((k : ℕ) : ℚ) ≤ 0) := by
    rw [not_le]
    exact_mod_cast hk
  unfold parseLWPolylineVertices at hok
  simp only [show decide (((k : ℕ) : ℚ) ≤ 0) = false from decide_eq_false hq,
    Bool.false_eq_true, if_false] at hok
  rcases hg : t.lastReadGroup with _ | g
  · rw [hg] at hok
    cases hok
  · rw [hg] at hok
    have hiter : jsIterCount (some ((k : ℕ) : ℚ)) = k := by
      simp only [jsIterCount, ratCeil, Rat.num_natCast, Rat.den_natCast, Nat.cast_one]
      rw [show (-((k : ℕ) : ℤ)).ediv 1 = -((k : ℕ) : ℤ) from Int.ediv_one _, neg_neg,
        Int.toNat_natCast]
    rw [hiter] at hok
    have := lwVerticesFor_length k [] g t hok
    simpa using this


/-- **C10.**  LWPOLYLINE vertex-count guard.  (1) If the first vertex group
(code 10) arrives while the recorded count is still the initial 0 — no
positive code-90 group seen — `Lwpolyline.parseEntity` fails hard with the
error `n must be greater than 0 verticies` (the error propagates out, it is
not a logged warning).  (2) When a positive integer count k passed the
guard, `parseLWPolylineVertices` returns at most k vertices whenever it
returns at all.  (3) With a positive count seen first (90 then the vertex
groups), the parse returns without throwing: a concrete run with count 2 and
one explicit vertex group run yields an entity whose vertex list has the
expected shape.  `acadColor` stands for the palette of the repository file
`AutoCadColorIndex` that is not part of the sources; no theorem depends on
its values. -/
theorem c10_lwpolyline_vertex_count_guard
    (acadColor : JsNum → Option GroupValue)
    (s : DxfArrayScanner) (xl : String) (rest : List String)
    (hp : 0 ≤ s.pointer) (heof : s.eof = false)
    (hdrop : s.data.drop s.pointer.toNat = ("10") :: xl :: rest)
    (k : ℕ) (hk : 0 < k) (t : DxfArrayScanner) (l : List IVertex) (t' : DxfArrayScanner)
    (hok : parseLWPolylineVertices (some ((k : ℕ) : ℚ)) t = .ok (l, t')) :
    Lwpolyline.parseEntity acadColor s = .error ("n must be greater than 0 verticies") ∧
    l.length ≤ k ∧
    (∃ e u, Lwpolyline.parseEntity acadColor
        ⟨[("90"), ("2"), ("10"), ("x"), ("20"), ("x"), ("0"), ("t")], 0, false, none⟩
      = .ok (e, u) ∧
      e.expectedVerticesCount = some (some 2) ∧
      e.vertices = some [⟨some none, some none, none, none, none, none⟩,
        ⟨none, none, none, none, none, none⟩]) := by
  refine ⟨?_, parseLWPolylineVertices_length hk hok, ?_⟩
  · have hv : parseGroupValue (parseIntJSAuto ("10")) (ltrim xl)
        = .ok (.num (parseFloatJS (ltrim xl))) := by
      rw [show parseIntJSAuto ("10") = some 10 from by decide]
      exact parseGroupValue_float (by decide) (ltrim xl)
    have hstep := next_step hdrop hp heof hv
    rw [show parseIntJSAuto ("10") = some 10 from by decide] at hstep
    have e1 : (jcEq (some 10) 0
        && GroupValue.jsEq (GroupValue.num (parseFloatJS (ltrim xl)))
          (GroupValue.str ("EOF"))) = false := by
      rw [show jcEq (some 10) 0 = false from rfl]
      rfl
    rw [e1] at hstep
    unfold Lwpolyline.parseEntity
    rw [except_bind_ok hstep]
    rfl
  · exact ⟨_, _, rfl, rfl, rfl⟩


/-- Witness for C10: an immediate vertex group with the count still 0 (hard
failure), and a successful bounded run with count 1 and one vertex. -/
theorem c10_lwpolyline_vertex_count_guard_witness :
    Lwpolyline.parseEntity (fun _ => none) ⟨[("10"), ("x")], 0, false, none⟩
      = .error ("n must be greater than 0 verticies") ∧
    ([(⟨some none, none, none, none, none, none⟩ : IVertex)]).length ≤ 1 ∧
    (∃ e u, Lwpolyline.parseEntity (fun _ => none)
        ⟨[("90"), ("2"), ("10"), ("x"), ("20"), ("x"), ("0"), ("t")], 0, false, none⟩
      = .ok (e, u) ∧
      e.expectedVerticesCount = some (some 2) ∧
      e.vertices = some [⟨some none, some none, none, none, none, none⟩,
        ⟨none, none, none, none, none, none⟩]) :=
  c10_lwpolyline_vertex_count_guard (fun _ => none)
    ⟨[("10"), ("x")], 0, false, none⟩ ("x") [] (by decide) rfl rfl
    1 (by decide)
    ⟨[("0"), ("t")], 0, false, some ⟨some 10, GroupValue.num none⟩⟩
    [⟨some none, none, none, none, none, none⟩]
    ⟨[("0"), ("t")], 0, false, some ⟨some 0, GroupValue.str ("t")⟩⟩
    rfl


/-! ## The header section and the parse/serialize pipeline

The two julian-date conversions of `header.ts` (`julianDateToIso8601`,
`iso8601ToJulianDate`) go through the JS `Date` object and IEEE-754
arithmetic, outside this rational model; they enter as parameters
(`julianToIso`, `isoToJulian`), and no theorem below touches a date
variable.  The BLOCKS, ENTITIES, TABLES and CLASSES section parsers and
serializers are beyond the embedded fragment: `parseAll` fails on those
section names with a model error, the `IDxf` model carries their presence
as `Option Unit`, and every theorem below concerns documents without
them. -/

/-- Source `codeByName` (`header.ts`): the header-variable group codes. -/
def codeByName : List (String × ℤ) := [
  (("$ACADMAINTVER"), 70),
  (("$ACADVER"), 1),
  (("$ANGBASE"), 50),
  (("$ANGDIR"), 70),
  (("$ATTMODE"), 70),
  (("$AUNITS"), 70),
  (("$AUPREC"), 70),
  (("$CECOLOR"), 62),
  (("$CELTSCALE"), 40),
  (("$CELTYPE"), 6),
  (("$CELWEIGHT"), 370),
  (("$CEPSNID"), 390),
  (("$CEPSNTYPE"), 380),
  (("$CHAMFERA"), 40),
  (("$CHAMFERB"), 40),
  (("$CHAMFERC"), 40),
  (("$CHAMFERD"), 40),
  (("$CLAYER"), 8),
  (("$CMLJUST"), 70),
  (("$CMLSCALE"), 40),
  (("$CMLSTYLE"), 2),
  (("$CSHADOW"), 280),
  (("$DIMADEC"), 70),
  (("$DIMALT"), 70),
  (("$DIMALTD"), 70),
  (("$DIMALTF"), 40),
  (("$DIMALTRND"), 40),
  (("$DIMALTTD"), 70),
  (("$DIMALTTZ"), 70),
  (("$DIMALTU"), 70),
  (("$DIMALTZ"), 70),
  (("$DIMAPOST"), 1),
  (("$DIMASO"), 70),
  (("$DIMASSOC"), 280),
  (("$DIMASZ"), 40),
  (("$DIMATFIT"), 70),
  (("$DIMAUNIT"), 70),
  (("$DIMAZIN"), 70),
  (("$DIMBLK"), 1),
  (("$DIMBLK1"), 1),
  (("$DIMBLK2"), 1),
  (("$DIMCEN"), 40),
  (("$DIMCLRD"), 70),
  (("$DIMCLRE"), 70),
  (("$DIMCLRT"), 70),
  (("$DIMDEC"), 70),
  (("$DIMDLE"), 40),
  (("$DIMDLI"), 40),
  (("$DIMDSEP"), 70),
  (("$DIMEXE"), 40),
  (("$DIMEXO"), 40),
  (("$DIMFAC"), 40),
  (("$DIMGAP"), 40),
  (("$DIMJUST"), 70),
  (("$DIMLDRBLK"), 1),
  (("$DIMLFAC"), 40),
  (("$DIMLIM"), 70),
  (("$DIMLUNIT"), 70),
  (("$DIMLWD"), 70),
  (("$DIMLWE"), 70),
  (("$DIMPOST"), 1),
  (("$DIMRND"), 40),
  (("$DIMSAH"), 70),
  (("$DIMSCALE"), 40),
  (("$DIMSD1"), 70),
  (("$DIMSD2"), 70),
  (("$DIMSE1"), 70),
  (("$DIMSE2"), 70),
  (("$DIMSHO"), 70),
  (("$DIMSOXD"), 70),
  (("$DIMSTYLE"), 2),
  (("$DIMTAD"), 70),
  (("$DIMTDEC"), 70),
  (("$DIMTFAC"), 40),
  (("$DIMTIH"), 70),
  (("$DIMTIX"), 70),
  (("$DIMTM"), 40),
  (("$DIMTMOVE"), 70),
  (("$DIMTOFL"), 70),
  (("$DIMTOH"), 70),
  (("$DIMTOL"), 70),
  (("$DIMTOLJ"), 70),
  (("$DIMTP"), 40),
  (("$DIMTSZ"), 40),
  (("$DIMTVP"), 40),
  (("$DIMTXSTY"), 7),
  (("$DIMTXT"), 40),
  (("$DIMTZIN"), 70),
  (("$DIMUPT"), 70),
  (("$DIMZIN"), 70),
  (("$DISPSILH"), 70),
  (("$DRAGVS"), 349),
  (("$DWGCODEPAGE"), 3),
  (("$ELEVATION"), 40),
  (("$ENDCAPS"), 280),
  (("$EXTNAMES"), 290),
  (("$FILLETRAD"), 40),
  (("$FILLMODE"), 70),
  (("$FINGERPRINTGUID"), 2),
  (("$HALOGAP"), 280),
  (("$HANDSEED"), 5),
  (("$HIDETEXT"), 290),
  (("$HYPERLINKBASE"), 1),
  (("$INDEXCTL"), 280),
  (("$INSUNITS"), 70),
  (("$INTERFERECOLOR"), 62),
  (("$INTERFEREOBJVS"), 345),
  (("$INTERFEREVPVS"), 346),
  (("$INTERSECTIONDISPLAY"), 290),
  (("$JOINSTYLE"), 280),
  (("$LIMCHECK"), 70),
  (("$LTSCALE"), 40),
  (("$LUNITS"), 70),
  (("$LUPREC"), 70),
  (("$LWDISPLAY"), 290),
  (("$MAXACTVP"), 70),
  (("$MEASUREMENT"), 70),
  (("$MENU"), 1),
  (("$MIRRTEXT"), 70),
  (("$OBSCOLOR"), 70),
  (("$OBSLTYPE"), 280),
  (("$ORTHOMODE"), 70),
  (("$PDMODE"), 70),
  (("$PDSIZE"), 40),
  (("$PELEVATION"), 40),
  (("$PLIMCHECK"), 70),
  (("$PLINEGEN"), 70),
  (("$PLINEWID"), 40),
  (("$PROJECTNAME"), 1),
  (("$PROXYGRAPHICS"), 70),
  (("$PSLTSCALE"), 70),
  (("$PSTYLEMODE"), 290),
  (("$PSVPSCALE"), 40),
  (("$PUCSBASE"), 2),
  (("$PUCSNAME"), 2),
  (("$PUCSORTHOREF"), 2),
  (("$PUCSORTHOVIEW"), 70),
  (("$QTEXTMODE"), 70),
  (("$REGENMODE"), 70),
  (("$SHADEDGE"), 70),
  (("$SHADEDIF"), 70),
  (("$SHADOWPLANELOCATION"), 40),
  (("$SKETCHINC"), 40),
  (("$SKPOLY"), 70),
  (("$SORTENTS"), 280),
  (("$SPLINESEGS"), 70),
  (("$SPLINETYPE"), 70),
  (("$SURFTAB1"), 70),
  (("$SURFTAB2"), 70),
  (("$SURFTYPE"), 70),
  (("$SURFU"), 70),
  (("$SURFV"), 70),
  (("$TDCREATE"), 40),
  (("$TDINDWG"), 40),
  (("$TDUCREATE"), 40),
  (("$TDUPDATE"), 40),
  (("$TDUSRTIMER"), 40),
  (("$TDUUPDATE"), 40),
  (("$TEXTSIZE"), 40),
  (("$TEXTSTYLE"), 7),
  (("$THICKNESS"), 40),
  (("$TILEMODE"), 70),
  (("$TRACEWID"), 40),
  (("$TREEDEPTH"), 70),
  (("$UCSBASE"), 2),
  (("$UCSNAME"), 2),
  (("$UCSORTHOREF"), 2),
  (("$UCSORTHOVIEW"), 70),
  (("$UNITMODE"), 70),
  (("$USERI1"), 70),
  (("$USERI2"), 70),
  (("$USERI3"), 70),
  (("$USERI4"), 70),
  (("$USERI5"), 70),
  (("$USERR1"), 40),
  (("$USERR2"), 40),
  (("$USERR3"), 40),
  (("$USERR4"), 40),
  (("$USERR5"), 40),
  (("$USRTIMER"), 70),
  (("$VERSIONGUID"), 2),
  (("$VISRETAIN"), 70),
  (("$WORLDVIEW"), 70),
  (("$XCLIPFRAME"), 290),
  (("$XEDIT"), 290),
  (("$FASTZOOM"), 70),
  (("$GRIDMODE"), 70),
  (("$SNAPANG"), 50),
  (("$SNAPISOPAIR"), 70),
  (("$SNAPMODE"), 70),
  (("$SNAPSTYLE"), 70),
  (("$VIEWSIZE"), 40),
  (("$REQUIREDVERSIONS"), 160),
  (("$LASTSAVEDBY"), 1),
  (("$DIMFRAC"), 70),
  (("$DIMFXL"), 40),
  (("$DIMFXLON"), 70),
  (("$DIMJOGANG"), 40),
  (("$DIMTFILL"), 70),
  (("$DIMTFILLCLR"), 70),
  (("$DIMARCSYM"), 70),
  (("$DIMLTYPE"), 6),
  (("$DIMLTEX1"), 6),
  (("$DIMLTEX2"), 6),
  (("$DIMTXTDIRECTION"), 70),
  (("$SPLFRAME"), 70),
  (("$STYLESHEET"), 1),
  (("$OLESTARTUP"), 290),
  (("$INTERSECTIONCOLOR"), 70),
  (("$CAMERADISPLAY"), 290),
  (("$LENSLENGTH"), 40),
  (("$CAMERAHEIGHT"), 40),
  (("$STEPSPERSEC"), 40),
  (("$STEPSIZE"), 40),
  (("$3DDWFPREC"), 40),
  (("$PSOLWIDTH"), 40),
  (("$PSOLHEIGHT"), 40),
  (("$LOFTANG1"), 40),
  (("$LOFTANG2"), 40),
  (("$LOFTMAG1"), 40),
  (("$LOFTMAG2"), 40),
  (("$LOFTPARAM"), 70),
  (("$LOFTNORMALS"), 280),
  (("$LATITUDE"), 40),
  (("$LONGITUDE"), 40),
  (("$NORTHDIRECTION"), 40),
  (("$TIMEZONE"), 70),
  (("$LIGHTGLYPHDISPLAY"), 280),
  (("$TILEMODELIGHTSYNCH"), 280),
  (("$CMATERIAL"), 347),
  (("$SOLIDHIST"), 280),
  (("$SHOWHIST"), 280),
  (("$DWFFRAME"), 280),
  (("$DGNFRAME"), 280),
  (("$REALWORLDSCALE"), 290)
]

/-- Source `pointNames` (`header.ts`): the header variables holding points
(the source lists `$UCSORGRIGHT` twice; the set keeps one). -/
def pointNames : List String := [
  ("$EXTMAX"),
  ("$EXTMIN"),
  ("$INSBASE"),
  ("$LIMMAX"),
  ("$LIMMIN"),
  ("$PEXTMAX"),
  ("$PEXTMIN"),
  ("$PINSBASE"),
  ("$PLIMMAX"),
  ("$PLIMMIN"),
  ("$PUCSORG"),
  ("$PUCSORGBACK"),
  ("$PUCSORGBOTTOM"),
  ("$PUCSORGFRONT"),
  ("$PUCSORGLEFT"),
  ("$PUCSORGRIGHT"),
  ("$PUCSORGTOP"),
  ("$PUCSXDIR"),
  ("$PUCSYDIR"),
  ("$UCSORG"),
  ("$UCSORGBACK"),
  ("$UCSORGTOP"),
  ("$UCSORGBOTTOM"),
  ("$UCSORGFRONT"),
  ("$UCSORGLEFT"),
  ("$UCSORGRIGHT"),
  ("$UCSXDIR"),
  ("$UCSYDIR"),
  ("$GRIDUNIT"),
  ("$SNAPBASE"),
  ("$SNAPUNIT"),
  ("$VIEWCTR"),
  ("$VIEWDIR")
]

/-- Source `dateNames` (`header.ts`). -/
def dateNames : List String :=
  [("$TDCREATE"), ("$TDUCREATE"), ("$TDUPDATE"), ("$TDUUPDATE")]

/-- A header point under construction: code 10 creates `{x}`, codes 20 and
30 add `y` and `z` (absent fields are JS `undefined`). -/
structure HeaderPoint where
  x : JsNum
  y : Option JsNum := none
  z : Option JsNum := none
deriving Repr, DecidableEq

/-- A header variable value: a group value or a point. -/
inductive HeaderValue where
  | val (v : GroupValue)
  | point (p : HeaderPoint)
deriving Repr, DecidableEq

/-- The header record: a JS object, an insertion-ordered association list;
an entry holds JS `null` (`none`) when a name was flushed with no value. -/
abbrev Header : Type := List (String × Option HeaderValue)

/-- JS object assignment `h[k] = v`: overwrite in place, or append. -/
def jsObjSet : Header → String → Option HeaderValue → Header
  | [], k, v => [(k, v)]
  | (k0, v0) :: rest, k, v =>
    if k0 = k then (k0, v) :: rest else (k0, v0) :: jsObjSet rest k v

/-- The flush `if (currVarName) header[currVarName] = currVarValue` of
source `parseHeader` (a JS string is truthy when nonempty). -/
def flushPend (h : Header) (pname : Option String) (pval : Option HeaderValue) : Header :=
  if (pname.getD ("")) ≠ ("") then jsObjSet h (pname.getD ("")) pval else h

/-- Source `groupIs` (`ParseHelpers.ts`): strict equality on code and value. -/
def groupIs (g : IGroup) (code : ℤ) (value : GroupValue) : Bool :=
  jcEq g.code code && GroupValue.jsEq g.value value

/-- The while loop of source `parseHeader`: stop on (0, ENDSEC) flushing the
pending variable; code 9 flushes and starts a new variable; codes 10/20/30
build a point (the y/z assignments throw a TypeError when the current value
is not an object); anything else stores the value, converting it through
`julianDateToIso8601` for the date variables. -/
def parseHeaderLoop (julianToIso : JsNum → String) :
    ℕ → Option String → Option HeaderValue → Header → IGroup → DxfArrayScanner →
      Except String (Header × DxfArrayScanner)
  | 0, _, _, _, _, _ => .error ("model: out of fuel")
  | fuel + 1, pname, pval, header, curr, scanner =>
    if groupIs curr 0 (.str ("ENDSEC")) then
      .ok (flushPend header pname pval, scanner)
    else do
      let (pname, pval, header) ←
        if jcEq curr.code 9 then
          .ok (some (jsValToString curr.value), pval, flushPend header pname pval)
        else if jcEq curr.code 10 then
          .ok (pname, some (.point ⟨asNum curr.value, none, none⟩), header)
        else if jcEq curr.code 20 then
          match pval with
          | some (.point p) =>
            .ok (pname, some (.point { p with y := some (asNum curr.value) }), header)
          | _ => .error ("model: TypeError assigning y to a non-object header value")
        else if jcEq curr.code 30 then
          match pval with
          | some (.point p) =>
            .ok (pname, some (.point { p with z := some (asNum curr.value) }), header)
          | _ => .error ("model: TypeError assigning z to a non-object header value")
        else
          .ok (pname,
            some (.val (if (match pname with
                | some n => dateNames.contains n
                | none => false) then
              .str (julianToIso (asNum curr.value))
            else curr.value)), header)
      let (curr, scanner) ← scanner.next
      parseHeaderLoop julianToIso fuel pname pval header curr scanner

/-- Source `parseHeader`: read the first group, run the loop, swallow the
group after ENDSEC. -/
def parseHeader (julianToIso : JsNum → String) (scanner : DxfArrayScanner) :
    Except String (Header × DxfArrayScanner) := do
  let (header, sc) ← (do
    let (curr, sc) ← scanner.next
    parseHeaderLoop julianToIso (scanner.data.length + 1) none none [] curr sc)
  let (_, sc) ← sc.next
  .ok (header, sc)

/-- Source `serializePoint` applied to a header point whose y or z may be
missing: a missing y renders as the JS text of `undefined`, a missing z is
omitted (`z != null` guard). -/
def serializeHeaderPoint (p : HeaderPoint) (code : ℤ) : List String :=
  [intToDec code, serializeFloat p.x, intToDec (code + 10),
    (match p.y with | some v => serializeFloat v | none => ("undefined"))]
  ++ (match p.z with | some v => [intToDec (code + 20), serializeFloat v] | none => [])

/-- `serializeGroupValue` at a JS `null` value: the runtime coercions of the
branches (template text, falsy boolean, `Math.round(null) = 0`). -/
def serializeGroupValueNull (code : ℤ) : List String :=
  intToDec code ::
  [if isStringCode (some code) then ("null")
   else if isFloatCode (some code) then ("null")
   else if isBoolCode (some code) then ("0")
   else if isIntCode (some code) then ("0")
   else ("null")]

/-- `serializeGroupValue` at an object (point) value: the runtime coercions
of the branches (`[object Object]` template text, truthy boolean,
`Math.round` of an object is `NaN`). -/
def serializeObjectValue (code : ℤ) : List String :=
  intToDec code ::
  [if isStringCode (some code) then ("[object Object]")
   else if isFloatCode (some code) then ("[object Object]")
   else if isBoolCode (some code) then ("1")
   else if isIntCode (some code) then ("NaN")
   else ("[object Object]")]

/-- One entry of source `serializeHeader`: point names with object values go
through `serializePoint`; otherwise only names listed in `codeByName` are
emitted, date variables converting back through `iso8601ToJulianDate`
(rendered by the template literal); unknown names emit nothing. -/
def serializeHeaderEntry (isoToJulian : String → JsNum) (name : String)
    (value : Option HeaderValue) : List String :=
  match value with
  | some (.point p) =>
    if pointNames.contains name then ("9") :: name :: serializeHeaderPoint p 10
    else
      match codeByName.lookup name with
      | some code => ("9") :: name :: serializeObjectValue code
      | none => []
  | some (.val v) =>
    match codeByName.lookup name with
    | some code =>
      ("9") :: name ::
      (if dateNames.contains name && (match v with | .str _ => true | _ => false) then
        [intToDec code, jsNumToString (isoToJulian (jsValToString v))]
      else serializeGroupValue code v)
    | none => []
  | none =>
    match codeByName.lookup name with
    | some code => ("9") :: name :: serializeGroupValueNull code
    | none => []

/-- Source `serializeHeader`: the section name, then every entry. -/
def serializeHeader (isoToJulian : String → JsNum) (header : Header) : List String :=
  ("2") :: ("HEADER") :: header.flatMap (fun e => serializeHeaderEntry isoToJulian e.1 e.2)

/-- The split `dxfString.split(/\r\n|\r|\n/g)` of `DxfParser._parse`,
fueled by the character count. -/
def splitNLAux : ℕ → List Char → List Char → List String
  | 0, _, acc => [String.mk acc.reverse]
  | _ + 1, [], acc => [String.mk acc.reverse]
  | fuel + 1, c :: cs, acc =>
    if c = '\r' then
      String.mk acc.reverse ::
        (match cs with
         | c2 :: cs2 => if c2 = '\n' then splitNLAux fuel cs2 [] else splitNLAux fuel cs []
         | [] => splitNLAux fuel [] [])
    else if c = '\n' then String.mk acc.reverse :: splitNLAux fuel cs []
    else splitNLAux fuel cs (c :: acc)

/-- Split a source string on CRLF, CR or LF. -/
def splitNewlines (s : String) : List String := splitNLAux (s.data.length + 1) s.data []

/-- The documents the embedded fragment can describe: the header section,
and bare presence markers for the sections beyond the fragment. -/
structure IDxf where
  header : Option Header := none
  blocks : Option Unit := none
  entities : Option Unit := none
  tables : Option Unit := none
  classes : Option Unit := none
deriving Repr, DecidableEq

/-- The while loop of source `parseAll`: on (0, SECTION) read the section
name (a non-code-2 group is reported and skipped); HEADER runs
`parseHeader` and resumes from the scanner's last-read group; the EOF and
unknown-section cases just resume; the four other named sections are beyond
the embedded fragment.  Any other group is skipped. -/
def parseAllLoop (julianToIso : JsNum → String) :
    ℕ → IDxf → IGroup → DxfArrayScanner → Except String (IDxf × DxfArrayScanner)
  | 0, _, _, _ => .error ("model: out of fuel")
  | fuel + 1, dxf, curr, scanner =>
    if scanner.isEOF then .ok (dxf, scanner)
    else if jcEq curr.code 0 && GroupValue.jsEq curr.value (.str ("SECTION")) then do
      let (curr, scanner) ← scanner.next
      if jcNeq curr.code (some 2) then do
        let (curr, scanner) ← scanner.next
        parseAllLoop julianToIso fuel dxf curr scanner
      else if GroupValue.jsEq curr.value (.str ("HEADER")) then do
        let (header, scanner) ← parseHeader julianToIso scanner
        match scanner.lastReadGroup with
        | some g => parseAllLoop julianToIso fuel { dxf with header := some header } g scanner
        | none =>
          if scanner.isEOF then .ok ({ dxf with header := some header }, scanner)
          else .error ("model: TypeError reading the code of undefined")
      else if GroupValue.jsEq curr.value (.str ("BLOCKS"))
          || GroupValue.jsEq curr.value (.str ("ENTITIES"))
          || GroupValue.jsEq curr.value (.str ("TABLES"))
          || GroupValue.jsEq curr.value (.str ("CLASSES")) then
        .error ("model: section parser beyond the embedded fragment")
      else
        match scanner.lastReadGroup with
        | some g => parseAllLoop julianToIso fuel dxf g scanner
        | none =>
          if scanner.isEOF then .ok (dxf, scanner)
          else .error ("model: TypeError reading the code of undefined")
    else do
      let (curr, scanner) ← scanner.next
      parseAllLoop julianToIso fuel dxf curr scanner

/-- Source `parseAll`: first read, then the loop. -/
def parseAll (julianToIso : JsNum → String) (scanner : DxfArrayScanner) :
    Except String (IDxf × DxfArrayScanner) := do
  let (curr, sc) ← scanner.next
  parseAllLoop julianToIso (scanner.data.length + 2) {} curr sc

/-- Source `DxfParser.parse` / `_parse`: split the text into lines, refuse an
empty file, run `parseAll`. -/
def DxfParser.parse (julianToIso : JsNum → String) (source : String) :
    Except String IDxf :=
  let dxfLinesArray := splitNewlines source
  let scanner : DxfArrayScanner := { data := dxfLinesArray }
  if scanner.hasNext = false then .error ("Empty file")
  else do
    let (dxf, _) ← parseAll julianToIso scanner
    .ok dxf

/-- Source `DxfParser.serialize`: each present section between
0 SECTION / 0 ENDSEC, then 0 EOF.  The source iterates the object keys in
insertion order; for the documents of the embedded fragment (at most the
header section) the orders agree.  Present sections beyond the fragment
render as a model marker; no theorem serializes such a document. -/
def DxfParser.serialize (isoToJulian : String → JsNum) (dxf : IDxf) : List String :=
  (match dxf.header with
   | some h =>
     ("0") :: ("SECTION") :: (serializeHeader isoToJulian h ++ [("0"), ("ENDSEC")])
   | none => []) ++
  (match dxf.entities with
   | some _ => [("model: section serializer beyond the embedded fragment")]
   | none => []) ++
  (match dxf.blocks with
   | some _ => [("model: section serializer beyond the embedded fragment")]
   | none => []) ++
  (match dxf.classes with
   | some _ => [("model: section serializer beyond the embedded fragment")]
   | none => []) ++
  (match dxf.tables with
   | some _ => [("model: section serializer beyond the embedded fragment")]
   | none => []) ++
  [("0"), ("EOF")]

/-- Source `addNewlines` folded into the string accumulation of
`serializeToString`: the first line, then a newline before every further
line; no trailing newline. -/
def joinNewlines : List String → String
  | [] => ("")
  | [l] => l
  | l :: l2 :: ls => l ++ ("\n") ++ joinNewlines (l2 :: ls)

/-- Source `DxfParser.serializeToString` over `addNewlines`: the serialized
lines joined by single newlines, no trailing newline. -/
def DxfParser.serializeToString (isoToJulian : String → JsNum) (dxf : IDxf) : String :=
  joinNewlines (DxfParser.serialize isoToJulian dxf)


/-- **C9.**  End-to-end scenario.  Parsing the exact ten-group input produces
a document whose header holds exactly `$ACADVER = "AC1014"` and which has no
entities, blocks, tables or classes sections (the `IDxf` literal carries
`none` for all four, so absent stays absent), and serializing that document
reproduces the input text exactly — in particular a group stream
semantically equivalent to the input.  The date conversions are irrelevant
here and the statement holds for every choice of them. -/
theorem c9_end_to_end (julianToIso : JsNum → String) (isoToJulian : String → JsNum) :
    DxfParser.parse julianToIso
        ("0\nSECTION\n2\nHEADER\n9\n$ACADVER\n1\nAC1014\n0\nENDSEC\n0\nEOF")
      = .ok { header := some [(("$ACADVER"), some (.val (.str ("AC1014"))))] } ∧
    DxfParser.serializeToString isoToJulian
        { header := some [(("$ACADVER"), some (.val (.str ("AC1014"))))] }
      = ("0\nSECTION\n2\nHEADER\n9\n$ACADVER\n1\nAC1014\n0\nENDSEC\n0\nEOF") :=
  ⟨rfl, rfl⟩


/-- One clean character is accumulated. -/
theorem splitNLAux_char (fuel : ℕ) (c : Char) (cs acc : List Char)
    (hr : c ≠ ('\r')) (hn : c ≠ ('\n')) :
    splitNLAux (fuel + 1) (c :: cs) acc = splitNLAux fuel cs (c :: acc) := by
  simp [splitNLAux, hr, hn]

/-- Skipping newline-free characters accumulates them. -/
theorem splitNLAux_skip (L : List Char)
    (hL : ∀ c ∈ L, c ≠ ('\r') ∧ c ≠ ('\n')) :
    ∀ (f : ℕ) (acc rest : List Char),
      splitNLAux (L.length + (f + 1)) (L ++ rest) acc
        = splitNLAux (f + 1) rest (L.reverse ++ acc) := by
  induction L with
  | nil =>
    intro f acc rest
    simp
  | cons c L ih =>
    intro f acc rest
    obtain ⟨hr, hn⟩ := hL c (by simp)
    rw [show (c :: L).length + (f + 1) = (L.length + (f + 1)) + 1 from by simp; omega]
    show splitNLAux ((L.length + (f + 1)) + 1) (c :: (L ++ rest)) acc = _
    rw [splitNLAux_char (L.length + (f + 1)) c (L ++ rest) acc hr hn]
    rw [ih (fun d hd => hL d (by simp [hd])) f (c :: acc) rest]
    simp

/-- A run of clean characters with exactly enough fuel yields one line. -/
theorem splitNLAux_all (L : List Char)
    (hL : ∀ c ∈ L, c ≠ ('\r') ∧ c ≠ ('\n')) :
    ∀ acc, splitNLAux (L.length + 1) L acc = [String.mk (acc.reverse ++ L)] := by
  induction L with
  | nil =>
    intro acc
    show [String.mk acc.reverse] = _
    simp
  | cons c L ih =>
    intro acc
    obtain ⟨hr, hn⟩ := hL c (by simp)
    rw [show (c :: L).length + 1 = (L.length + 1) + 1 from by simp]
    rw [splitNLAux_char (L.length + 1) c L acc hr hn]
    rw [ih (fun d hd => hL d (by simp [hd])) (c :: acc)]
    simp

/-- A newline splits. -/
theorem splitNLAux_newline (f : ℕ) (acc rest : List Char) :
    splitNLAux (f + 1) (('\n') :: rest) acc
      = String.mk acc.reverse :: splitNLAux f rest [] := by
  rfl

/-- Joining newline-free lines with single newlines and splitting again is
the identity. -/
theorem splitNewlines_joinNewlines :
    ∀ (lines : List String), lines ≠ [] →
      (∀ l ∈ lines, ∀ c ∈ l.data, c ≠ ('\r') ∧ c ≠ ('\n')) →
      splitNewlines (joinNewlines lines) = lines := by
  intro lines
  induction lines with
  | nil => intro h; exact absurd rfl h
  | cons l ls ih =>
    intro _ hclean
    cases ls with
    | nil =>
      show splitNLAux (l.data.length + 1) l.data [] = [l]
      rw [splitNLAux_all l.data (hclean l (by simp)) []]
      simp only [List.reverse_nil, List.nil_append]
    | cons l2 ls2 =>
      have hdata : (joinNewlines (l :: l2 :: ls2)).data
          = l.data ++ ('\n') :: (joinNewlines (l2 :: ls2)).data := by
        show (l ++ ("\n") ++ joinNewlines (l2 :: ls2)).data = _
        rw [String.data_append, String.data_append]
        simp
      show splitNLAux ((joinNewlines (l :: l2 :: ls2)).data.length + 1)
        (joinNewlines (l :: l2 :: ls2)).data [] = l :: l2 :: ls2
      rw [hdata]
      have hlen : (l.data ++ ('\n') :: (joinNewlines (l2 :: ls2)).data).length + 1
          = l.data.length + (((joinNewlines (l2 :: ls2)).data.length + 1) + 1) := by
        simp only [List.length_append, List.length_cons]
        omega
      rw [hlen, splitNLAux_skip l.data (hclean l (by simp))
        ((joinNewlines (l2 :: ls2)).data.length + 1) [] _]
      rw [splitNLAux_newline]
      have htail := ih (by simp) (fun x hx c hc => hclean x (by simp [hx]) c hc)
      rw [show splitNLAux ((joinNewlines (l2 :: ls2)).data.length + 1)
          (joinNewlines (l2 :: ls2)).data [] = splitNewlines (joinNewlines (l2 :: ls2))
        from rfl, htail]
      simp


/-- Monadic bind is associative. -/
theorem except_bind_assoc {A B C : Type} (x : Except String A)
    (f : A → Except String B) (g : B → Except String C) :
    ((x >>= f) >>= g) = (x >>= fun a => f a >>= g) := by
  cases x <;> rfl

/-- Assigning a fresh key appends. -/
theorem jsObjSet_fresh : ∀ (h : Header) (k : String) (v : Option HeaderValue),
    k ∉ h.map Prod.fst → jsObjSet h k v = h ++ [(k, v)] := by
  intro h
  induction h with
  | nil => intro k v _; rfl
  | cons e h ih =>
    intro k v hk
    simp only [List.map_cons, List.mem_cons, not_or] at hk
    show jsObjSet (e :: h) k v = _
    rw [show jsObjSet (e :: h) k v
        = (if e.1 = k then (e.1, v) :: h else e :: jsObjSet h k v) from rfl]
    rw [if_neg (fun hh => hk.1 hh.symm), ih k v hk.2]
    rfl

/-- On a string-range code, a string value serializes to its raw text. -/
theorem serializeGroupValue_string {c : ℤ} (hc : isStringCode (some c) = true) (v : String) :
    serializeGroupValue c (.str v) = [intToDec c, v] := by
  unfold serializeGroupValue
  rw [hc]
  rfl

/-- Loop step at a code-9 group: flush the pending variable, start the new
name, read on. -/
theorem parseHeaderLoop_name (jti : JsNum → String) (fuel : ℕ) (pname : Option String)
    (pval : Option HeaderValue) (h0 : Header) (gc : JsCode) (gv : GroupValue)
    (s : DxfArrayScanner) (h0g : jcEq gc 0 = false) (h9 : jcEq gc 9 = true) :
    parseHeaderLoop jti (fuel + 1) pname pval h0 ⟨gc, gv⟩ s
      = (do
          let (curr, sc) ← s.next
          parseHeaderLoop jti fuel (some (jsValToString gv)) pval
            (flushPend h0 pname pval) curr sc) := by
  have hstop : groupIs ⟨gc, gv⟩ 0 (.str ("ENDSEC")) = false := by
    unfold groupIs
    show (jcEq gc 0 && _) = false
    rw [h0g]
    rfl
  simp only [parseHeaderLoop, hstop, Bool.false_eq_true, if_false, h9, if_true]
  rfl

/-- Loop step at a plain value group under a non-date name: store the value,
read on. -/
theorem parseHeaderLoop_value (jti : JsNum → String) (fuel : ℕ) (n : String)
    (pval : Option HeaderValue) (h0 : Header) (gc : JsCode) (gv : GroupValue)
    (s : DxfArrayScanner) (h0g : jcEq gc 0 = false) (h9 : jcEq gc 9 = false)
    (h10 : jcEq gc 10 = false) (h20 : jcEq gc 20 = false) (h30 : jcEq gc 30 = false)
    (hdate : dateNames.contains n = false) :
    parseHeaderLoop jti (fuel + 1) (some n) pval h0 ⟨gc, gv⟩ s
      = (do
          let (curr, sc) ← s.next
          parseHeaderLoop jti fuel (some n) (some (.val gv)) h0 curr sc) := by
  have hstop : groupIs ⟨gc, gv⟩ 0 (.str ("ENDSEC")) = false := by
    unfold groupIs
    show (jcEq gc 0 && _) = false
    rw [h0g]
    rfl
  simp only [parseHeaderLoop, hstop, Bool.false_eq_true, if_false, h9, h10, h20, h30,
    hdate]
  rfl

/-- Loop stop at the (0, ENDSEC) group. -/
theorem parseHeaderLoop_stop2 (jti : JsNum → String) (fuel : ℕ) (pname : Option String)
    (pval : Option HeaderValue) (h0 : Header) (gc : JsCode) (gv : GroupValue)
    (s : DxfArrayScanner) (hstop : groupIs ⟨gc, gv⟩ 0 (.str ("ENDSEC")) = true) :
    parseHeaderLoop jti (fuel + 1) pname pval h0 ⟨gc, gv⟩ s
      = .ok (flushPend h0 pname pval, s) := by
  simp only [parseHeaderLoop, hstop, if_true]


/-- The decimal rendering of an integer contains no newline characters. -/
theorem intToDec_clean (i : ℤ) : ∀ ch ∈ (intToDec i).data, ch ≠ ('\r') ∧ ch ≠ ('\n') := by
  intro ch hch
  unfold intToDec natToDec at hch
  rw [String.data_append] at hch
  rcases List.mem_append.mp hch with h1 | h2
  · rcases lt_or_le i 0 with hlt | hge
    · rw [if_pos hlt, show (("-") : String).data = [('-')] from rfl] at h1
      have hc : ch = ('-') := by simpa using h1
      subst hc
      exact ⟨by decide, by decide⟩
    · rw [if_neg (not_lt.mpr hge),
        show (("") : String).data = ([] : List Char) from rfl] at h1
      exact absurd h1 (List.not_mem_nil ch)
  · rw [show (String.mk (natDigitChars i.natAbs)).data = natDigitChars i.natAbs
      from rfl] at h2
    have hd := natDigitChars_all_digit i.natAbs ch h2
    refine ⟨fun hEq => ?_, fun hEq => ?_⟩
    · rw [hEq] at hd
      exact absurd hd (by decide)
    · rw [hEq] at hd
      exact absurd hd (by decide)

/-- `parseAll` loop step at (0, SECTION) with the next group (2, HEADER):
run the header parser and continue from the scanner state it leaves, reading
the recorded last-read group. -/
theorem parseAllLoop_header (jti : JsNum → String) (fuel : ℕ) (dxf : IDxf)
    (s s2 : DxfArrayScanner) (hd : Header) (s3 : DxfArrayScanner) (g : IGroup)
    (heof : s.eof = false)
    (hnext : s.next = .ok (⟨some 2, GroupValue.str ("HEADER")⟩, s2))
    (hph : parseHeader jti s2 = .ok (hd, s3))
    (hlg : s3.lastReadGroup = some g) :
    parseAllLoop jti (fuel + 1) dxf ⟨some 0, GroupValue.str ("SECTION")⟩ s
      = parseAllLoop jti fuel { dxf with header := some hd } g s3 := by
  have he : DxfArrayScanner.isEOF s = false := heof
  simp only [parseAllLoop, he, Bool.false_eq_true, if_false]
  rw [if_pos (show (jcEq (some 0) 0 && GroupValue.jsEq (GroupValue.str ("SECTION"))
      (GroupValue.str ("SECTION"))) = true from rfl)]
  rw [except_bind_ok hnext]
  simp only []
  rw [if_neg (show ¬ jcNeq (some 2) (some 2) = true from by decide)]
  rw [if_pos (show GroupValue.jsEq (GroupValue.str ("HEADER"))
      (GroupValue.str ("HEADER")) = true from rfl)]
  rw [except_bind_ok hph]
  simp only []
  rw [hlg]

/-- `parseAll` loop stops as soon as the scanner's EOF flag is set. -/
theorem parseAllLoop_stop (jti : JsNum → String) (fuel : ℕ) (dxf : IDxf) (g : IGroup)
    (s : DxfArrayScanner) (heof : s.eof = true) :
    parseAllLoop jti (fuel + 1) dxf g s = .ok (dxf, s) := by
  have he : DxfArrayScanner.isEOF s = true := heof
  simp only [parseAllLoop, he]
  rfl


/-- Counterexample to the unrestricted C1 round trip.  The document whose
header holds the single variable `$FOO = "X"` is a valid document — the
first conjunct shows a parse producing it — yet serializing it drops the
entry (`codeByName` does not list `$FOO`), so re-parsing the serialized
text yields a present-but-empty header instead of the original document. -/
theorem c1_round_trip_counterexample :
    DxfParser.parse (fun _ => (""))
        ("0\nSECTION\n2\nHEADER\n9\n$FOO\n1\nX\n0\nENDSEC\n0\nEOF")
      = .ok { header := some [(("$FOO"), some (.val (.str ("X"))))] } ∧
    DxfParser.parse (fun _ => ("")) (DxfParser.serializeToString (fun _ => none)
        { header := some [(("$FOO"), some (.val (.str ("X"))))] })
      = .ok { header := some [] } ∧
    ({ header := some [] } : IDxf)
      ≠ { header := some [(("$FOO"), some (.val (.str ("X"))))] } :=
  ⟨rfl, rfl, by decide⟩

/-- A string whose first character is not whitespace is its own `ltrim`. -/
theorem ltrim_of_head {s : String} {c : Char} {cs : List Char}
    (hdata : s.data = c :: cs) (h : isJsSpace c = false) : ltrim s = s := by
  unfold ltrim
  rw [hdata, List.dropWhile_cons, h]
  simp only [Bool.false_eq_true, if_false]
  rw [← hdata]

/-- A string of sign, point and digit characters is its own `ltrim`. -/
theorem ltrim_of_chars {s : String}
    (h : ∀ ch ∈ s.data, ch = ('-') ∨ ch = ('.') ∨ ch.isDigit = true) :
    ltrim s = s := by
  cases hd : s.data with
  | nil =>
    unfold ltrim
    rw [hd]
    rw [show List.dropWhile isJsSpace ([] : List Char) = [] from rfl, ← hd]
  | cons c cs =>
    have hc := h c (by rw [hd]; exact List.mem_cons_self c cs)
    have hsp : isJsSpace c = false := by
      rcases hc with h1 | h1 | h1
      · rw [h1]
        decide
      · rw [h1]
        decide
      · exact isJsSpace_of_isDigit h1
    exact ltrim_of_head hd hsp

/-- Sign, point and digit characters are not newline characters. -/
theorem clean_of_chars {s : String}
    (h : ∀ ch ∈ s.data, ch = ('-') ∨ ch = ('.') ∨ ch.isDigit = true) :
    ∀ ch ∈ s.data, ch ≠ ('\r') ∧ ch ≠ ('\n') := by
  intro ch hch
  rcases h ch hch with h1 | h1 | h1
  · rw [h1]
    exact ⟨by decide, by decide⟩
  · rw [h1]
    exact ⟨by decide, by decide⟩
  · refine ⟨fun hE => ?_, fun hE => ?_⟩
    · rw [hE] at h1
      exact absurd h1 (by decide)
    · rw [hE] at h1
      exact absurd h1 (by decide)

/-- The decimal rendering of an integer consists of a sign and digits. -/
theorem intToDec_chars (i : ℤ) :
    ∀ ch ∈ (intToDec i).data, ch = ('-') ∨ ch = ('.') ∨ ch.isDigit = true := by
  intro ch hch
  unfold intToDec natToDec at hch
  rw [String.data_append] at hch
  rcases List.mem_append.mp hch with h | h
  · by_cases hm : i < 0
    · rw [if_pos hm, show (("-") : String).data = [('-')] from rfl] at h
      left
      simpa using h
    · rw [if_neg hm, show (("") : String).data = ([] : List Char) from rfl] at h
      exact absurd h (List.not_mem_nil ch)
  · exact Or.inr (Or.inr (natDigitChars_all_digit _ ch h))

/-- The scaled decimal rendering consists of a sign, a point and digits. -/
theorem renderScaled_chars (m : ℤ) (e : ℕ) :
    ∀ ch ∈ (renderScaled m e).data, ch = ('-') ∨ ch = ('.') ∨ ch.isDigit = true := by
  have hpad : ∀ (k : ℕ) (d : Char),
      d ∈ List.replicate k ('0') ++ natDigitChars m.natAbs → d.isDigit = true := by
    intro k d hd
    rcases List.mem_append.mp hd with h | h
    · rw [List.eq_of_mem_replicate h]
      decide
    · exact natDigitChars_all_digit _ d h
  intro ch hch
  simp only [renderScaled, String.data_append, List.mem_append] at hch
  rcases hch with ((h | h) | h) | h
  · by_cases hm : m < 0
    · rw [if_pos hm, show (("-") : String).data = [('-')] from rfl] at h
      left
      simpa using h
    · rw [if_neg hm, show (("") : String).data = ([] : List Char) from rfl] at h
      exact absurd h (List.not_mem_nil ch)
  · exact Or.inr (Or.inr (hpad _ ch (List.take_subset _ _ h)))
  · right
    left
    simpa using h
  · exact Or.inr (Or.inr (hpad _ ch (List.drop_subset _ _ h)))

/-- The float rendering of a finite-decimal number consists of a sign, a
point and digits. -/
theorem serializeFloat_chars (q : ℚ) (hq : q.den ∣ 10 ^ decExp q.den) :
    ∀ ch ∈ (serializeFloat (some q)).data,
      ch = ('-') ∨ ch = ('.') ∨ ch.isDigit = true := by
  intro ch hch
  unfold serializeFloat at hch
  by_cases h1 : q.den = 1
  · rw [show isIntegerJs (some q) = true from by simp [isIntegerJs, h1]] at hch
    simp only [eq_self_iff_true, if_true] at hch
    rw [String.data_append] at hch
    rcases List.mem_append.mp hch with h | h
    · exact intToDec_chars q.num ch h
    · rw [show ((".0") : String).data = [('.'), ('0')] from rfl] at h
      simp only [List.mem_cons, List.not_mem_nil, or_false] at h
      rcases h with h | h
      · exact Or.inr (Or.inl h)
      · exact Or.inr (Or.inr (by rw [h]; decide))
  · rw [show isIntegerJs (some q) = false from by simp [isIntegerJs, h1]] at hch
    simp only [Bool.false_eq_true, if_false] at hch
    simp only [jsNumToString] at hch
    rw [if_neg h1, if_pos hq] at hch
    exact renderScaled_chars _ _ ch hch

theorem serializeFloat_clean (q : ℚ) (hq : q.den ∣ 10 ^ decExp q.den) :
    ∀ ch ∈ (serializeFloat (some q)).data, ch ≠ ('\r') ∧ ch ≠ ('\n') :=
  clean_of_chars (serializeFloat_chars q hq)

theorem ltrim_serializeFloat (q : ℚ) (hq : q.den ∣ 10 ^ decExp q.den) :
    ltrim (serializeFloat (some q)) = serializeFloat (some q) :=
  ltrim_of_chars (serializeFloat_chars q hq)

theorem ltrim_intToDec (i : ℤ) : ltrim (intToDec i) = intToDec i :=
  ltrim_of_chars (intToDec_chars i)

/-- The integer-branch rendering of an integer-valued number is its decimal
text. -/
theorem jsIntString_int (i : ℤ) : jsIntString (some ((i : ℚ))) = intToDec i := by
  simp only [jsIntString, Rat.den_intCast, eq_self_iff_true, if_true, Rat.num_intCast]

/-- On an integer-range code, `parseGroupValue` is `parseInt` on the raw
text. -/
theorem parseGroupValue_int {c : ℤ} (hc : isIntCode (some c) = true) (s : String) :
    parseGroupValue (some c) s
      = .ok (.num ((parseIntJS s).map (fun i => (i : ℚ)))) := by
  unfold parseGroupValue
  rw [string_of_int hc, float_of_int hc, hc]
  rfl

/-- On a boolean-range code, the rendered boolean parses back. -/
theorem parseGroupValue_bool01 {c : ℤ} (hc : isBoolCode (some c) = true) (b : Bool) :
    parseGroupValue (some c) (if b then ("1") else ("0")) = .ok (.bool b) := by
  unfold parseGroupValue
  rw [string_of_bool hc, float_of_bool hc, int_of_bool hc, hc]
  cases b
  · rfl
  · rfl

/-- On a float-range code, a number value serializes through
`serializeFloat`. -/
theorem serializeGroupValue_float_num {c : ℤ} (hc : isFloatCode (some c) = true)
    (v : JsNum) : serializeGroupValue c (.num v) = [intToDec c, serializeFloat v] := by
  unfold serializeGroupValue
  rw [string_of_float hc, hc]
  rfl

/-- On an integer-range code, a number value serializes through the
integer-branch rendering. -/
theorem serializeGroupValue_int_num {c : ℤ} (hc : isIntCode (some c) = true)
    (v : JsNum) : serializeGroupValue c (.num v) = [intToDec c, jsIntString v] := by
  unfold serializeGroupValue
  rw [string_of_int hc, float_of_int hc, bool_of_int hc, hc]
  rfl

/-- On a boolean-range code, a boolean value serializes to `1`/`0`. -/
theorem serializeGroupValue_bool {c : ℤ} (hc : isBoolCode (some c) = true) (b : Bool) :
    serializeGroupValue c (.bool b) = [intToDec c, if b then ("1") else ("0")] := by
  unfold serializeGroupValue
  rw [string_of_bool hc, float_of_bool hc, hc]
  cases b
  · rfl
  · rfl

/-- Float-range codes avoid the string range (which holds 0 and 9). -/
theorem float_code_ne {c : ℤ} (h : isFloatCode (some c) = true) : c ≠ 0 ∧ c ≠ 9 := by
  rw [isFloatCode_iff] at h
  omega

/-- Integer-range codes avoid all the specially parsed header codes. -/
theorem int_code_ne {c : ℤ} (h : isIntCode (some c) = true) :
    c ≠ 0 ∧ c ≠ 9 ∧ c ≠ 10 ∧ c ≠ 20 ∧ c ≠ 30 := by
  rw [isIntCode_iff] at h
  omega

/-- Boolean-range codes avoid all the specially parsed header codes. -/
theorem bool_code_ne {c : ℤ} (h : isBoolCode (some c) = true) :
    c ≠ 0 ∧ c ≠ 9 ∧ c ≠ 10 ∧ c ≠ 20 ∧ c ≠ 30 := by
  rw [isBoolCode_iff] at h
  omega

/-- String-range codes avoid the point codes. -/
theorem string_code_ne {c : ℤ} (h : isStringCode (some c) = true) :
    c ≠ 10 ∧ c ≠ 20 ∧ c ≠ 30 := by
  rw [isStringCode_iff] at h
  omega


/-- A header variable as carried through the round-trip theorems: a raw
string under a string-range code, a finite-decimal number under a float
code, an integer under an integer code, a boolean under a boolean code, or a
2D/3D point variable. -/
inductive HVar where
  | str (n : String) (c : ℤ) (v : String)
  | num (n : String) (c : ℤ) (q : ℚ)
  | int (n : String) (c : ℤ) (i : ℤ)
  | bool (n : String) (c : ℤ) (b : Bool)
  | point (n : String) (x y : ℚ) (z : Option ℚ)
deriving Repr, DecidableEq

/-- The variable's name. -/
def hvName : HVar → String
  | .str n _ _ => n
  | .num n _ _ => n
  | .int n _ _ => n
  | .bool n _ _ => n
  | .point n _ _ _ => n

/-- The header value the variable denotes in the parsed document. -/
def hvValue : HVar → HeaderValue
  | .str _ _ v => .val (.str v)
  | .num _ _ q => .val (.num (some q))
  | .int _ _ i => .val (.num (some ((i : ℚ))))
  | .bool _ _ b => .val (.bool b)
  | .point _ x y z => .point ⟨some x, some (some y), z.map (fun t => (some t : JsNum))⟩

/-- The group lines the variable serializes to. -/
def varLines : HVar → List String
  | .str n c v => [("9"), n, intToDec c, v]
  | .num n c q => [("9"), n, intToDec c, serializeFloat (some q)]
  | .int n c i => [("9"), n, intToDec c, intToDec i]
  | .bool n c b => [("9"), n, intToDec c, if b then ("1") else ("0")]
  | .point n x y z =>
    [("9"), n, intToDec 10, serializeFloat (some x), intToDec 20,
      serializeFloat (some y)]
    ++ (match z with
        | some t => [intToDec 30, serializeFloat (some t)]
        | none => [])

/-- The group lines a list of header variables serializes to. -/
def headerLines (es : List HVar) : List String := es.flatMap varLines

/-- The header record a list of variables denotes. -/
def entriesOf (es : List HVar) : Header :=
  es.map (fun v => (hvName v, some (hvValue v)))

/-- What the `parseHeader` loop accumulates across a run of variables, given
the pending variable and the header built so far. -/
def headerResult : List HVar → Header → Option String → Option HeaderValue → Header
  | [], h, pn, pv => flushPend h pn pv
  | v :: es, h, pn, pv =>
    headerResult es (flushPend h pn pv) (some (hvName v)) (some (hvValue v))

/-- The side conditions making a variable round-trip transparently: its name
is nonempty, trim-invariant and newline-free; a scalar name is a non-date
name that `codeByName` lists with a code of the value's range (for strings
additionally off the specially parsed codes, with trim-invariant
newline-free text); a point name is one of `pointNames`; numbers are
finite-decimal (every binary float is). -/
def GoodVar : HVar → Prop
  | .str n c v =>
    ltrim n = n ∧ n ≠ ("") ∧ dateNames.contains n = false ∧
    codeByName.lookup n = some c ∧ isStringCode (some c) = true ∧
    c ≠ 0 ∧ c ≠ 9 ∧ c ≠ 10 ∧ c ≠ 20 ∧ c ≠ 30 ∧
    ltrim v = v ∧
    (∀ ch ∈ n.data, ch ≠ ('\r') ∧ ch ≠ ('\n')) ∧
    (∀ ch ∈ v.data, ch ≠ ('\r') ∧ ch ≠ ('\n'))
  | .num n c q =>
    ltrim n = n ∧ n ≠ ("") ∧ dateNames.contains n = false ∧
    codeByName.lookup n = some c ∧ isFloatCode (some c) = true ∧
    c ≠ 10 ∧ c ≠ 20 ∧ c ≠ 30 ∧ q.den ∣ 10 ^ decExp q.den ∧
    (∀ ch ∈ n.data, ch ≠ ('\r') ∧ ch ≠ ('\n'))
  | .int n c _ =>
    ltrim n = n ∧ n ≠ ("") ∧ dateNames.contains n = false ∧
    codeByName.lookup n = some c ∧ isIntCode (some c) = true ∧
    (∀ ch ∈ n.data, ch ≠ ('\r') ∧ ch ≠ ('\n'))
  | .bool n c _ =>
    ltrim n = n ∧ n ≠ ("") ∧ dateNames.contains n = false ∧
    codeByName.lookup n = some c ∧ isBoolCode (some c) = true ∧
    (∀ ch ∈ n.data, ch ≠ ('\r') ∧ ch ≠ ('\n'))
  | .point n x y z =>
    ltrim n = n ∧ n ≠ ("") ∧ pointNames.contains n = true ∧
    x.den ∣ 10 ^ decExp x.den ∧ y.den ∣ 10 ^ decExp y.den ∧
    (match z with | some t => t.den ∣ 10 ^ decExp t.den | none => True) ∧
    (∀ ch ∈ n.data, ch ≠ ('\r') ∧ ch ≠ ('\n'))

instance (v : HVar) : Decidable (GoodVar v) := by
  cases v with
  | str n c v =>
    unfold GoodVar
    infer_instance
  | num n c q =>
    unfold GoodVar
    infer_instance
  | int n c i =>
    unfold GoodVar
    infer_instance
  | bool n c b =>
    unfold GoodVar
    infer_instance
  | point n x y z =>
    unfold GoodVar
    cases z with
    | none => infer_instance
    | some t => infer_instance

/-- A good variable's name is nonempty. -/
theorem hvName_ne_of_good {v : HVar} (h : GoodVar v) : hvName v ≠ ("") := by
  cases v with
  | str n c v => exact h.2.1
  | num n c q => exact h.2.1
  | int n c i => exact h.2.1
  | bool n c b => exact h.2.1
  | point n x y z => exact h.2.1

theorem headerLines_cons (v : HVar) (es : List HVar) :
    headerLines (v :: es) = varLines v ++ headerLines es := by
  unfold headerLines
  rw [List.flatMap_cons]

/-- Every variable serializes to at least its four scalar lines. -/
theorem varLines_len_ge (v : HVar) : 4 ≤ (varLines v).length := by
  cases v with
  | str n c v => simp [varLines]
  | num n c q => simp [varLines]
  | int n c i => simp [varLines]
  | bool n c b => simp [varLines]
  | point n x y z =>
    cases z with
    | none => simp [varLines]
    | some t => simp [varLines]

theorem headerLines_lb : ∀ es : List HVar, 4 * es.length ≤ (headerLines es).length := by
  intro es
  induction es with
  | nil => simp [headerLines]
  | cons v es ih =>
    rw [headerLines_cons, List.length_append, List.length_cons]
    have := varLines_len_ge v
    omega

/-- Loop step at a code-10 group: a fresh point is started. -/
theorem parseHeaderLoop_p10 (jti : JsNum → String) (fuel : ℕ) (pname : Option String)
    (pval : Option HeaderValue) (h0 : Header) (gv : GroupValue) (s : DxfArrayScanner) :
    parseHeaderLoop jti (fuel + 1) pname pval h0 ⟨some 10, gv⟩ s
      = (do
          let (curr, sc) ← s.next
          parseHeaderLoop jti fuel pname (some (.point ⟨asNum gv, none, none⟩)) h0
            curr sc) := by
  have hstop : groupIs ⟨some 10, gv⟩ 0 (.str ("ENDSEC")) = false := by
    unfold groupIs
    show (jcEq (some 10) 0 && _) = false
    rfl
  simp only [parseHeaderLoop, hstop, Bool.false_eq_true, if_false,
    show jcEq (some 10) 9 = false from rfl, show jcEq (some 10) 10 = true from rfl,
    if_true]
  rfl

/-- Loop step at a code-20 group on a point value: the y field is set. -/
theorem parseHeaderLoop_p20 (jti : JsNum → String) (fuel : ℕ) (pname : Option String)
    (h0 : Header) (gv : GroupValue) (s : DxfArrayScanner) (px : JsNum)
    (py0 pz : Option JsNum) :
    parseHeaderLoop jti (fuel + 1) pname (some (.point ⟨px, py0, pz⟩)) h0
        ⟨some 20, gv⟩ s
      = (do
          let (curr, sc) ← s.next
          parseHeaderLoop jti fuel pname (some (.point ⟨px, some (asNum gv), pz⟩)) h0
            curr sc) := by
  have hstop : groupIs ⟨some 20, gv⟩ 0 (.str ("ENDSEC")) = false := by
    unfold groupIs
    show (jcEq (some 20) 0 && _) = false
    rfl
  simp only [parseHeaderLoop, hstop, Bool.false_eq_true, if_false,
    show jcEq (some 20) 9 = false from rfl, show jcEq (some 20) 10 = false from rfl,
    show jcEq (some 20) 20 = true from rfl, if_true]
  rfl

/-- Loop step at a code-30 group on a point value: the z field is set. -/
theorem parseHeaderLoop_p30 (jti : JsNum → String) (fuel : ℕ) (pname : Option String)
    (h0 : Header) (gv : GroupValue) (s : DxfArrayScanner) (px : JsNum)
    (py0 pz : Option JsNum) :
    parseHeaderLoop jti (fuel + 1) pname (some (.point ⟨px, py0, pz⟩)) h0
        ⟨some 30, gv⟩ s
      = (do
          let (curr, sc) ← s.next
          parseHeaderLoop jti fuel pname (some (.point ⟨px, py0, some (asNum gv)⟩)) h0
            curr sc) := by
  have hstop : groupIs ⟨some 30, gv⟩ 0 (.str ("ENDSEC")) = false := by
    unfold groupIs
    show (jcEq (some 30) 0 && _) = false
    rfl
  simp only [parseHeaderLoop, hstop, Bool.false_eq_true, if_false,
    show jcEq (some 30) 9 = false from rfl, show jcEq (some 30) 10 = false from rfl,
    show jcEq (some 30) 20 = false from rfl, show jcEq (some 30) 30 = true from rfl,
    if_true]
  rfl


/-- Running the accumulation with fresh, nonempty, pairwise distinct names
appends the pending variable and then the entries in order. -/
theorem headerResult_pending :
    ∀ (es : List HVar) (h : Header) (n : String) (hv : HeaderValue),
      n ≠ ("") → (∀ e ∈ es, hvName e ≠ ("")) →
      (n :: es.map hvName).Nodup →
      (∀ m ∈ n :: es.map hvName, m ∉ h.map Prod.fst) →
      headerResult es h (some n) (some hv) = h ++ (n, some hv) :: entriesOf es := by
  intro es
  induction es with
  | nil =>
    intro h n hv hn _ _ hfresh
    show flushPend h (some n) (some hv) = _
    unfold flushPend
    simp only [Option.getD_some]
    rw [if_pos hn, jsObjSet_fresh h n (some hv) (hfresh n (by simp))]
    rfl
  | cons v es ih =>
    intro h n hv hn hne hnd hfresh
    have hnd2 : (n :: hvName v :: es.map hvName).Nodup := hnd
    have hn_not : n ∉ hvName v :: es.map hvName := (List.nodup_cons.mp hnd2).1
    have hnd' : (hvName v :: es.map hvName).Nodup := (List.nodup_cons.mp hnd2).2
    show headerResult es (flushPend h (some n) (some hv)) (some (hvName v))
        (some (hvValue v)) = _
    have hflush : flushPend h (some n) (some hv) = h ++ [(n, some hv)] := by
      unfold flushPend
      simp only [Option.getD_some]
      rw [if_pos hn, jsObjSet_fresh h n (some hv) (hfresh n (by simp))]
    rw [hflush]
    rw [ih (h ++ [(n, some hv)]) (hvName v) (hvValue v) (hne v (by simp))
      (fun x hx => hne x (by simp [hx])) hnd'
      (by
        intro x hx
        rw [List.map_append]
        simp only [List.mem_append, List.map_cons, List.map_nil, List.mem_singleton,
          not_or]
        exact ⟨hfresh x (List.mem_cons_of_mem n hx), fun hxn => hn_not (hxn ▸ hx)⟩)]
    show (h ++ [(n, some hv)]) ++ (hvName v, some (hvValue v)) :: entriesOf es
      = h ++ (n, some hv) :: (hvName v, some (hvValue v)) :: entriesOf es
    simp

/-- From the initial state, distinct nonempty names accumulate to exactly
the entry list. -/
theorem headerResult_init (es : List HVar)
    (hne : ∀ e ∈ es, hvName e ≠ ("")) (hnd : (es.map hvName).Nodup) :
    headerResult es [] none none = entriesOf es := by
  cases es with
  | nil => rfl
  | cons v es =>
    show headerResult es (flushPend [] none none) (some (hvName v))
        (some (hvValue v)) = _
    rw [show flushPend [] none none = ([] : Header) from rfl]
    rw [headerResult_pending es [] (hvName v) (hvValue v) (hne v (by simp))
      (fun x hx => hne x (by simp [hx])) (by simpa using hnd) (by intro x _; simp)]
    rfl


/-- One scalar variable (four lines) consumed by the header loop, composed
with a run over the remaining variables. -/
theorem parseHeaderRun_scalar_step (jti : JsNum → String) (es : List HVar) (k : ℕ)
    (n : String) (c : ℤ) (valText : String) (gv : GroupValue)
    (pname : Option String) (pval : Option HeaderValue) (h0 : Header)
    (s : DxfArrayScanner) (rest : List String)
    (ihp : ∀ (k : ℕ) (pname : Option String) (pval : Option HeaderValue) (h0 : Header)
      (s : DxfArrayScanner) (rest : List String),
      (∀ e ∈ es, GoodVar e) →
      s.data.drop s.pointer.toNat = headerLines es ++ ("0") :: ("ENDSEC") :: rest →
      0 ≤ s.pointer → s.eof = false →
      ∃ s', (do
          let (curr, sc) ← s.next
          parseHeaderLoop jti (4 * es.length + (k + 1)) pname pval h0 curr sc)
        = .ok (headerResult es h0 pname pval, s') ∧
        s'.pointer = s.pointer + ((headerLines es).length : ℤ) + 2 ∧
        s'.eof = false ∧ s'.data = s.data ∧
        s'.lastReadGroup = some ⟨some 0, GroupValue.str ("ENDSEC")⟩)
    (hgood : ∀ e ∈ es, GoodVar e)
    (hdrop : s.data.drop s.pointer.toNat
      = ("9") :: n :: intToDec c :: valText
        :: (headerLines es ++ ("0") :: ("ENDSEC") :: rest))
    (hp : 0 ≤ s.pointer) (heof : s.eof = false)
    (hltn : ltrim n = n)
    (hgv : parseGroupValue (some c) (ltrim valText) = .ok gv)
    (hc0 : c ≠ 0) (hc9 : c ≠ 9) (hc10 : c ≠ 10) (hc20 : c ≠ 20) (hc30 : c ≠ 30)
    (hdate : dateNames.contains n = false) :
    ∃ s', (do
        let (curr, sc) ← s.next
        parseHeaderLoop jti (((4 * es.length + ((k + 2) + 1)) + 1) + 1)
          pname pval h0 curr sc)
      = .ok (headerResult es (flushPend h0 pname pval) (some n)
          (some (.val gv)), s') ∧
      s'.pointer = s.pointer + ((headerLines es).length : ℤ) + 6 ∧
      s'.eof = false ∧ s'.data = s.data ∧
      s'.lastReadGroup = some ⟨some 0, GroupValue.str ("ENDSEC")⟩ := by
  have hv1 : parseGroupValue (parseIntJSAuto ("9")) (ltrim n) = .ok (.str n) := by
    rw [show parseIntJSAuto ("9") = some 9 from by decide, hltn]
    exact parseGroupValue_string (by decide) n
  have hstep1 := next_step hdrop hp heof hv1
  rw [show parseIntJSAuto ("9") = some 9 from by decide,
    show jcEq (some 9) 0 = false from by decide, Bool.false_and] at hstep1
  have e0c : jcEq (some c) 0 = false := decide_eq_false hc0
  have hv2 : parseGroupValue (parseIntJSAuto (intToDec c)) (ltrim valText) = .ok gv := by
    rw [parseIntJSAuto_intToDec]
    exact hgv
  have hstep2 := next_step2 (⟨some 9, GroupValue.str n⟩ : IGroup) hdrop hp hv2
  rw [parseIntJSAuto_intToDec, e0c, Bool.false_and] at hstep2
  have hdropS2 : s.data.drop (s.pointer + 2 + 2).toNat
      = headerLines es ++ ("0") :: ("ENDSEC") :: rest := by
    rw [show (s.pointer + 2 + 2).toNat = s.pointer.toNat + 4 from by omega,
      ← List.drop_drop, hdrop]
    rfl
  obtain ⟨s', hrun, hpt, hf, hd, hl⟩ := ihp (k + 2) (some n) (some (.val gv))
    (flushPend h0 pname pval)
    ({ s with
        pointer := s.pointer + 2 + 2
        eof := false
        lastReadGroup := some ⟨some c, gv⟩ })
    rest hgood hdropS2 (by show (0 : ℤ) ≤ s.pointer + 2 + 2; omega) rfl
  refine ⟨s', ?_, ?_, hf, hd, hl⟩
  · rw [except_bind_ok hstep1]
    show parseHeaderLoop jti (((4 * es.length + ((k + 2) + 1)) + 1) + 1)
        pname pval h0 ⟨some 9, GroupValue.str n⟩
        { s with
            pointer := s.pointer + 2
            eof := false
            lastReadGroup := some ⟨some 9, GroupValue.str n⟩ }
      = _
    rw [parseHeaderLoop_name jti ((4 * es.length + ((k + 2) + 1)) + 1) pname pval h0
      (some 9) (GroupValue.str n) _ (by decide) (by decide)]
    simp only [jsValToString]
    rw [except_bind_ok hstep2]
    show parseHeaderLoop jti ((4 * es.length + ((k + 2) + 1)) + 1) (some n) pval
        (flushPend h0 pname pval) ⟨some c, gv⟩
        { s with
            pointer := s.pointer + 2 + 2
            eof := false
            lastReadGroup := some ⟨some c, gv⟩ }
      = _
    rw [parseHeaderLoop_value jti (4 * es.length + ((k + 2) + 1)) n pval
      (flushPend h0 pname pval) (some c) gv _
      e0c (decide_eq_false hc9) (decide_eq_false hc10) (decide_eq_false hc20)
      (decide_eq_false hc30) hdate]
    rw [hrun]
  · rw [hpt]
    show s.pointer + 2 + 2 + ((headerLines es).length : ℤ) + 2
      = s.pointer + ((headerLines es).length : ℤ) + 6
    ring

/-- One 2D point variable (six lines) consumed by the header loop, composed
with a run over the remaining variables. -/
theorem parseHeaderRun_point2_step (jti : JsNum → String) (es : List HVar) (k : ℕ)
    (n xs ys : String) (gx gy : GroupValue)
    (pname : Option String) (pval : Option HeaderValue) (h0 : Header)
    (s : DxfArrayScanner) (rest : List String)
    (ihp : ∀ (k : ℕ) (pname : Option String) (pval : Option HeaderValue) (h0 : Header)
      (s : DxfArrayScanner) (rest : List String),
      (∀ e ∈ es, GoodVar e) →
      s.data.drop s.pointer.toNat = headerLines es ++ ("0") :: ("ENDSEC") :: rest →
      0 ≤ s.pointer → s.eof = false →
      ∃ s', (do
          let (curr, sc) ← s.next
          parseHeaderLoop jti (4 * es.length + (k + 1)) pname pval h0 curr sc)
        = .ok (headerResult es h0 pname pval, s') ∧
        s'.pointer = s.pointer + ((headerLines es).length : ℤ) + 2 ∧
        s'.eof = false ∧ s'.data = s.data ∧
        s'.lastReadGroup = some ⟨some 0, GroupValue.str ("ENDSEC")⟩)
    (hgood : ∀ e ∈ es, GoodVar e)
    (hdrop : s.data.drop s.pointer.toNat
      = ("9") :: n :: intToDec 10 :: xs :: intToDec 20 :: ys
        :: (headerLines es ++ ("0") :: ("ENDSEC") :: rest))
    (hp : 0 ≤ s.pointer) (heof : s.eof = false)
    (hltn : ltrim n = n)
    (hgx : parseGroupValue (some 10) (ltrim xs) = .ok gx)
    (hgy : parseGroupValue (some 20) (ltrim ys) = .ok gy) :
    ∃ s', (do
        let (curr, sc) ← s.next
        parseHeaderLoop jti ((((4 * es.length + ((k + 1) + 1)) + 1) + 1) + 1)
          pname pval h0 curr sc)
      = .ok (headerResult es (flushPend h0 pname pval) (some n)
          (some (.point ⟨asNum gx, some (asNum gy), none⟩)), s') ∧
      s'.pointer = s.pointer + ((headerLines es).length : ℤ) + 8 ∧
      s'.eof = false ∧ s'.data = s.data ∧
      s'.lastReadGroup = some ⟨some 0, GroupValue.str ("ENDSEC")⟩ := by
  have hv1 : parseGroupValue (parseIntJSAuto ("9")) (ltrim n) = .ok (.str n) := by
    rw [show parseIntJSAuto ("9") = some 9 from by decide, hltn]
    exact parseGroupValue_string (by decide) n
  have hstep1 := next_step hdrop hp heof hv1
  rw [show parseIntJSAuto ("9") = some 9 from by decide,
    show jcEq (some 9) 0 = false from by decide, Bool.false_and] at hstep1
  have hvx : parseGroupValue (parseIntJSAuto (intToDec 10)) (ltrim xs) = .ok gx := by
    rw [parseIntJSAuto_intToDec]
    exact hgx
  have hstep2 := next_step2 (⟨some 9, GroupValue.str n⟩ : IGroup) hdrop hp hvx
  rw [parseIntJSAuto_intToDec, show jcEq (some 10) 0 = false from by decide,
    Bool.false_and] at hstep2
  have hdrop3 : s.data.drop (s.pointer + 2 + 2).toNat
      = intToDec 20 :: ys :: (headerLines es ++ ("0") :: ("ENDSEC") :: rest) := by
    rw [show (s.pointer + 2 + 2).toNat = s.pointer.toNat + 4 from by omega,
      ← List.drop_drop, hdrop]
    rfl
  have hvy : parseGroupValue (parseIntJSAuto (intToDec 20)) (ltrim ys) = .ok gy := by
    rw [parseIntJSAuto_intToDec]
    exact hgy
  have hstep3 := next_step
    (s := { s with
        pointer := s.pointer + 2 + 2
        eof := false
        lastReadGroup := some ⟨some 10, gx⟩ })
    hdrop3 (by show (0 : ℤ) ≤ s.pointer + 2 + 2; omega) rfl hvy
  rw [parseIntJSAuto_intToDec, show jcEq (some 20) 0 = false from by decide,
    Bool.false_and] at hstep3
  have hdropS3 : s.data.drop (s.pointer + 2 + 2 + 2).toNat
      = headerLines es ++ ("0") :: ("ENDSEC") :: rest := by
    rw [show (s.pointer + 2 + 2 + 2).toNat = s.pointer.toNat + 6 from by omega,
      ← List.drop_drop, hdrop]
    rfl
  obtain ⟨s', hrun, hpt, hf, hd, hl⟩ := ihp (k + 1) (some n)
    (some (.point ⟨asNum gx, some (asNum gy), none⟩))
    (flushPend h0 pname pval)
    ({ s with
        pointer := s.pointer + 2 + 2 + 2
        eof := false
        lastReadGroup := some ⟨some 20, gy⟩ })
    rest hgood hdropS3 (by show (0 : ℤ) ≤ s.pointer + 2 + 2 + 2; omega) rfl
  refine ⟨s', ?_, ?_, hf, hd, hl⟩
  · rw [except_bind_ok hstep1]
    show parseHeaderLoop jti ((((4 * es.length + ((k + 1) + 1)) + 1) + 1) + 1)
        pname pval h0 ⟨some 9, GroupValue.str n⟩
        { s with
            pointer := s.pointer + 2
            eof := false
            lastReadGroup := some ⟨some 9, GroupValue.str n⟩ }
      = _
    rw [parseHeaderLoop_name jti (((4 * es.length + ((k + 1) + 1)) + 1) + 1)
      pname pval h0 (some 9) (GroupValue.str n) _ (by decide) (by decide)]
    simp only [jsValToString]
    rw [except_bind_ok hstep2]
    show parseHeaderLoop jti (((4 * es.length + ((k + 1) + 1)) + 1) + 1) (some n) pval
        (flushPend h0 pname pval) ⟨some 10, gx⟩
        { s with
            pointer := s.pointer + 2 + 2
            eof := false
            lastReadGroup := some ⟨some 10, gx⟩ }
      = _
    rw [parseHeaderLoop_p10 jti ((4 * es.length + ((k + 1) + 1)) + 1) (some n) pval
      (flushPend h0 pname pval) gx _]
    rw [except_bind_ok hstep3]
    show parseHeaderLoop jti ((4 * es.length + ((k + 1) + 1)) + 1) (some n)
        (some (.point ⟨asNum gx, none, none⟩)) (flushPend h0 pname pval)
        ⟨some 20, gy⟩
        { s with
            pointer := s.pointer + 2 + 2 + 2
            eof := false
            lastReadGroup := some ⟨some 20, gy⟩ }
      = _
    rw [parseHeaderLoop_p20 jti (4 * es.length + ((k + 1) + 1)) (some n)
      (flushPend h0 pname pval) gy _ (asNum gx) none none]
    rw [hrun]
  · rw [hpt]
    show s.pointer + 2 + 2 + 2 + ((headerLines es).length : ℤ) + 2
      = s.pointer + ((headerLines es).length : ℤ) + 8
    ring

/-- One 3D point variable (eight lines) consumed by the header loop, composed
with a run over the remaining variables. -/
theorem parseHeaderRun_point3_step (jti : JsNum → String) (es : List HVar) (k : ℕ)
    (n xs ys zs : String) (gx gy gz : GroupValue)
    (pname : Option String) (pval : Option HeaderValue) (h0 : Header)
    (s : DxfArrayScanner) (rest : List String)
    (ihp : ∀ (k : ℕ) (pname : Option String) (pval : Option HeaderValue) (h0 : Header)
      (s : DxfArrayScanner) (rest : List String),
      (∀ e ∈ es, GoodVar e) →
      s.data.drop s.pointer.toNat = headerLines es ++ ("0") :: ("ENDSEC") :: rest →
      0 ≤ s.pointer → s.eof = false →
      ∃ s', (do
          let (curr, sc) ← s.next
          parseHeaderLoop jti (4 * es.length + (k + 1)) pname pval h0 curr sc)
        = .ok (headerResult es h0 pname pval, s') ∧
        s'.pointer = s.pointer + ((headerLines es).length : ℤ) + 2 ∧
        s'.eof = false ∧ s'.data = s.data ∧
        s'.lastReadGroup = some ⟨some 0, GroupValue.str ("ENDSEC")⟩)
    (hgood : ∀ e ∈ es, GoodVar e)
    (hdrop : s.data.drop s.pointer.toNat
      = ("9") :: n :: intToDec 10 :: xs :: intToDec 20 :: ys :: intToDec 30 :: zs
        :: (headerLines es ++ ("0") :: ("ENDSEC") :: rest))
    (hp : 0 ≤ s.pointer) (heof : s.eof = false)
    (hltn : ltrim n = n)
    (hgx : parseGroupValue (some 10) (ltrim xs) = .ok gx)
    (hgy : parseGroupValue (some 20) (ltrim ys) = .ok gy)
    (hgz : parseGroupValue (some 30) (ltrim zs) = .ok gz) :
    ∃ s', (do
        let (curr, sc) ← s.next
        parseHeaderLoop jti (((((4 * es.length + (k + 1)) + 1) + 1) + 1) + 1)
          pname pval h0 curr sc)
      = .ok (headerResult es (flushPend h0 pname pval) (some n)
          (some (.point ⟨asNum gx, some (asNum gy), some (asNum gz)⟩)), s') ∧
      s'.pointer = s.pointer + ((headerLines es).length : ℤ) + 10 ∧
      s'.eof = false ∧ s'.data = s.data ∧
      s'.lastReadGroup = some ⟨some 0, GroupValue.str ("ENDSEC")⟩ := by
  have hv1 : parseGroupValue (parseIntJSAuto ("9")) (ltrim n) = .ok (.str n) := by
    rw [show parseIntJSAuto ("9") = some 9 from by decide, hltn]
    exact parseGroupValue_string (by decide) n
  have hstep1 := next_step hdrop hp heof hv1
  rw [show parseIntJSAuto ("9") = some 9 from by decide,
    show jcEq (some 9) 0 = false from by decide, Bool.false_and] at hstep1
  have hvx : parseGroupValue (parseIntJSAuto (intToDec 10)) (ltrim xs) = .ok gx := by
    rw [parseIntJSAuto_intToDec]
    exact hgx
  have hstep2 := next_step2 (⟨some 9, GroupValue.str n⟩ : IGroup) hdrop hp hvx
  rw [parseIntJSAuto_intToDec, show jcEq (some 10) 0 = false from by decide,
    Bool.false_and] at hstep2
  have hdrop3 : s.data.drop (s.pointer + 2 + 2).toNat
      = intToDec 20 :: ys :: intToDec 30 :: zs
        :: (headerLines es ++ ("0") :: ("ENDSEC") :: rest) := by
    rw [show (s.pointer + 2 + 2).toNat = s.pointer.toNat + 4 from by omega,
      ← List.drop_drop, hdrop]
    rfl
  have hvy : parseGroupValue (parseIntJSAuto (intToDec 20)) (ltrim ys) = .ok gy := by
    rw [parseIntJSAuto_intToDec]
    exact hgy
  have hstep3 := next_step
    (s := { s with
        pointer := s.pointer + 2 + 2
        eof := false
        lastReadGroup := some ⟨some 10, gx⟩ })
    hdrop3 (by show (0 : ℤ) ≤ s.pointer + 2 + 2; omega) rfl hvy
  rw [parseIntJSAuto_intToDec, show jcEq (some 20) 0 = false from by decide,
    Bool.false_and] at hstep3
  have hdrop4 : s.data.drop (s.pointer + 2 + 2 + 2).toNat
      = intToDec 30 :: zs :: (headerLines es ++ ("0") :: ("ENDSEC") :: rest) := by
    rw [show (s.pointer + 2 + 2 + 2).toNat = s.pointer.toNat + 6 from by omega,
      ← List.drop_drop, hdrop]
    rfl
  have hvz : parseGroupValue (parseIntJSAuto (intToDec 30)) (ltrim zs) = .ok gz := by
    rw [parseIntJSAuto_intToDec]
    exact hgz
  have hstep4 := next_step
    (s := { s with
        pointer := s.pointer + 2 + 2 + 2
        eof := false
        lastReadGroup := some ⟨some 20, gy⟩ })
    hdrop4 (by show (0 : ℤ) ≤ s.pointer + 2 + 2 + 2; omega) rfl hvz
  rw [parseIntJSAuto_intToDec, show jcEq (some 30) 0 = false from by decide,
    Bool.false_and] at hstep4
  have hdropS4 : s.data.drop (s.pointer + 2 + 2 + 2 + 2).toNat
      = headerLines es ++ ("0") :: ("ENDSEC") :: rest := by
    rw [show (s.pointer + 2 + 2 + 2 + 2).toNat = s.pointer.toNat + 8 from by omega,
      ← List.drop_drop, hdrop]
    rfl
  obtain ⟨s', hrun, hpt, hf, hd, hl⟩ := ihp k (some n)
    (some (.point ⟨asNum gx, some (asNum gy), some (asNum gz)⟩))
    (flushPend h0 pname pval)
    ({ s with
        pointer := s.pointer + 2 + 2 + 2 + 2
        eof := false
        lastReadGroup := some ⟨some 30, gz⟩ })
    rest hgood hdropS4 (by show (0 : ℤ) ≤ s.pointer + 2 + 2 + 2 + 2; omega) rfl
  refine ⟨s', ?_, ?_, hf, hd, hl⟩
  · rw [except_bind_ok hstep1]
    show parseHeaderLoop jti (((((4 * es.length + (k + 1)) + 1) + 1) + 1) + 1)
        pname pval h0 ⟨some 9, GroupValue.str n⟩
        { s with
            pointer := s.pointer + 2
            eof := false
            lastReadGroup := some ⟨some 9, GroupValue.str n⟩ }
      = _
    rw [parseHeaderLoop_name jti ((((4 * es.length + (k + 1)) + 1) + 1) + 1)
      pname pval h0 (some 9) (GroupValue.str n) _ (by decide) (by decide)]
    simp only [jsValToString]
    rw [except_bind_ok hstep2]
    show parseHeaderLoop jti ((((4 * es.length + (k + 1)) + 1) + 1) + 1) (some n) pval
        (flushPend h0 pname pval) ⟨some 10, gx⟩
        { s with
            pointer := s.pointer + 2 + 2
            eof := false
            lastReadGroup := some ⟨some 10, gx⟩ }
      = _
    rw [parseHeaderLoop_p10 jti (((4 * es.length + (k + 1)) + 1) + 1) (some n) pval
      (flushPend h0 pname pval) gx _]
    rw [except_bind_ok hstep3]
    show parseHeaderLoop jti (((4 * es.length + (k + 1)) + 1) + 1) (some n)
        (some (.point ⟨asNum gx, none, none⟩)) (flushPend h0 pname pval)
        ⟨some 20, gy⟩
        { s with
            pointer := s.pointer + 2 + 2 + 2
            eof := false
            lastReadGroup := some ⟨some 20, gy⟩ }
      = _
    rw [parseHeaderLoop_p20 jti ((4 * es.length + (k + 1)) + 1) (some n)
      (flushPend h0 pname pval) gy _ (asNum gx) none none]
    rw [except_bind_ok hstep4]
    show parseHeaderLoop jti ((4 * es.length + (k + 1)) + 1) (some n)
        (some (.point ⟨asNum gx, some (asNum gy), none⟩)) (flushPend h0 pname pval)
        ⟨some 30, gz⟩
        { s with
            pointer := s.pointer + 2 + 2 + 2 + 2
            eof := false
            lastReadGroup := some ⟨some 30, gz⟩ }
      = _
    rw [parseHeaderLoop_p30 jti (4 * es.length + (k + 1)) (some n)
      (flushPend h0 pname pval) gz _ (asNum gx) (some (asNum gy)) none]
    rw [hrun]
  · rw [hpt]
    show s.pointer + 2 + 2 + 2 + 2 + ((headerLines es).length : ℤ) + 2
      = s.pointer + ((headerLines es).length : ℤ) + 10
    ring


/-- Running the header loop over the serialized lines of good variables:
starting anywhere in the data with the variable lines followed by the
(0, ENDSEC) marker, the loop accumulates `headerResult` and stops on the
marker, leaving the cursor right after it with the EOF flag still clear. -/
theorem parseHeaderRun (jti : JsNum → String) :
    ∀ (es : List HVar) (k : ℕ) (pname : Option String)
      (pval : Option HeaderValue) (h0 : Header) (s : DxfArrayScanner)
      (rest : List String),
      (∀ e ∈ es, GoodVar e) →
      s.data.drop s.pointer.toNat = headerLines es ++ ("0") :: ("ENDSEC") :: rest →
      0 ≤ s.pointer → s.eof = false →
      ∃ s', (do
          let (curr, sc) ← s.next
          parseHeaderLoop jti (4 * es.length + (k + 1)) pname pval h0 curr sc)
        = .ok (headerResult es h0 pname pval, s') ∧
        s'.pointer = s.pointer + ((headerLines es).length : ℤ) + 2 ∧
        s'.eof = false ∧ s'.data = s.data ∧
        s'.lastReadGroup = some ⟨some 0, GroupValue.str ("ENDSEC")⟩ := by
  intro es
  induction es with
  | nil =>
    intro k pname pval h0 s rest _ hdrop hp heof
    have hdrop' : s.data.drop s.pointer.toNat = ("0") :: ("ENDSEC") :: rest := by
      rw [hdrop]
      rfl
    have hv : parseGroupValue (parseIntJSAuto ("0")) (ltrim ("ENDSEC"))
        = .ok (.str ("ENDSEC")) := by
      rw [show parseIntJSAuto ("0") = some 0 from by decide]
      exact parseGroupValue_string (by decide) _
    have hstep := next_step hdrop' hp heof hv
    rw [show parseIntJSAuto ("0") = some 0 from by decide,
      show (jcEq (some 0) 0
          && GroupValue.jsEq (GroupValue.str ("ENDSEC")) (GroupValue.str ("EOF")))
        = false from by decide] at hstep
    refine ⟨{ s with
        pointer := s.pointer + 2
        eof := false
        lastReadGroup := some ⟨some 0, GroupValue.str ("ENDSEC")⟩ }, ?_,
      by simp [headerLines], rfl, rfl, rfl⟩
    rw [except_bind_ok hstep]
    exact parseHeaderLoop_stop2 jti (4 * List.length ([] : List HVar) + k) pname pval
      h0 (some 0) (GroupValue.str ("ENDSEC")) _ (by decide)
  | cons v es ih =>
    intro k pname pval h0 s rest hgood hdrop hp heof
    have hgood' : ∀ e ∈ es, GoodVar e := fun x hx => hgood x (by simp [hx])
    have hg := hgood v (by simp)
    cases v with
    | str n c v =>
      obtain ⟨hltn, hnne, hdate, hlk, hsc, hc0, hc9, hc10, hc20, hc30, hltv,
        hcn, hcv⟩ := hg
      have hdrop' : s.data.drop s.pointer.toNat
          = ("9") :: n :: intToDec c :: v
            :: (headerLines es ++ ("0") :: ("ENDSEC") :: rest) := by
        rw [hdrop, headerLines_cons]
        simp [varLines]
      have hgv : parseGroupValue (some c) (ltrim v) = .ok (GroupValue.str v) := by
        rw [hltv]
        exact parseGroupValue_string hsc v
      rw [show 4 * List.length (HVar.str n c v :: es) + (k + 1)
          = ((4 * es.length + ((k + 2) + 1)) + 1) + 1 from by
        simp only [List.length_cons]
        omega]
      obtain ⟨s', heq, hpt, hf, hd, hl⟩ := parseHeaderRun_scalar_step jti es k n c v
        (GroupValue.str v) pname pval h0 s rest ih hgood' hdrop' hp heof hltn hgv
        hc0 hc9 hc10 hc20 hc30 hdate
      refine ⟨s', heq, ?_, hf, hd, hl⟩
      rw [hpt, headerLines_cons, List.length_append,
        show (varLines (HVar.str n c v)).length = 4 from rfl]
      push_cast
      ring
    | num n c q =>
      obtain ⟨hltn, hnne, hdate, hlk, hfc, hc10, hc20, hc30, hfin, hcn⟩ := hg
      obtain ⟨hc0, hc9⟩ := float_code_ne hfc
      have hdrop' : s.data.drop s.pointer.toNat
          = ("9") :: n :: intToDec c :: serializeFloat (some q)
            :: (headerLines es ++ ("0") :: ("ENDSEC") :: rest) := by
        rw [hdrop, headerLines_cons]
        simp [varLines]
      have hgv : parseGroupValue (some c) (ltrim (serializeFloat (some q)))
          = .ok (GroupValue.num (some q)) := by
        rw [ltrim_serializeFloat q hfin, parseGroupValue_float hfc,
          parseFloatJS_serializeFloat q hfin]
      rw [show 4 * List.length (HVar.num n c q :: es) + (k + 1)
          = ((4 * es.length + ((k + 2) + 1)) + 1) + 1 from by
        simp only [List.length_cons]
        omega]
      obtain ⟨s', heq, hpt, hf, hd, hl⟩ := parseHeaderRun_scalar_step jti es k n c
        (serializeFloat (some q)) (GroupValue.num (some q)) pname pval h0 s rest ih
        hgood' hdrop' hp heof hltn hgv hc0 hc9 hc10 hc20 hc30 hdate
      refine ⟨s', heq, ?_, hf, hd, hl⟩
      rw [hpt, headerLines_cons, List.length_append,
        show (varLines (HVar.num n c q)).length = 4 from rfl]
      push_cast
      ring
    | int n c i =>
      obtain ⟨hltn, hnne, hdate, hlk, hic, hcn⟩ := hg
      obtain ⟨hc0, hc9, hc10, hc20, hc30⟩ := int_code_ne hic
      have hdrop' : s.data.drop s.pointer.toNat
          = ("9") :: n :: intToDec c :: intToDec i
            :: (headerLines es ++ ("0") :: ("ENDSEC") :: rest) := by
        rw [hdrop, headerLines_cons]
        simp [varLines]
      have hgv : parseGroupValue (some c) (ltrim (intToDec i))
          = .ok (GroupValue.num (some ((i : ℚ)))) := by
        rw [ltrim_intToDec i, parseGroupValue_int hic, parseIntJS_intToDec]
        rfl
      rw [show 4 * List.length (HVar.int n c i :: es) + (k + 1)
          = ((4 * es.length + ((k + 2) + 1)) + 1) + 1 from by
        simp only [List.length_cons]
        omega]
      obtain ⟨s', heq, hpt, hf, hd, hl⟩ := parseHeaderRun_scalar_step jti es k n c
        (intToDec i) (GroupValue.num (some ((i : ℚ)))) pname pval h0 s rest ih
        hgood' hdrop' hp heof hltn hgv hc0 hc9 hc10 hc20 hc30 hdate
      refine ⟨s', heq, ?_, hf, hd, hl⟩
      rw [hpt, headerLines_cons, List.length_append,
        show (varLines (HVar.int n c i)).length = 4 from rfl]
      push_cast
      ring
    | bool n c b =>
      obtain ⟨hltn, hnne, hdate, hlk, hbc, hcn⟩ := hg
      obtain ⟨hc0, hc9, hc10, hc20, hc30⟩ := bool_code_ne hbc
      have hdrop' : s.data.drop s.pointer.toNat
          = ("9") :: n :: intToDec c :: (if b then ("1") else ("0"))
            :: (headerLines es ++ ("0") :: ("ENDSEC") :: rest) := by
        rw [hdrop, headerLines_cons]
        simp [varLines]
      have hgv : parseGroupValue (some c) (ltrim (if b then ("1") else ("0")))
          = .ok (GroupValue.bool b) := by
        rw [show ltrim (if b then ("1") else ("0")) = (if b then ("1") else ("0"))
          from by cases b <;> decide]
        exact parseGroupValue_bool01 hbc b
      rw [show 4 * List.length (HVar.bool n c b :: es) + (k + 1)
          = ((4 * es.length + ((k + 2) + 1)) + 1) + 1 from by
        simp only [List.length_cons]
        omega]
      obtain ⟨s', heq, hpt, hf, hd, hl⟩ := parseHeaderRun_scalar_step jti es k n c
        (if b then ("1") else ("0")) (GroupValue.bool b) pname pval h0 s rest ih
        hgood' hdrop' hp heof hltn hgv hc0 hc9 hc10 hc20 hc30 hdate
      refine ⟨s', heq, ?_, hf, hd, hl⟩
      rw [hpt, headerLines_cons, List.length_append,
        show (varLines (HVar.bool n c b)).length = 4 from by cases b <;> rfl]
      push_cast
      ring
    | point n x y z =>
      obtain ⟨hltn, hnne, hpn, hfx, hfy, hfz, hcn⟩ := hg
      cases z with
      | none =>
        have hdrop' : s.data.drop s.pointer.toNat
            = ("9") :: n :: intToDec 10 :: serializeFloat (some x)
              :: intToDec 20 :: serializeFloat (some y)
              :: (headerLines es ++ ("0") :: ("ENDSEC") :: rest) := by
          rw [hdrop, headerLines_cons]
          simp [varLines]
        have hgx : parseGroupValue (some 10) (ltrim (serializeFloat (some x)))
            = .ok (GroupValue.num (some x)) := by
          rw [ltrim_serializeFloat x hfx, parseGroupValue_float (by decide),
            parseFloatJS_serializeFloat x hfx]
        have hgy : parseGroupValue (some 20) (ltrim (serializeFloat (some y)))
            = .ok (GroupValue.num (some y)) := by
          rw [ltrim_serializeFloat y hfy, parseGroupValue_float (by decide),
            parseFloatJS_serializeFloat y hfy]
        rw [show 4 * List.length (HVar.point n x y none :: es) + (k + 1)
            = (((4 * es.length + ((k + 1) + 1)) + 1) + 1) + 1 from by
          simp only [List.length_cons]
          omega]
        obtain ⟨s', heq, hpt, hf, hd, hl⟩ := parseHeaderRun_point2_step jti es k n
          (serializeFloat (some x)) (serializeFloat (some y))
          (GroupValue.num (some x)) (GroupValue.num (some y)) pname pval h0 s rest
          ih hgood' hdrop' hp heof hltn hgx hgy
        refine ⟨s', heq, ?_, hf, hd, hl⟩
        rw [hpt, headerLines_cons, List.length_append,
          show (varLines (HVar.point n x y none)).length = 6 from rfl]
        push_cast
        ring
      | some t =>
        have hdrop' : s.data.drop s.pointer.toNat
            = ("9") :: n :: intToDec 10 :: serializeFloat (some x)
              :: intToDec 20 :: serializeFloat (some y)
              :: intToDec 30 :: serializeFloat (some t)
              :: (headerLines es ++ ("0") :: ("ENDSEC") :: rest) := by
          rw [hdrop, headerLines_cons]
          simp [varLines]
        have hgx : parseGroupValue (some 10) (ltrim (serializeFloat (some x)))
            = .ok (GroupValue.num (some x)) := by
          rw [ltrim_serializeFloat x hfx, parseGroupValue_float (by decide),
            parseFloatJS_serializeFloat x hfx]
        have hgy : parseGroupValue (some 20) (ltrim (serializeFloat (some y)))
            = .ok (GroupValue.num (some y)) := by
          rw [ltrim_serializeFloat y hfy, parseGroupValue_float (by decide),
            parseFloatJS_serializeFloat y hfy]
        have hgz : parseGroupValue (some 30) (ltrim (serializeFloat (some t)))
            = .ok (GroupValue.num (some t)) := by
          rw [ltrim_serializeFloat t hfz, parseGroupValue_float (by decide),
            parseFloatJS_serializeFloat t hfz]
        rw [show 4 * List.length (HVar.point n x y (some t) :: es) + (k + 1)
            = ((((4 * es.length + (k + 1)) + 1) + 1) + 1) + 1 from by
          simp only [List.length_cons]
          omega]
        obtain ⟨s', heq, hpt, hf, hd, hl⟩ := parseHeaderRun_point3_step jti es k n
          (serializeFloat (some x)) (serializeFloat (some y)) (serializeFloat (some t))
          (GroupValue.num (some x)) (GroupValue.num (some y)) (GroupValue.num (some t))
          pname pval h0 s rest ih hgood' hdrop' hp heof hltn hgx hgy hgz
        refine ⟨s', heq, ?_, hf, hd, hl⟩
        rw [hpt, headerLines_cons, List.length_append,
          show (varLines (HVar.point n x y (some t))).length = 8 from rfl]
        push_cast
        ring


/-- Full `parseHeader` over the serialized lines of good variables followed
by the ENDSEC and EOF markers: it returns the accumulated header and
swallows the (0, EOF) group, latching the EOF flag. -/
theorem parseHeader_run (jti : JsNum → String) (es : List HVar)
    (s : DxfArrayScanner) (rest : List String)
    (hgood : ∀ e ∈ es, GoodVar e)
    (hdrop : s.data.drop s.pointer.toNat
      = headerLines es ++ ("0") :: ("ENDSEC") :: ("0") :: ("EOF") :: rest)
    (hp : 0 ≤ s.pointer) (heof : s.eof = false) :
    ∃ s'', parseHeader jti s = .ok (headerResult es [] none none, s'') ∧
      s''.pointer = s.pointer + ((headerLines es).length : ℤ) + 4 ∧ s''.eof = true ∧
      s''.data = s.data ∧
      s''.lastReadGroup = some ⟨some 0, GroupValue.str ("EOF")⟩ := by
  obtain ⟨k, hk⟩ : ∃ k : ℕ, s.data.length + 1 = 4 * es.length + (k + 1) := by
    have hlen := congrArg List.length hdrop
    rw [List.length_drop, List.length_append] at hlen
    simp only [List.length_cons] at hlen
    have hlb := headerLines_lb es
    exact ⟨s.data.length - 4 * es.length, by omega⟩
  obtain ⟨s', hrun, hpt, hf, hd, hl⟩ := parseHeaderRun jti es k none none [] s
    (("0") :: ("EOF") :: rest) hgood hdrop hp heof
  have hdrop2 : s'.data.drop s'.pointer.toNat = ("0") :: ("EOF") :: rest := by
    rw [hd, hpt, show (s.pointer + (((headerLines es).length : ℕ) : ℤ) + 2).toNat
        = s.pointer.toNat + ((headerLines es).length + 2) from by omega,
      ← List.drop_drop, hdrop, ← List.drop_drop, List.drop_left]
    rfl
  have hp2 : (0 : ℤ) ≤ s'.pointer := by
    rw [hpt]
    have hge : (0 : ℤ) ≤ (((headerLines es).length : ℕ) : ℤ) := by positivity
    omega
  have hv : parseGroupValue (parseIntJSAuto ("0")) (ltrim ("EOF"))
      = .ok (.str ("EOF")) := by
    rw [show parseIntJSAuto ("0") = some 0 from by decide]
    exact parseGroupValue_string (by decide) _
  have hstep := next_step hdrop2 hp2 hf hv
  rw [show parseIntJSAuto ("0") = some 0 from by decide,
    show (jcEq (some 0) 0
        && GroupValue.jsEq (GroupValue.str ("EOF")) (GroupValue.str ("EOF"))) = true
      from by decide] at hstep
  refine ⟨{ s' with
      pointer := s'.pointer + 2
      eof := true
      lastReadGroup := some ⟨some 0, GroupValue.str ("EOF")⟩ }, ?_, ?_, rfl, hd, rfl⟩
  · unfold parseHeader
    rw [hk, except_bind_ok hrun]
    show (do
        let (_, sc) ← s'.next
        Except.ok (headerResult es [] none none, sc)) = _
    rw [except_bind_ok hstep]
  · show s'.pointer + 2 = s.pointer + (((headerLines es).length : ℕ) : ℤ) + 4
    rw [hpt]
    ring


/-- A good variable serializes to its group lines. -/
theorem serializeVar_good (itj : String → JsNum) (v : HVar) (h : GoodVar v) :
    serializeHeaderEntry itj (hvName v) (some (hvValue v)) = varLines v := by
  cases v with
  | str n c v =>
    obtain ⟨_, _, hdate, hlk, hsc, _⟩ := h
    show serializeHeaderEntry itj n (some (.val (.str v))) = [("9"), n, intToDec c, v]
    unfold serializeHeaderEntry
    rw [hlk]
    simp only [hdate, Bool.false_and, Bool.false_eq_true, if_false]
    rw [serializeGroupValue_string hsc]
  | num n c q =>
    obtain ⟨_, _, hdate, hlk, hfc, _⟩ := h
    show serializeHeaderEntry itj n (some (.val (.num (some q))))
      = [("9"), n, intToDec c, serializeFloat (some q)]
    unfold serializeHeaderEntry
    rw [hlk]
    simp only [Bool.and_false, Bool.false_eq_true, if_false]
    rw [serializeGroupValue_float_num hfc]
  | int n c i =>
    obtain ⟨_, _, hdate, hlk, hic, _⟩ := h
    show serializeHeaderEntry itj n (some (.val (.num (some ((i : ℚ))))))
      = [("9"), n, intToDec c, intToDec i]
    unfold serializeHeaderEntry
    rw [hlk]
    simp only [Bool.and_false, Bool.false_eq_true, if_false]
    rw [serializeGroupValue_int_num hic, jsIntString_int]
  | bool n c b =>
    obtain ⟨_, _, hdate, hlk, hbc, _⟩ := h
    show serializeHeaderEntry itj n (some (.val (.bool b)))
      = [("9"), n, intToDec c, if b then ("1") else ("0")]
    unfold serializeHeaderEntry
    rw [hlk]
    simp only [Bool.and_false, Bool.false_eq_true, if_false]
    rw [serializeGroupValue_bool hbc]
  | point n x y z =>
    obtain ⟨_, _, hpn, _⟩ := h
    cases z with
    | none =>
      show serializeHeaderEntry itj n
          (some (.point ⟨some x, some (some y), none⟩))
        = [("9"), n, intToDec 10, serializeFloat (some x), intToDec 20,
            serializeFloat (some y)] ++ []
      unfold serializeHeaderEntry
      rw [hpn]
      rfl
    | some t =>
      show serializeHeaderEntry itj n
          (some (.point ⟨some x, some (some y), some (some t)⟩))
        = [("9"), n, intToDec 10, serializeFloat (some x), intToDec 20,
            serializeFloat (some y)] ++ [intToDec 30, serializeFloat (some t)]
      unfold serializeHeaderEntry
      rw [hpn]
      rfl

/-- A header of good variables serializes to the section name and the
variable lines. -/
theorem serializeHeader_entries (itj : String → JsNum) :
    ∀ (es : List HVar), (∀ e ∈ es, GoodVar e) →
      serializeHeader itj (entriesOf es) = ("2") :: ("HEADER") :: headerLines es := by
  intro es
  induction es with
  | nil => intro _; rfl
  | cons v es ih =>
    intro hgood
    have htail := ih (fun x hx => hgood x (by simp [hx]))
    unfold serializeHeader at htail ⊢
    simp only [List.cons.injEq, true_and] at htail
    rw [show entriesOf (v :: es) = (hvName v, some (hvValue v)) :: entriesOf es
        from rfl,
      List.flatMap_cons, serializeVar_good itj v (hgood v (by simp)), htail]
    rw [headerLines_cons]

/-- The serialized lines of good variables contain no newline characters. -/
theorem headerLines_clean (es : List HVar) (hgood : ∀ e ∈ es, GoodVar e) :
    ∀ l ∈ headerLines es, ∀ ch ∈ l.data, ch ≠ ('\r') ∧ ch ≠ ('\n') := by
  intro l hl
  unfold headerLines at hl
  rw [List.mem_flatMap] at hl
  obtain ⟨v, hv, hmem⟩ := hl
  have hg := hgood v hv
  cases v with
  | str n c v =>
    obtain ⟨_, _, _, _, _, _, _, _, _, _, _, hcn, hcv⟩ := hg
    simp only [varLines, List.mem_cons, List.not_mem_nil, or_false] at hmem
    rcases hmem with h | h | h | h
    · subst h
      decide
    · subst h
      exact hcn
    · subst h
      exact intToDec_clean c
    · subst h
      exact hcv
  | num n c q =>
    obtain ⟨_, _, _, _, _, _, _, _, hfin, hcn⟩ := hg
    simp only [varLines, List.mem_cons, List.not_mem_nil, or_false] at hmem
    rcases hmem with h | h | h | h
    · subst h
      decide
    · subst h
      exact hcn
    · subst h
      exact intToDec_clean c
    · subst h
      exact serializeFloat_clean q hfin
  | int n c i =>
    obtain ⟨_, _, _, _, _, hcn⟩ := hg
    simp only [varLines, List.mem_cons, List.not_mem_nil, or_false] at hmem
    rcases hmem with h | h | h | h
    · subst h
      decide
    · subst h
      exact hcn
    · subst h
      exact intToDec_clean c
    · subst h
      exact intToDec_clean i
  | bool n c b =>
    obtain ⟨_, _, _, _, _, hcn⟩ := hg
    simp only [varLines, List.mem_cons, List.not_mem_nil, or_false] at hmem
    rcases hmem with h | h | h | h
    · subst h
      decide
    · subst h
      exact hcn
    · subst h
      exact intToDec_clean c
    · subst h
      cases b
      · decide
      · decide
  | point n x y z =>
    obtain ⟨_, _, _, hfx, hfy, hfz, hcn⟩ := hg
    cases z with
    | none =>
      simp only [varLines, List.append_nil, List.mem_cons, List.not_mem_nil,
        or_false] at hmem
      rcases hmem with h | h | h | h | h | h
      · subst h
        decide
      · subst h
        exact hcn
      · subst h
        exact intToDec_clean 10
      · subst h
        exact serializeFloat_clean x hfx
      · subst h
        exact intToDec_clean 20
      · subst h
        exact serializeFloat_clean y hfy
    | some t =>
      simp only [varLines, List.cons_append, List.nil_append, List.mem_cons,
        List.not_mem_nil, or_false] at hmem
      rcases hmem with h | h | h | h | h | h | h | h
      · subst h
        decide
      · subst h
        exact hcn
      · subst h
        exact intToDec_clean 10
      · subst h
        exact serializeFloat_clean x hfx
      · subst h
        exact intToDec_clean 20
      · subst h
        exact serializeFloat_clean y hfy
      · subst h
        exact intToDec_clean 30
      · subst h
        exact serializeFloat_clean t hfz


/-- **C1.**  Round trip for valid documents (amended).  For a document whose
header holds variables with pairwise distinct names — raw strings, numbers,
integers and booleans under a `codeByName`-listed non-date name whose code
has the matching range, and 2D/3D points under a `pointNames` name — parsing
the serialized text yields the document back field-for-field; in particular
the absent blocks, entities, tables and classes sections stay absent (the
parsed `IDxf` literal carries `none` for all four).  The `codeByName`
restriction is forced by the exhibited counterexample (the serializer
silently drops unlisted names); the date-name restriction is forced because
the two sides route date values through the caller-supplied conversion pair;
the remaining side conditions (names and string values trim-invariant and
newline-free, numbers finite-decimal, string codes off the specially parsed
codes 0/9/10/20/30) only exclude values the line-oriented format cannot
carry verbatim.  Documents with sections beyond the header lie outside the
embedded fragment, not refuted. -/
theorem c1_round_trip (jti : JsNum → String) (itj : String → JsNum)
    (es : List HVar)
    (hgood : ∀ e ∈ es, GoodVar e)
    (hnd : (es.map hvName).Nodup) :
    DxfParser.parse jti
        (DxfParser.serializeToString itj { header := some (entriesOf es) })
      = .ok { header := some (entriesOf es) } := by
  have hne : ∀ e ∈ es, hvName e ≠ ("") := fun e he => hvName_ne_of_good (hgood e he)
  have hser : DxfParser.serialize itj ({ header := some (entriesOf es) } : IDxf)
      = ("0") :: ("SECTION") :: ("2") :: ("HEADER") :: (headerLines es ++ [("0"), ("ENDSEC"), ("0"), ("EOF")]) := by
    unfold DxfParser.serialize
    dsimp only
    rw [serializeHeader_entries itj es hgood]
    simp
  have hclean : ∀ l ∈ ("0") :: ("SECTION") :: ("2") :: ("HEADER") :: (headerLines es ++ [("0"), ("ENDSEC"), ("0"), ("EOF")]),
      ∀ ch ∈ l.data, ch ≠ ('\r') ∧ ch ≠ ('\n') := by
    intro l hl
    simp only [List.mem_cons, List.mem_append, List.not_mem_nil, or_false] at hl
    rcases hl with h | h | h | h | h | h | h | h | h
    · subst h
      decide
    · subst h
      decide
    · subst h
      decide
    · subst h
      decide
    · exact headerLines_clean es hgood l h
    · subst h
      decide
    · subst h
      decide
    · subst h
      decide
    · subst h
      decide
  have hlenL : (("0") :: ("SECTION") :: ("2") :: ("HEADER") :: (headerLines es ++ [("0"), ("ENDSEC"), ("0"), ("EOF")])).length = (headerLines es).length + 8 := by
    simp only [List.length_cons, List.length_append, List.length_nil]
  have hhn : (({ data := ("0") :: ("SECTION") :: ("2") :: ("HEADER") :: (headerLines es ++ [("0"), ("ENDSEC"), ("0"), ("EOF")]) } : DxfArrayScanner)).hasNext = true := by
    show (if (false : Bool) = true then false
        else if (0 : ℤ) > (((("0") :: ("SECTION") :: ("2") :: ("HEADER") :: (headerLines es ++ [("0"), ("ENDSEC"), ("0"), ("EOF")])).length : ℕ) : ℤ) - 2 then false else true) = true
    have h2 : ¬ ((0 : ℤ) > (((("0") :: ("SECTION") :: ("2") :: ("HEADER") :: (headerLines es ++ [("0"), ("ENDSEC"), ("0"), ("EOF")])).length : ℕ) : ℤ) - 2) := by
      rw [hlenL]
      push_cast
      omega
    rw [if_neg (show ¬ ((false : Bool) = true) from by decide), if_neg h2]
  have hdrop0 : (({ data := ("0") :: ("SECTION") :: ("2") :: ("HEADER") :: (headerLines es ++ [("0"), ("ENDSEC"), ("0"), ("EOF")]) } : DxfArrayScanner)).data.drop
      (({ data := ("0") :: ("SECTION") :: ("2") :: ("HEADER") :: (headerLines es ++ [("0"), ("ENDSEC"), ("0"), ("EOF")]) } : DxfArrayScanner)).pointer.toNat
      = ("0") :: ("SECTION")
        :: (("2") :: ("HEADER")
          :: (headerLines es ++ [("0"), ("ENDSEC"), ("0"), ("EOF")])) := rfl
  have hv0 : parseGroupValue (parseIntJSAuto ("0")) (ltrim ("SECTION"))
      = .ok (.str ("SECTION")) := by
    rw [show parseIntJSAuto ("0") = some 0 from by decide]
    exact parseGroupValue_string (by decide) _
  have hstep0 := next_step hdrop0 (le_refl (0 : ℤ)) rfl hv0
  rw [show parseIntJSAuto ("0") = some 0 from by decide,
    show (jcEq (some 0) 0 && GroupValue.jsEq (GroupValue.str ("SECTION"))
        (GroupValue.str ("EOF"))) = false from by decide] at hstep0
  have hv1 : parseGroupValue (parseIntJSAuto ("2")) (ltrim ("HEADER"))
      = .ok (.str ("HEADER")) := by
    rw [show parseIntJSAuto ("2") = some 2 from by decide]
    exact parseGroupValue_string (by decide) _
  have hstep1 := next_step2 (⟨some 0, GroupValue.str ("SECTION")⟩ : IGroup) hdrop0
    (le_refl (0 : ℤ)) hv1
  rw [show parseIntJSAuto ("2") = some 2 from by decide,
    show (jcEq (some 2) 0 && GroupValue.jsEq (GroupValue.str ("HEADER"))
        (GroupValue.str ("EOF"))) = false from by decide] at hstep1
  obtain ⟨s3, hph, hpt3, hf3, hd3, hl3⟩ := parseHeader_run jti es
    ({ data := ("0") :: ("SECTION") :: ("2") :: ("HEADER") :: (headerLines es ++ [("0"), ("ENDSEC"), ("0"), ("EOF")])
       pointer := 4
       eof := false
       lastReadGroup := some ⟨some 2, GroupValue.str ("HEADER")⟩ } : DxfArrayScanner)
    [] hgood rfl (by show (0 : ℤ) ≤ (4 : ℤ); omega) rfl
  have hall : parseAll jti ({ data := ("0") :: ("SECTION") :: ("2") :: ("HEADER") :: (headerLines es ++ [("0"), ("ENDSEC"), ("0"), ("EOF")]) } : DxfArrayScanner)
      = .ok (({ header := some (headerResult es [] none none) } : IDxf), s3) := by
    unfold parseAll
    rw [except_bind_ok hstep0]
    show parseAllLoop jti (((("0") :: ("SECTION") :: ("2") :: ("HEADER") :: (headerLines es ++ [("0"), ("ENDSEC"), ("0"), ("EOF")])).length + 1) + 1) ({} : IDxf)
        ⟨some 0, GroupValue.str ("SECTION")⟩
        ({ data := ("0") :: ("SECTION") :: ("2") :: ("HEADER") :: (headerLines es ++ [("0"), ("ENDSEC"), ("0"), ("EOF")])
           pointer := 2
           eof := false
           lastReadGroup := some ⟨some 0, GroupValue.str ("SECTION")⟩ }
          : DxfArrayScanner)
      = Except.ok (({ header := some (headerResult es [] none none) } : IDxf), s3)
    rw [parseAllLoop_header jti ((("0") :: ("SECTION") :: ("2") :: ("HEADER") :: (headerLines es ++ [("0"), ("ENDSEC"), ("0"), ("EOF")])).length + 1) ({} : IDxf)
      ({ data := ("0") :: ("SECTION") :: ("2") :: ("HEADER") :: (headerLines es ++ [("0"), ("ENDSEC"), ("0"), ("EOF")])
         pointer := 2
         eof := false
         lastReadGroup := some ⟨some 0, GroupValue.str ("SECTION")⟩ }
        : DxfArrayScanner)
      ({ data := ("0") :: ("SECTION") :: ("2") :: ("HEADER") :: (headerLines es ++ [("0"), ("ENDSEC"), ("0"), ("EOF")])
         pointer := 4
         eof := false
         lastReadGroup := some ⟨some 2, GroupValue.str ("HEADER")⟩ }
        : DxfArrayScanner)
      (headerResult es [] none none) s3 ⟨some 0, GroupValue.str ("EOF")⟩
      rfl hstep1 hph hl3]
    rw [parseAllLoop_stop jti (("0") :: ("SECTION") :: ("2") :: ("HEADER") :: (headerLines es ++ [("0"), ("ENDSEC"), ("0"), ("EOF")])).length _ _ s3 hf3]
  have hne0 : ¬ ((({ data := ("0") :: ("SECTION") :: ("2") :: ("HEADER") :: (headerLines es ++ [("0"), ("ENDSEC"), ("0"), ("EOF")]) } : DxfArrayScanner)).hasNext = false) := by
    rw [hhn]
    decide
  unfold DxfParser.serializeToString
  rw [hser]
  unfold DxfParser.parse
  rw [splitNewlines_joinNewlines _ (by simp) hclean]
  dsimp only
  rw [if_neg hne0]
  rw [except_bind_ok hall]
  show Except.ok ({ header := some (headerResult es [] none none) } : IDxf)
    = Except.ok ({ header := some (entriesOf es) } : IDxf)
  rw [headerResult_init es hne hnd]

/-- Witness: the amended C1 theorem applied to a five-variable header
exercising every variable kind — `$ACADVER = "AC1014"` (string, code 1),
`$LTSCALE = 3` (float, code 40), `$ANGDIR = 1` (integer, code 70),
`$EXTNAMES = true` (boolean, code 290) and the 3D point `$EXTMIN = (1,2,3)`
— with the hypotheses checked by computation. -/
theorem c1_round_trip_witness :
    (∀ e ∈ [HVar.str ("$ACADVER") 1 ("AC1014"),
        HVar.num ("$LTSCALE") 40 ((3 : ℚ)),
        HVar.int ("$ANGDIR") 70 1,
        HVar.bool ("$EXTNAMES") 290 true,
        HVar.point ("$EXTMIN") ((1 : ℚ)) ((2 : ℚ)) (some ((3 : ℚ)))], GoodVar e) ∧
    ([HVar.str ("$ACADVER") 1 ("AC1014"),
        HVar.num ("$LTSCALE") 40 ((3 : ℚ)),
        HVar.int ("$ANGDIR") 70 1,
        HVar.bool ("$EXTNAMES") 290 true,
        HVar.point ("$EXTMIN") ((1 : ℚ)) ((2 : ℚ)) (some ((3 : ℚ)))].map
      hvName).Nodup ∧
    DxfParser.parse (fun _ => ("")) (DxfParser.serializeToString (fun _ => none)
        { header := some (entriesOf [HVar.str ("$ACADVER") 1 ("AC1014"),
            HVar.num ("$LTSCALE") 40 ((3 : ℚ)),
            HVar.int ("$ANGDIR") 70 1,
            HVar.bool ("$EXTNAMES") 290 true,
            HVar.point ("$EXTMIN") ((1 : ℚ)) ((2 : ℚ)) (some ((3 : ℚ)))]) })
      = .ok { header := some (entriesOf [HVar.str ("$ACADVER") 1 ("AC1014"),
          HVar.num ("$LTSCALE") 40 ((3 : ℚ)),
          HVar.int ("$ANGDIR") 70 1,
          HVar.bool ("$EXTNAMES") 290 true,
          HVar.point ("$EXTMIN") ((1 : ℚ)) ((2 : ℚ)) (some ((3 : ℚ)))]) } :=
  ⟨by decide, by decide,
    c1_round_trip (fun _ => ("")) (fun _ => none)
      [HVar.str ("$ACADVER") 1 ("AC1014"),
        HVar.num ("$LTSCALE") 40 ((3 : ℚ)),
        HVar.int ("$ANGDIR") 70 1,
        HVar.bool ("$EXTNAMES") 290 true,
        HVar.point ("$EXTMIN") ((1 : ℚ)) ((2 : ℚ)) (some ((3 : ℚ)))]
      (by decide) (by decide)⟩

end Dxf
